import Mathlib

/-!
Verification model of the dashboard repository, shallowly embedding the
Reconciliation Pipeline (`app/services/data_sync_service.py`) and the
Analytics Engine (`app/services/analytics_engine.py`) together with the
entity schema of `app/models/financial_models.py`.

Conventions of the embedding:
* Monetary values (Python `Decimal`) are rationals (`Rat`).
* Calendar dates are integers; an integer date supports the `today - N days`
  arithmetic used by the analytics code.  Dates parsed from `YYYY-MM-DD`
  strings are encoded order-preservingly; parsed dates are only stored and
  compared, never mixed with day arithmetic.
* Raw upstream scalar values that Python inspects dynamically (may be `None`,
  a number, or a string) are modelled by `PyVal`; Python truthiness is
  modelled explicitly.
* Entities are rows in lists inside `Db`; the ORM find-first / add pattern
  becomes an explicit first-match update or append.  Volatile audit
  timestamps (`created_at`, `updated_at`, `last_balance_update`,
  `last_updated`) carry no logic and are omitted from the rows.
* Python exceptions that escape a block are modelled with `Except String`.
-/

/-- Model of a raw scalar arriving from the aggregator: Python `None`, a
numeric value, or a string. -/
inductive PyVal where
  | none : PyVal
  | num : Rat → PyVal
  | str : String → PyVal
  deriving DecidableEq, Repr

/-- Python truthiness of a `PyVal`: `None` and `0` and `""` are falsy. -/
def pyTruthy : PyVal → Bool
  | .none => false
  | .num q => q != 0
  | .str s => s != ""

/-- Numeric value of a digit list, most significant first. -/
def digitsToNat (cs : List Char) : Nat :=
  cs.foldl (fun n c => 10 * n + (c.toNat - '0'.toNat)) 0

/-- Parse an unsigned fixed-point literal (`digits`, `digits.digits`,
`.digits`, `digits.`).  This models the plain fixed-point core of the
grammar shared by `decimal.Decimal` and `float`; exponent forms and the
special values are outside the model. -/
def parseUnsignedNumber (cs : List Char) : Option Rat :=
  let intPart := cs.takeWhile Char.isDigit
  let rest := cs.dropWhile Char.isDigit
  match rest with
  | [] => if intPart.isEmpty then Option.none else some ((digitsToNat intPart : Nat) : Rat)
  | '.' :: frac =>
      if frac.all Char.isDigit && (!intPart.isEmpty || !frac.isEmpty) then
        some (((digitsToNat intPart : Nat) : Rat)
          + ((digitsToNat frac : Nat) : Rat) / ((10 : Rat) ^ frac.length))
      else Option.none
  | _ => Option.none

/-- Parse an optionally signed fixed-point numeric literal. -/
def parseNumber (s : String) : Option Rat :=
  match s.toList with
  | '-' :: rest => (parseUnsignedNumber rest).map (fun q => -q)
  | '+' :: rest => parseUnsignedNumber rest
  | cs => parseUnsignedNumber cs

/-- `safe_decimal` from `data_sync_service.py`: `None` maps to `None`,
any other value is converted through `Decimal(str(value))`, and a
conversion failure yields `Decimal(0)`. -/
def safe_decimal : PyVal → Option Rat
  | .none => Option.none
  | .num q => some q
  | .str s => some ((parseNumber s).getD 0)

/-- The `float(value)` conversion on line 211 of `data_sync_service.py`:
unlike `safe_decimal` it raises on `None` and on an unparsable string. -/
def pyFloat : PyVal → Except String Rat
  | .none => .error "TypeError: float() argument is None"
  | .num q => .ok q
  | .str s =>
      match parseNumber s with
      | some q => .ok q
      | Option.none => .error ("ValueError: could not convert string to float: " ++ s)

/-- Python `a or default` on an optional string: `None` and `""` are falsy. -/
def pyOrStr (a : Option String) (dflt : String) : String :=
  match a with
  | some s => if s = "" then dflt else s
  | Option.none => dflt

/-- Python `a or b` where both operands are optional strings. -/
def pyOrOptStr (a b : Option String) : Option String :=
  match a with
  | some s => if s = "" then b else a
  | Option.none => b

/-- Model of a raw date value from the aggregator: `None`, a `YYYY-MM-DD`
string, or an already constructed date object. -/
inductive DateVal where
  | none : DateVal
  | str : String → DateVal
  | obj : Int → DateVal
  deriving DecidableEq, Repr

/-- Python truthiness of a raw date value (`""` is falsy). -/
def dateTruthy : DateVal → Bool
  | .none => false
  | .str s => s != ""
  | .obj _ => true

/-- Parse `YYYY-MM-DD` as `datetime.strptime(value, "%Y-%m-%d")` does,
encoded order-preservingly as `y * 10000 + m * 100 + d`.  Day-of-month
validity per individual month is abstracted to the range `1..31`. -/
def parseDateYMD (s : String) : Option Int :=
  match s.splitOn "-" with
  | [ys, ms, ds] =>
      if ys.length = 4 && ys.toList.all Char.isDigit
          && ms.length = 2 && ms.toList.all Char.isDigit
          && ds.length = 2 && ds.toList.all Char.isDigit then
        let y := digitsToNat ys.toList
        let m := digitsToNat ms.toList
        let d := digitsToNat ds.toList
        if 1 ≤ m && m ≤ 12 && 1 ≤ d && d ≤ 31 then
          some ((y * 10000 + m * 100 + d : Nat) : Int)
        else Option.none
      else Option.none
  | _ => Option.none

/-- Update the first element satisfying `p`, leaving the rest unchanged:
the effect of mutating the object returned by `query.first()`. -/
def findUpdate (p : α → Bool) (f : α → α) : List α → List α
  | [] => []
  | x :: xs => if p x then f x :: xs else x :: findUpdate p f xs

/-! ## Entity schema (`app/models/financial_models.py`) -/

/-- `PlaidItem` row: one connection to a financial institution. -/
structure PlaidItem where
  id : String
  user_id : String
  access_token : String
  last_synced_at : Option Int
  deriving DecidableEq, Repr

/-- `Account` row.  `account_id` is the externally unique aggregator id
used as the upsert key; boolean defaults are the column defaults. -/
structure Account where
  account_id : String
  plaid_item_id : String
  user_id : String
  name : Option String
  official_name : Option String
  mask : Option String
  type : Option String
  subtype : Option String
  balance_available : Option Rat
  balance_current : Option Rat
  balance_limit : Option Rat
  iso_currency_code : String
  is_asset : Bool
  is_liquid : Bool
  include_in_net_worth : Bool
  custom_category : Option String
  is_active : Bool
  deriving DecidableEq, Repr

/-- `Transaction` row, keyed by the external `transaction_id`; `account_id`
references the owning account by its external id. -/
structure Transaction where
  transaction_id : String
  account_id : String
  user_id : String
  amount : Option Rat
  iso_currency_code : String
  date : Option Int
  name : Option String
  merchant_name : Option String
  category_primary : Option String
  category_detailed : Option String
  cash_flow_type : Option String
  pending : Bool
  location_city : Option String
  location_region : Option String
  location_country : Option String
  deriving DecidableEq, Repr

/-- `Security` row, keyed by the external `security_id`. -/
structure Security where
  security_id : String
  ticker_symbol : Option String
  cusip : Option String
  isin : Option String
  name : Option String
  type : Option String
  close_price : Option Rat
  iso_currency_code : String
  is_cash_equivalent : Bool
  sector : Option String
  deriving DecidableEq, Repr

/-- `Holding` row, keyed by the pair of owning account and security
(external ids). -/
structure Holding where
  account_id : String
  user_id : String
  security_id : String
  quantity : Option Rat
  cost_basis : Option Rat
  institution_price : Option Rat
  institution_value : Option Rat
  iso_currency_code : String
  unrealized_gain_loss : Option Rat
  unrealized_gain_loss_percent : Option Rat
  deriving DecidableEq, Repr

/-- `Liability` row: at most one per account, looked up by `account_id`. -/
structure Liability where
  account_id : String
  user_id : String
  type : Option String
  is_overdue : Option Bool
  last_payment_amount : Option Rat
  last_statement_balance : Option Rat
  minimum_payment_amount : Option Rat
  next_payment_due_date : Option Int
  interest_rate_percentage : Option Rat
  interest_rate_type : Option String
  origination_date : Option Int
  origination_principal_amount : Option Rat
  deriving DecidableEq, Repr

/-- `BalanceSnapshot` row: one per (account, calendar date). -/
structure BalanceSnapshot where
  account_id : String
  user_id : String
  snapshot_date : Int
  balance_available : Option Rat
  balance_current : Option Rat
  balance_limit : Option Rat
  deriving DecidableEq, Repr

/-- `NetWorthSnapshot` row: one per (user, calendar date). -/
structure NetWorthSnapshot where
  user_id : String
  snapshot_date : Int
  total_assets : Option Rat
  liquid_assets : Option Rat
  investment_assets : Option Rat
  total_liabilities : Option Rat
  credit_card_debt : Option Rat
  loan_debt : Option Rat
  net_worth : Option Rat
  daily_change : Option Rat
  daily_change_percent : Option Rat
  deriving DecidableEq, Repr

/-- `RecurringTransaction` row: a detected recurring stream. -/
structure RecurringTransaction where
  user_id : String
  account_id : String
  description : Option String
  merchant_name : Option String
  frequency : Option String
  average_amount : Option Rat
  last_amount : Option Rat
  is_income : Bool
  is_active : Bool
  next_expected_date : Option Int
  deriving DecidableEq, Repr

/-- The local database: one list of rows per table. -/
structure Db where
  items : List PlaidItem
  accounts : List Account
  transactions : List Transaction
  holdings : List Holding
  securities : List Security
  liabilities : List Liability
  balance_snapshots : List BalanceSnapshot
  net_worth_snapshots : List NetWorthSnapshot
  recurring_transactions : List RecurringTransaction
  deriving DecidableEq, Repr

/-! ## Upstream records (aggregator responses consumed by the pipeline)

Enum-like fields have already passed `safe_str`, so they appear as
`Option String`; numeric fields appear as raw `PyVal` because the pipeline
inspects them dynamically. -/

/-- One account record of a `get_accounts_balance` response, with its
`balances` sub-object flattened. -/
structure AccData where
  account_id : String
  name : Option String
  official_name : Option String
  mask : Option String
  type : Option String
  subtype : Option String
  bal_available : PyVal
  bal_current : PyVal
  bal_limit : PyVal
  iso_currency_code : Option String
  deriving DecidableEq, Repr

/-- The `personal_finance_category` sub-object of a transaction record;
the record-level field is `Option PFCategory`, where `Option.none` models
a missing or empty (falsy) dictionary. -/
structure PFCategory where
  primary : Option String
  detailed : Option String
  deriving DecidableEq, Repr

/-- One transaction record of a `get_transactions` response.  A missing
`amount` key defaults to `.num 0` on the Python side (`get("amount", 0)`),
so the field holds the already defaulted value. -/
structure TxnData where
  transaction_id : String
  account_id : String
  amount : PyVal
  iso_currency_code : Option String
  date : DateVal
  name : Option String
  merchant_name : Option String
  personal_finance_category : Option PFCategory
  pending : Bool
  location_city : Option String
  location_region : Option String
  location_country : Option String
  deriving DecidableEq, Repr

/-- One security record of a `get_investments_holdings` response. -/
structure SecData where
  security_id : String
  ticker_symbol : Option String
  cusip : Option String
  isin : Option String
  name : Option String
  type : Option String
  close_price : PyVal
  iso_currency_code : Option String
  is_cash_equivalent : Bool
  deriving DecidableEq, Repr

/-- One holding record of a `get_investments_holdings` response. -/
structure HoldingData where
  account_id : String
  security_id : Option String
  quantity : PyVal
  cost_basis : PyVal
  institution_price : PyVal
  institution_value : PyVal
  iso_currency_code : Option String
  deriving DecidableEq, Repr

/-- One credit-card record of a `get_liabilities` response. -/
structure CreditLiabData where
  account_id : String
  is_overdue : Bool
  last_payment_amount : PyVal
  last_statement_balance : PyVal
  minimum_payment_amount : PyVal
  next_payment_due_date : DateVal
  deriving DecidableEq, Repr

/-- One student-loan record of a `get_liabilities` response. -/
structure StudentLiabData where
  account_id : String
  interest_rate_percentage : PyVal
  origination_principal_amount : PyVal
  origination_date : DateVal
  deriving DecidableEq, Repr

/-- One mortgage record of a `get_liabilities` response. -/
structure MortgageLiabData where
  account_id : String
  interest_rate_percentage : PyVal
  interest_rate_type : Option String
  origination_principal_amount : PyVal
  origination_date : DateVal
  deriving DecidableEq, Repr

/-- The `liabilities` object of a `get_liabilities` response. -/
structure LiabData where
  credit : List CreditLiabData
  student : List StudentLiabData
  mortgage : List MortgageLiabData
  deriving DecidableEq, Repr

/-- All aggregator responses consumed by one `sync_item` run; an `error`
value models the aggregator call raising. -/
structure Upstream where
  accounts_resp : Except String (List AccData)
  transactions_resp : Except String (List TxnData)
  investments_resp : Except String (List SecData × List HoldingData)
  liabilities_resp : Except String LiabData
  deriving Repr

/-! ## Reconciliation Pipeline (`data_sync_service.py`) -/

/-- Fresh `Account` row as built by the constructor call in
`_sync_accounts` (lines 116-120), with column defaults for the rest. -/
def mkAccount (item : PlaidItem) (accId : String) : Account :=
  { account_id := accId
    plaid_item_id := item.id
    user_id := item.user_id
    name := Option.none, official_name := Option.none, mask := Option.none
    type := Option.none, subtype := Option.none
    balance_available := Option.none, balance_current := Option.none
    balance_limit := Option.none
    iso_currency_code := "USD"
    is_asset := true, is_liquid := false, include_in_net_worth := true
    custom_category := Option.none, is_active := true }

/-- The field updates `_sync_accounts` applies to a (found or fresh)
account row, lines 123-142: details, balances, and the classification
rule `is_asset = type not in [credit, loan]`, `is_liquid = (type ==
depository)`, applied on every sync. -/
def updateAccountFields (r : AccData) (a : Account) : Account :=
  { a with
    name := r.name
    official_name := r.official_name
    mask := r.mask
    type := r.type
    subtype := r.subtype
    balance_available := safe_decimal r.bal_available
    balance_current := safe_decimal r.bal_current
    balance_limit := if pyTruthy r.bal_limit then safe_decimal r.bal_limit else Option.none
    iso_currency_code := pyOrStr r.iso_currency_code "USD"
    is_asset := !(r.type == some "credit") && !(r.type == some "loan")
    is_liquid := r.type == some "depository" }

/-- `_create_balance_snapshot`: update the snapshot for (account, today)
in place if present, else insert a new row. -/
def createBalanceSnapshot (today : Int) (a : Account)
    (snaps : List BalanceSnapshot) : List BalanceSnapshot :=
  let p := fun s : BalanceSnapshot =>
    s.account_id == a.account_id && s.snapshot_date == today
  match snaps.find? p with
  | some _ =>
      findUpdate p (fun s =>
        { s with
          balance_available := a.balance_available
          balance_current := a.balance_current
          balance_limit := a.balance_limit }) snaps
  | Option.none =>
      snaps ++ [{ account_id := a.account_id, user_id := a.user_id
                  snapshot_date := today
                  balance_available := a.balance_available
                  balance_current := a.balance_current
                  balance_limit := a.balance_limit }]

/-- One iteration of the `_sync_accounts` loop: find or create by external
`account_id`, overwrite mutable fields, upsert the daily balance snapshot,
and count the record. -/
def syncAccountsStep (item : PlaidItem) (today : Int)
    (st : List Account × List BalanceSnapshot × Nat) (r : AccData) :
    List Account × List BalanceSnapshot × Nat :=
  let (accounts, snaps, n) := st
  let p := fun a : Account => a.account_id == r.account_id
  match accounts.find? p with
  | some a =>
      let a' := updateAccountFields r a
      (findUpdate p (updateAccountFields r) accounts,
       createBalanceSnapshot today a' snaps, n + 1)
  | Option.none =>
      let a' := updateAccountFields r (mkAccount item r.account_id)
      (accounts ++ [a'], createBalanceSnapshot today a' snaps, n + 1)

/-- `_sync_accounts`: processes every account record of the response; the
per-record body is total, so only a failed aggregator call aborts the
category. -/
def syncAccounts (accounts : List Account) (snaps : List BalanceSnapshot)
    (item : PlaidItem) (resp : Except String (List AccData)) (today : Int) :
    Except String (List Account × List BalanceSnapshot × Nat) :=
  match resp with
  | .error e => .error e
  | .ok recs => .ok (recs.foldl (syncAccountsStep item today) (accounts, snaps, 0))

/-- Cash-flow classification of `_sync_transactions` (lines 210-218):
negative amount is income, else a transfer category is a transfer, else
an expense. -/
def cashFlowType (amount : Rat) (primaryCat : Option String) : String :=
  if amount < 0 then "income"
  else if primaryCat == some "TRANSFER_IN" || primaryCat == some "TRANSFER_OUT" then "transfer"
  else "expense"

/-- Date normalization of `_sync_transactions` (lines 192-199): a string
is parsed with `strptime` (raising on malformed input); any other value,
including `None`, is stored as is. -/
def parseTxnDate : DateVal → Except String (Option Int)
  | .str s =>
      match parseDateYMD s with
      | some d => .ok (some d)
      | Option.none => .error ("ValueError: time data " ++ s ++ " does not match format")
  | .obj d => .ok (some d)
  | .none => .ok Option.none

/-- Fresh `Transaction` row as built by the constructor call in
`_sync_transactions` (lines 181-185). -/
def mkTransaction (account : Account) (item : PlaidItem) (txnId : String) :
    Transaction :=
  { transaction_id := txnId
    account_id := account.account_id
    user_id := item.user_id
    amount := Option.none, iso_currency_code := "USD", date := Option.none
    name := Option.none, merchant_name := Option.none
    category_primary := Option.none, category_detailed := Option.none
    cash_flow_type := Option.none, pending := false
    location_city := Option.none, location_region := Option.none
    location_country := Option.none }

/-- The field updates `_sync_transactions` applies to a (found or fresh)
transaction row, lines 188-226.  The two fallible spots are the
`strptime` date parse and the `float(amount)` conversion feeding the
cash-flow classification; category fields are only touched when the
`personal_finance_category` object is truthy. -/
def updateTransactionFields (r : TxnData) (t : Transaction) :
    Except String Transaction := do
  let d ← parseTxnDate r.date
  let amt ← pyFloat r.amount
  let primaryCat : Option String :=
    match r.personal_finance_category with
    | some pf => pf.primary
    | Option.none => some ""
  .ok { t with
    amount := safe_decimal r.amount
    iso_currency_code := pyOrStr r.iso_currency_code "USD"
    date := d
    name := r.name
    merchant_name := r.merchant_name
    category_primary :=
      match r.personal_finance_category with
      | some pf => some (pyOrStr pf.primary "UNCATEGORIZED")
      | Option.none => t.category_primary
    category_detailed :=
      match r.personal_finance_category with
      | some pf => pf.detailed
      | Option.none => t.category_detailed
    cash_flow_type := some (cashFlowType amt primaryCat)
    pending := r.pending
    location_city := r.location_city
    location_region := r.location_region
    location_country := r.location_country }

/-- One iteration of the `_sync_transactions` loop: an unknown transaction
whose account is also unknown is skipped without touching the record
(`continue` fires before any parsing); otherwise the row is found or
created and updated, and the record counted. -/
def syncTransactionsStep (accounts : List Account) (item : PlaidItem)
    (st : List Transaction × Nat) (r : TxnData) :
    Except String (List Transaction × Nat) :=
  let (txns, n) := st
  let p := fun t : Transaction => t.transaction_id == r.transaction_id
  match txns.find? p with
  | some t => do
      let t' ← updateTransactionFields r t
      .ok (findUpdate p (fun _ => t') txns, n + 1)
  | Option.none =>
      match accounts.find? (fun a => a.account_id == r.account_id) with
      | Option.none => .ok (txns, n)
      | some account => do
          let t' ← updateTransactionFields r (mkTransaction account item r.transaction_id)
          .ok (txns ++ [t'], n + 1)

/-- `_sync_transactions`: the first record that raises aborts the
category (uncommitted); the accounts table is read but never written. -/
def syncTransactions (txns : List Transaction) (accounts : List Account)
    (item : PlaidItem) (resp : Except String (List TxnData)) :
    Except String (List Transaction × Nat) :=
  match resp with
  | .error e => .error e
  | .ok recs => recs.foldlM (syncTransactionsStep accounts item) (txns, 0)

/-- Fresh `Security` row as built by `_sync_security` (lines 302-306). -/
def mkSecurity (secId : String) : Security :=
  { security_id := secId
    ticker_symbol := Option.none, cusip := Option.none, isin := Option.none
    name := Option.none, type := Option.none, close_price := Option.none
    iso_currency_code := "USD", is_cash_equivalent := false
    sector := Option.none }

/-- The field updates `_sync_security` applies (lines 308-316). -/
def updateSecurityFields (r : SecData) (s : Security) : Security :=
  { s with
    ticker_symbol := r.ticker_symbol
    cusip := r.cusip
    isin := r.isin
    name := r.name
    type := r.type
    close_price := safe_decimal r.close_price
    iso_currency_code := pyOrStr r.iso_currency_code "USD"
    is_cash_equivalent := r.is_cash_equivalent }

/-- `_sync_security` applied to one record: find or create by external
`security_id` and overwrite the mutable fields. -/
def syncSecurityStep (securities : List Security) (r : SecData) :
    List Security :=
  let p := fun s : Security => s.security_id == r.security_id
  match securities.find? p with
  | some _ => findUpdate p (updateSecurityFields r) securities
  | Option.none => securities ++ [updateSecurityFields r (mkSecurity r.security_id)]

/-- Fresh `Holding` row as built in `_sync_investments` (lines 269-273). -/
def mkHolding (account : Account) (item : PlaidItem) (secId : String) :
    Holding :=
  { account_id := account.account_id
    user_id := item.user_id
    security_id := secId
    quantity := Option.none, cost_basis := Option.none
    institution_price := Option.none, institution_value := Option.none
    iso_currency_code := "USD"
    unrealized_gain_loss := Option.none
    unrealized_gain_loss_percent := Option.none }

/-- The field updates `_sync_investments` applies to a (found or fresh)
holding row, lines 276-288.  When the stored cost basis is positive the
gain/loss is computed from the stored institution value; a `None`
institution value then raises (`None - Decimal`). -/
def updateHoldingFields (r : HoldingData) (h : Holding) :
    Except String Holding :=
  let h1 := { h with
    quantity := safe_decimal r.quantity
    cost_basis := safe_decimal r.cost_basis
    institution_price := safe_decimal r.institution_price
    institution_value := safe_decimal r.institution_value
    iso_currency_code := pyOrStr r.iso_currency_code "USD" }
  match h1.cost_basis with
  | some c =>
      if 0 < c then
        match h1.institution_value with
        | some v =>
            .ok { h1 with
              unrealized_gain_loss := some (v - c)
              unrealized_gain_loss_percent := some ((v - c) / c * 100) }
        | Option.none => .error "TypeError: unsupported operand type for -"
      else .ok h1
  | Option.none => .ok h1

/-- One iteration of the holdings loop of `_sync_investments`: a record is
skipped when its account is unknown or its security id is not among the
securities of this response (the `security_map` built on lines 241-245
contains exactly the ids of the response securities). -/
def syncHoldingsStep (accounts : List Account) (item : PlaidItem)
    (secIds : List String) (st : List Holding × Nat) (r : HoldingData) :
    Except String (List Holding × Nat) :=
  let (holdings, n) := st
  match accounts.find? (fun a => a.account_id == r.account_id) with
  | Option.none => .ok (holdings, n)
  | some account =>
      match r.security_id with
      | Option.none => .ok (holdings, n)
      | some sid =>
          if secIds.contains sid then
            let p := fun h : Holding =>
              h.account_id == account.account_id && h.security_id == sid
            match holdings.find? p with
            | some h => do
                let h' ← updateHoldingFields r h
                .ok (findUpdate p (fun _ => h') holdings, n + 1)
            | Option.none => do
                let h' ← updateHoldingFields r (mkHolding account item sid)
                .ok (holdings ++ [h'], n + 1)
          else .ok (holdings, n)

/-- `_sync_investments`: first all securities of the response are
upserted (counted unconditionally), then the holdings; returns
(securities, holdings, holdings_synced, securities_synced). -/
def syncInvestments (securities : List Security) (holdings : List Holding)
    (accounts : List Account) (item : PlaidItem)
    (resp : Except String (List SecData × List HoldingData)) :
    Except String (List Security × List Holding × Nat × Nat) :=
  match resp with
  | .error e => .error e
  | .ok (secs, holds) => do
      let securities' := secs.foldl syncSecurityStep securities
      let secIds := secs.map (fun r => r.security_id)
      let (holdings', hn) ← holds.foldlM (syncHoldingsStep accounts item secIds) (holdings, 0)
      .ok (securities', holdings', hn, secs.length)

/-- Fresh `Liability` row as built in `_sync_liabilities` for a given
liability type. -/
def mkLiability (account : Account) (item : PlaidItem) (ltype : String) :
    Liability :=
  { account_id := account.account_id
    user_id := item.user_id
    type := some ltype
    is_overdue := Option.none
    last_payment_amount := Option.none, last_statement_balance := Option.none
    minimum_payment_amount := Option.none, next_payment_due_date := Option.none
    interest_rate_percentage := Option.none, interest_rate_type := Option.none
    origination_date := Option.none, origination_principal_amount := Option.none }

/-- Normalize a truthy raw liability date (lines 353-358 and analogous):
strings go through `strptime` (raising on malformed input), date objects
are stored as is. -/
def parseLiabDate (d : DateVal) : Except String Int :=
  match d with
  | .str s =>
      match parseDateYMD s with
      | some x => .ok x
      | Option.none => .error ("ValueError: time data " ++ s ++ " does not match format")
  | .obj x => .ok x
  | .none => .error "ValueError: unreachable falsy date"

/-- Credit-card field updates of `_sync_liabilities` (lines 348-358); the
due date is only assigned when the raw value is truthy. -/
def updateCreditLiability (r : CreditLiabData) (l : Liability) :
    Except String Liability :=
  let l1 := { l with
    is_overdue := some r.is_overdue
    last_payment_amount := safe_decimal r.last_payment_amount
    last_statement_balance := safe_decimal r.last_statement_balance
    minimum_payment_amount := safe_decimal r.minimum_payment_amount }
  if dateTruthy r.next_payment_due_date then do
    let d ← parseLiabDate r.next_payment_due_date
    .ok { l1 with next_payment_due_date := some d }
  else .ok l1

/-- Student-loan field updates of `_sync_liabilities` (lines 384-392). -/
def updateStudentLiability (r : StudentLiabData) (l : Liability) :
    Except String Liability :=
  let l1 := { l with
    interest_rate_percentage := safe_decimal r.interest_rate_percentage
    origination_principal_amount := safe_decimal r.origination_principal_amount }
  if dateTruthy r.origination_date then do
    let d ← parseLiabDate r.origination_date
    .ok { l1 with origination_date := some d }
  else .ok l1

/-- Mortgage field updates of `_sync_liabilities` (lines 418-427). -/
def updateMortgageLiability (r : MortgageLiabData) (l : Liability) :
    Except String Liability :=
  let l1 := { l with
    interest_rate_percentage := safe_decimal r.interest_rate_percentage
    interest_rate_type := r.interest_rate_type
    origination_principal_amount := safe_decimal r.origination_principal_amount }
  if dateTruthy r.origination_date then do
    let d ← parseLiabDate r.origination_date
    .ok { l1 with origination_date := some d }
  else .ok l1

/-- Shared shape of the three `_sync_liabilities` loops: skip records
whose account is unknown, else find the single liability row of that
account or create one of the given type, then apply the update. -/
def upsertLiability (accounts : List Account) (item : PlaidItem)
    (ltype : String) (accId : String) (upd : Liability → Except String Liability)
    (st : List Liability × Nat) : Except String (List Liability × Nat) :=
  let (liabs, n) := st
  match accounts.find? (fun a => a.account_id == accId) with
  | Option.none => .ok (liabs, n)
  | some account =>
      let p := fun l : Liability => l.account_id == account.account_id
      match liabs.find? p with
      | some l => do
          let l' ← upd l
          .ok (findUpdate p (fun _ => l') liabs, n + 1)
      | Option.none => do
          let l' ← upd (mkLiability account item ltype)
          .ok (liabs ++ [l'], n + 1)

/-- `_sync_liabilities`: the credit, student, and mortgage lists are
processed in order with a shared counter. -/
def syncLiabilities (liabs : List Liability) (accounts : List Account)
    (item : PlaidItem) (resp : Except String LiabData) :
    Except String (List Liability × Nat) :=
  match resp with
  | .error e => .error e
  | .ok ld => do
      let st1 ← ld.credit.foldlM
        (fun st r => upsertLiability accounts item "credit" r.account_id
          (updateCreditLiability r) st) (liabs, 0)
      let st2 ← ld.student.foldlM
        (fun st r => upsertLiability accounts item "student" r.account_id
          (updateStudentLiability r) st) st1
      ld.mortgage.foldlM
        (fun st r => upsertLiability accounts item "mortgage" r.account_id
          (updateMortgageLiability r) st) st2

/-- The sync report returned by `sync_item`. -/
structure SyncReport where
  item_id : String
  accounts_synced : Nat
  transactions_synced : Nat
  holdings_synced : Nat
  securities_synced : Nat
  liabilities_synced : Nat
  errors : List String
  deriving DecidableEq, Repr

/-- `sync_item`: raises when the item is unknown; otherwise runs the four
categories in order, catching each failure into a category-scoped error
string (a failed category leaves its tables unchanged and its count 0),
then unconditionally stamps the last-synced time and returns the report. -/
def syncItem (db : Db) (up : Upstream) (now today : Int) (itemId : String) :
    Except String (Db × SyncReport) :=
  match db.items.find? (fun i => i.id == itemId) with
  | Option.none => .error ("Plaid item not found: " ++ itemId)
  | some item =>
      let (accounts1, snaps1, accN, accErr) :=
        match syncAccounts db.accounts db.balance_snapshots item up.accounts_resp today with
        | .ok (a, s, n) => (a, s, n, Option.none)
        | .error e => (db.accounts, db.balance_snapshots, 0,
            some ("Accounts sync error: " ++ e))
      let (txns1, txnN, txnErr) :=
        match syncTransactions db.transactions accounts1 item up.transactions_resp with
        | .ok (t, n) => (t, n, Option.none)
        | .error e => (db.transactions, 0, some ("Transactions sync error: " ++ e))
      let (secs1, holds1, holdN, secN, invErr) :=
        match syncInvestments db.securities db.holdings accounts1 item up.investments_resp with
        | .ok (s, h, hn, sn) => (s, h, hn, sn, Option.none)
        | .error e => (db.securities, db.holdings, 0, 0,
            some ("Investments sync error: " ++ e))
      let (liabs1, liabN, liabErr) :=
        match syncLiabilities db.liabilities accounts1 item up.liabilities_resp with
        | .ok (l, n) => (l, n, Option.none)
        | .error e => (db.liabilities, 0, some ("Liabilities sync error: " ++ e))
      let items1 := findUpdate (fun i => i.id == itemId)
        (fun i => { i with last_synced_at := some now }) db.items
      .ok ({ db with
              items := items1
              accounts := accounts1
              transactions := txns1
              securities := secs1
              holdings := holds1
              liabilities := liabs1
              balance_snapshots := snaps1 },
           { item_id := itemId
             accounts_synced := accN
             transactions_synced := txnN
             holdings_synced := holdN
             securities_synced := secN
             liabilities_synced := liabN
             errors := [accErr, txnErr, invErr, liabErr].filterMap id })

/-! ## Net Worth Tracker (`analytics_engine.py`, class `NetWorthTracker`) -/

/-- Per-period change entry of the net-worth breakdown. -/
structure ChangeInfo where
  amount : Rat
  percent : Rat
  deriving DecidableEq, Repr

/-- The breakdown returned by `calculate_current_net_worth`; the
presentation-only `assets_breakdown` / `liabilities_breakdown` lists are
not modelled. -/
structure NetWorthBreakdown where
  net_worth : Rat
  total_assets : Rat
  total_liabilities : Rat
  liquid_assets : Rat
  investment_assets : Rat
  credit_card_debt : Rat
  loan_debt : Rat
  daily_change : ChangeInfo
  weekly_change : ChangeInfo
  monthly_change : ChangeInfo
  deriving DecidableEq, Repr

/-- Accumulator of the account loop in `calculate_current_net_worth`. -/
structure NWTotals where
  total_assets : Rat
  total_liabilities : Rat
  liquid_assets : Rat
  investment_assets : Rat
  credit_card_debt : Rat
  loan_debt : Rat
  deriving DecidableEq, Repr

/-- The accounts included in the net-worth computation (lines 34-38):
active accounts of the user flagged for inclusion. -/
def accountsForNetWorth (db : Db) (user : String) : List Account :=
  db.accounts.filter (fun a =>
    a.user_id == user && a.is_active && a.include_in_net_worth)

/-- One iteration of the account loop (lines 51-86). -/
def nwStep (t : NWTotals) (a : Account) : NWTotals :=
  let balance := a.balance_current.getD 0
  if a.is_asset then
    let t1 := { t with total_assets := t.total_assets + balance }
    if a.is_liquid then { t1 with liquid_assets := t1.liquid_assets + balance }
    else if a.type == some "investment" then
      { t1 with investment_assets := t1.investment_assets + balance }
    else t1
  else
    let debt := |balance|
    let t1 := { t with total_liabilities := t.total_liabilities + debt }
    if a.type == some "credit" then
      { t1 with credit_card_debt := t1.credit_card_debt + debt }
    else { t1 with loan_debt := t1.loan_debt + debt }

/-- `_calculate_holdings_value`: SQL `SUM` of `institution_value` over the
user's holdings, ignoring nulls, with an empty sum reading as 0. -/
def holdingsValue (db : Db) (user : String) : Rat :=
  (((db.holdings.filter (fun h => h.user_id == user)).filterMap
    (fun h => h.institution_value)).foldl (· + ·) 0)

/-- Select the later-dated of the candidate snapshots, keeping the
earlier row on a date tie. -/
def pickLaterSnapshot (best : Option NetWorthSnapshot)
    (s : NetWorthSnapshot) : Option NetWorthSnapshot :=
  match best with
  | Option.none => some s
  | some b => if b.snapshot_date < s.snapshot_date then some s else best

/-- `_get_previous_snapshot`: the most recent net-worth snapshot of the
user dated on or before `today - daysAgo`.  With at most one snapshot per
(user, date) the maximum is unique, matching the
`order_by(desc(snapshot_date)).first()` query. -/
def getPreviousSnapshot (db : Db) (user : String) (today : Int)
    (daysAgo : Int) : Option NetWorthSnapshot :=
  let target := today - daysAgo
  (db.net_worth_snapshots.filter (fun s =>
      s.user_id == user && decide (s.snapshot_date ≤ target))).foldl
    pickLaterSnapshot Option.none

/-- `_calculate_change` (lines 135-147): a missing snapshot or a falsy
(null or zero) previous net worth yields the zero change; otherwise the
difference and its percentage of the absolute previous value.  The inner
`previous != 0` guard of the source is preserved although the truthiness
check already rules zero out. -/
def calcChange (current : Rat) (snap : Option NetWorthSnapshot) : ChangeInfo :=
  match snap with
  | Option.none => { amount := 0, percent := 0 }
  | some s =>
      match s.net_worth with
      | Option.none => { amount := 0, percent := 0 }
      | some p =>
          if p = 0 then { amount := 0, percent := 0 }
          else
            { amount := current - p
              percent := if p ≠ 0 then (current - p) / |p| * 100 else 0 }

/-- `calculate_current_net_worth`: fold the account loop, add the holdings
value into total and investment assets, and attach the 1/7/30-day changes. -/
def calculateCurrentNetWorth (db : Db) (user : String) (today : Int) :
    NetWorthBreakdown :=
  let t := (accountsForNetWorth db user).foldl nwStep
    { total_assets := 0, total_liabilities := 0, liquid_assets := 0
      investment_assets := 0, credit_card_debt := 0, loan_debt := 0 }
  let hv := holdingsValue db user
  let totalAssets := t.total_assets + hv
  let investmentAssets := t.investment_assets + hv
  let nw := totalAssets - t.total_liabilities
  { net_worth := nw
    total_assets := totalAssets
    total_liabilities := t.total_liabilities
    liquid_assets := t.liquid_assets
    investment_assets := investmentAssets
    credit_card_debt := t.credit_card_debt
    loan_debt := t.loan_debt
    daily_change := calcChange nw (getPreviousSnapshot db user today 1)
    weekly_change := calcChange nw (getPreviousSnapshot db user today 7)
    monthly_change := calcChange nw (getPreviousSnapshot db user today 30) }

/-- `save_daily_snapshot`: upsert the snapshot keyed by (user, today) with
the freshly computed breakdown; the daily change against the previous
snapshot raises when that snapshot carries a null net worth
(`Decimal - None`). -/
def saveDailySnapshot (db : Db) (user : String) (today : Int) :
    Except String Db :=
  let current := calculateCurrentNetWorth db user today
  let p := fun s : NetWorthSnapshot => s.user_id == user && s.snapshot_date == today
  let base : NetWorthSnapshot :=
    match db.net_worth_snapshots.find? p with
    | some s => s
    | Option.none =>
        { user_id := user, snapshot_date := today
          total_assets := Option.none, liquid_assets := Option.none
          investment_assets := Option.none, total_liabilities := Option.none
          credit_card_debt := Option.none, loan_debt := Option.none
          net_worth := Option.none, daily_change := Option.none
          daily_change_percent := Option.none }
  let s1 := { base with
    total_assets := some current.total_assets
    liquid_assets := some current.liquid_assets
    investment_assets := some current.investment_assets
    total_liabilities := some current.total_liabilities
    credit_card_debt := some current.credit_card_debt
    loan_debt := some current.loan_debt
    net_worth := some current.net_worth }
  let withChange : Except String NetWorthSnapshot :=
    match getPreviousSnapshot db user today 1 with
    | Option.none => .ok s1
    | some y =>
        match y.net_worth with
        | Option.none => .error "TypeError: unsupported operand type for -"
        | some yn =>
            let dc := current.net_worth - yn
            let s2 := { s1 with daily_change := some dc }
            .ok (if yn ≠ 0 then
              { s2 with daily_change_percent := some (dc / |yn| * 100) } else s2)
  match withChange with
  | .error e => .error e
  | .ok s3 =>
      .ok { db with net_worth_snapshots :=
        match db.net_worth_snapshots.find? p with
        | some _ => findUpdate p (fun _ => s3) db.net_worth_snapshots
        | Option.none => db.net_worth_snapshots ++ [s3] }

/-- `_calculate_trend` applied to the ascending list of net-worth values
of the last 90 days of snapshots (`get_net_worth_history`, whose
`to_dict` reads a falsy stored net worth as 0). -/
def calcTrend (history : List Rat) : String :=
  if history.length < 7 then "insufficient_data"
  else
    let n := history.length
    let recent := history.drop (n - 7)
    let previous := if 7 < n then (history.take (n - 7)).drop (n - 30) else []
    if previous.isEmpty then "stable"
    else
      let recentAvg := recent.foldl (· + ·) 0 / (recent.length : Rat)
      let previousAvg := previous.foldl (· + ·) 0 / (previous.length : Rat)
      let changePercent :=
        if previousAvg ≠ 0 then (recentAvg - previousAvg) / |previousAvg| * 100 else 0
      if changePercent > 3 then "increasing"
      else if changePercent < -3 then "decreasing"
      else "stable"

/-! ## Cash Flow Engine (`analytics_engine.py`, class `CashFlowEngine`) -/

/-- One entry of the forecast upcoming-transactions list. -/
structure UpcomingItem where
  description : Option String
  amount : Rat
  is_income : Bool
  expected_date : Int
  frequency : Option String
  deriving DecidableEq, Repr

/-- The structure returned by `forecast_cash_flow`. -/
structure CashFlowForecast where
  forecast_period_days : Int
  expected_income : Rat
  expected_expenses : Rat
  expected_net : Rat
  upcoming_transactions : List UpcomingItem
  deriving DecidableEq, Repr

/-- Insert one item into a list sorted ascending by expected date. -/
def insertByDate (x : UpcomingItem) : List UpcomingItem → List UpcomingItem
  | [] => [x]
  | y :: ys =>
      if x.expected_date ≤ y.expected_date then x :: y :: ys
      else y :: insertByDate x ys

/-- Sort the upcoming items ascending by expected date; the source sorts
by the ISO-8601 date string, whose lexicographic order coincides with
date order. -/
def sortByDate (l : List UpcomingItem) : List UpcomingItem :=
  l.foldr insertByDate []

/-- The upcoming item built for one recurring stream (lines 476-482). -/
def mkUpcomingItem (s : RecurringTransaction) (d : Int) (amount : Rat) :
    UpcomingItem :=
  { description := pyOrOptStr s.description s.merchant_name
    amount := amount
    is_income := s.is_income
    expected_date := d
    frequency := s.frequency }

/-- One iteration of the `forecast_cash_flow` stream loop: streams without
a next expected date are skipped; a date on or before the window end
contributes the absolute average amount to income or expenses by the
`is_income` flag. -/
def forecastStep (forecastEnd : Int) (acc : Rat × Rat × List UpcomingItem)
    (s : RecurringTransaction) : Rat × Rat × List UpcomingItem :=
  let (inc, exps, ups) := acc
  match s.next_expected_date with
  | Option.none => acc
  | some d =>
      if d ≤ forecastEnd then
        let amount := s.average_amount.getD 0
        let item := mkUpcomingItem s d amount
        if s.is_income then (inc + |amount|, exps, ups ++ [item])
        else (inc, exps + |amount|, ups ++ [item])
      else acc

/-- `forecast_cash_flow(days)`: fold the active streams of the user and
return totals, net, and the upcoming items sorted by expected date. -/
def forecastCashFlow (db : Db) (user : String) (today : Int) (days : Int) :
    CashFlowForecast :=
  let recurring := db.recurring_transactions.filter (fun s =>
    s.user_id == user && s.is_active)
  let forecastEnd := today + days
  let (inc, exps, ups) := recurring.foldl (forecastStep forecastEnd) (0, 0, [])
  { forecast_period_days := days
    expected_income := inc
    expected_expenses := exps
    expected_net := inc - exps
    upcoming_transactions := sortByDate ups }

/-! ## Portfolio Manager (`analytics_engine.py`, class `PortfolioManager`) -/

/-- One entry of the portfolio holdings list (identifier fields of the
underlying rows are carried by the pair itself and omitted here). -/
structure HoldingSummaryEntry where
  ticker : Option String
  name : Option String
  type : Option String
  sector : Option String
  quantity : Rat
  price : Rat
  value : Rat
  cost_basis : Rat
  gain_loss : Rat
  gain_loss_percent : Rat
  deriving DecidableEq, Repr

/-- The structure returned by `get_portfolio_summary`; the allocation map
is an association list (type, value, percent) in first-seen order, and
`holdings_count` is absent (`Option.none`) in the empty-portfolio branch
of the source. -/
structure PortfolioSummary where
  total_value : Rat
  total_cost_basis : Rat
  total_gain_loss : Rat
  total_gain_loss_percent : Rat
  holdings : List HoldingSummaryEntry
  allocation : List (String × Rat × Rat)
  holdings_count : Option Nat
  deriving DecidableEq, Repr

/-- The join of the user's holdings with securities on the security key
(`query(Holding, Security).join(...)`); each holding matches at most one
security because security ids are unique. -/
def portfolioHoldings (db : Db) (user : String) :
    List (Holding × Security) :=
  (db.holdings.filter (fun h => h.user_id == user)).filterMap
    (fun h => (db.securities.find? (fun s => s.security_id == h.security_id)).map
      (fun s => (h, s)))

/-- Accumulate a value into a `defaultdict`-style association list,
preserving first-seen key order. -/
def bumpAlloc (k : String) (v : Rat) :
    List (String × Rat) → List (String × Rat)
  | [] => [(k, v)]
  | (k', v') :: rest =>
      if k' = k then (k', v' + v) :: rest else (k', v') :: bumpAlloc k v rest

/-- One iteration of the holdings loop of `get_portfolio_summary`
(lines 534-558). -/
def portfolioStep (acc : Rat × Rat × List (String × Rat) × List HoldingSummaryEntry)
    (hs : Holding × Security) :
    Rat × Rat × List (String × Rat) × List HoldingSummaryEntry :=
  let (tv, tc, alloc, entries) := acc
  let (h, sec) := hs
  let value := h.institution_value.getD 0
  let cost := h.cost_basis.getD 0
  let gl := value - cost
  let secType := pyOrStr sec.type "other"
  (tv + value, tc + cost, bumpAlloc secType value alloc,
   entries ++ [{ ticker := sec.ticker_symbol
                 name := sec.name
                 type := sec.type
                 sector := sec.sector
                 quantity := h.quantity.getD 0
                 price := sec.close_price.getD 0
                 value := value
                 cost_basis := cost
                 gain_loss := gl
                 gain_loss_percent := h.unrealized_gain_loss_percent.getD 0 }])

/-- Insert one entry into a list sorted descending by value. -/
def insertByValueDesc (x : HoldingSummaryEntry) :
    List HoldingSummaryEntry → List HoldingSummaryEntry
  | [] => [x]
  | y :: ys =>
      if y.value < x.value then x :: y :: ys
      else y :: insertByValueDesc x ys

/-- Sort the holdings list descending by value
(`sorted(key=value, reverse=True)`). -/
def sortByValueDesc (l : List HoldingSummaryEntry) : List HoldingSummaryEntry :=
  l.foldr insertByValueDesc []

/-- `get_portfolio_summary`: an empty join returns the explicit zeroed
structure; otherwise totals, percentages, allocation and the sorted
holdings list are computed. -/
def getPortfolioSummary (db : Db) (user : String) : PortfolioSummary :=
  let hs := portfolioHoldings db user
  if hs.isEmpty then
    { total_value := 0, total_cost_basis := 0, total_gain_loss := 0
      total_gain_loss_percent := 0, holdings := [], allocation := []
      holdings_count := Option.none }
  else
    let (tv, tc, alloc, entries) := hs.foldl portfolioStep (0, 0, [], [])
    let tgl := tv - tc
    let tglp := if 0 < tc then tgl / tc * 100 else 0
    { total_value := tv
      total_cost_basis := tc
      total_gain_loss := tgl
      total_gain_loss_percent := tglp
      holdings := sortByValueDesc entries
      allocation := alloc.map (fun kv =>
        (kv.1, kv.2, if 0 < tv then kv.2 / tv * 100 else 0))
      holdings_count := some entries.length }

/-! ## Claim-level predicates and invariants -/

/-- Balance snapshots are unique per (account, date). -/
def balanceSnapshotsUnique (snaps : List BalanceSnapshot) : Prop :=
  (snaps.map (fun s => (s.account_id, s.snapshot_date))).Nodup

/-- Net-worth snapshots are unique per (user, date). -/
def netWorthSnapshotsUnique (snaps : List NetWorthSnapshot) : Prop :=
  (snaps.map (fun s => (s.user_id, s.snapshot_date))).Nodup

/-- One same-day operation against the store: a full sync of some item or
a `save_daily_snapshot` call for some user.  A run that raises leaves the
store unchanged. -/
inductive DayOp where
  | sync (up : Upstream) (itemId : String) (now : Int)
  | save (user : String)

/-- Apply one same-day operation to the store. -/
def applyDayOp (today : Int) (db : Db) : DayOp → Db
  | .sync up itemId now =>
      match syncItem db up now today itemId with
      | .ok (db', _) => db'
      | .error _ => db
  | .save user =>
      match saveDailySnapshot db user today with
      | .ok db' => db'
      | .error _ => db

/-- The forecast window of the next `days` days, as the claim words it:
dates from today through today plus `days`. -/
def inForecastWindow (today days d : Int) : Prop :=
  today ≤ d ∧ d ≤ today + days

/-! ## Concrete fixtures used by witnesses and counterexamples -/

/-- A linked institution item. -/
def testItem : PlaidItem :=
  { id := "item1", user_id := "user1", access_token := "tok"
    last_synced_at := Option.none }

/-- A depository account row whose user-editable classification fields
have been overridden away from their derived values. -/
def testOverriddenAccount : Account :=
  { account_id := "acc1", plaid_item_id := "item1", user_id := "user1"
    name := some "Checking", official_name := Option.none, mask := some "1234"
    type := some "depository", subtype := some "checking"
    balance_available := some 100, balance_current := some 250
    balance_limit := Option.none, iso_currency_code := "USD"
    is_asset := false, is_liquid := false, include_in_net_worth := false
    custom_category := some "Vacation fund", is_active := true }

/-- An upstream record for the same account, still of depository type. -/
def testAccData : AccData :=
  { account_id := "acc1", name := some "Checking", official_name := Option.none
    mask := some "1234", type := some "depository", subtype := some "checking"
    bal_available := .num 100, bal_current := .num 250, bal_limit := .none
    iso_currency_code := some "USD" }

/-- An upstream transaction record whose amount is a malformed string. -/
def testBadAmountTxn : TxnData :=
  { transaction_id := "txn1", account_id := "acc1", amount := .str "abc"
    iso_currency_code := some "USD", date := .obj 20240105
    name := some "Coffee", merchant_name := Option.none
    personal_finance_category := some { primary := some "FOOD_AND_DRINK"
                                        detailed := Option.none }
    pending := false, location_city := Option.none
    location_region := Option.none, location_country := Option.none }

/-- A well-formed upstream transaction record. -/
def testGoodTxn : TxnData :=
  { transaction_id := "txn2", account_id := "acc1", amount := .num 45
    iso_currency_code := some "USD", date := .obj 20240106
    name := some "Groceries", merchant_name := some "Store"
    personal_finance_category := some { primary := some "FOOD_AND_DRINK"
                                        detailed := some "FOOD_AND_DRINK.GROCERIES" }
    pending := false, location_city := Option.none
    location_region := Option.none, location_country := Option.none }

/-- A database holding the item and the overridden account. -/
def testDb : Db :=
  { items := [testItem], accounts := [testOverriddenAccount]
    transactions := [], holdings := [], securities := [], liabilities := []
    balance_snapshots := [], net_worth_snapshots := []
    recurring_transactions := [] }

/-- An upstream batch whose only content is the depository account. -/
def testUpAccountsOnly : Upstream :=
  { accounts_resp := .ok [testAccData]
    transactions_resp := .ok []
    investments_resp := .ok ([], [])
    liabilities_resp := .ok { credit := [], student := [], mortgage := [] } }

/-- An upstream batch carrying the malformed-amount transaction. -/
def testUpBadTxn : Upstream :=
  { accounts_resp := .ok [testAccData]
    transactions_resp := .ok [testBadAmountTxn]
    investments_resp := .ok ([], [])
    liabilities_resp := .ok { credit := [], student := [], mortgage := [] } }

/-- An active recurring stream whose next expected date lies ten days in
the past relative to day 0. -/
def testPastDueStream : RecurringTransaction :=
  { user_id := "user1", account_id := "acc1"
    description := some "Gym membership", merchant_name := Option.none
    frequency := some "monthly", average_amount := some 50
    last_amount := some 50, is_income := false, is_active := true
    next_expected_date := some (-10) }

/-- A database holding only the past-due recurring stream. -/
def testStreamDb : Db :=
  { items := [], accounts := [], transactions := [], holdings := []
    securities := [], liabilities := [], balance_snapshots := []
    net_worth_snapshots := [], recurring_transactions := [testPastDueStream] }

/-- A net-worth snapshot fixture: 1000 at day 90. -/
def testSnapshot90 : NetWorthSnapshot :=
  { user_id := "user1", snapshot_date := 90
    total_assets := some 1200, liquid_assets := some 300
    investment_assets := some 400, total_liabilities := some 200
    credit_card_debt := some 150, loan_debt := some 50
    net_worth := some 1000, daily_change := Option.none
    daily_change_percent := Option.none }

/-- A database holding one user snapshot dated day 90. -/
def testSnapDb : Db :=
  { items := [], accounts := [], transactions := [], holdings := []
    securities := [], liabilities := [], balance_snapshots := []
    net_worth_snapshots := [testSnapshot90], recurring_transactions := [] }

/-- The streams `forecast_cash_flow` actually includes: active streams of
the user with a non-null next expected date on or before the window end
(no lower bound). -/
def includedStreams (db : Db) (user : String) (today days : Int) :
    List RecurringTransaction :=
  (db.recurring_transactions.filter (fun s => s.user_id == user && s.is_active)).filter
    (fun s =>
      match s.next_expected_date with
      | some d => decide (d ≤ today + days)
      | Option.none => false)

/-- A database with no rows at all. -/
def emptyDb : Db :=
  { items := [], accounts := [], transactions := [], holdings := []
    securities := [], liabilities := [], balance_snapshots := []
    net_worth_snapshots := [], recurring_transactions := [] }

/-- The upcoming item a stream contributes when it is included in the
forecast. -/
def streamToItem (s : RecurringTransaction) : UpcomingItem :=
  mkUpcomingItem s (s.next_expected_date.getD 0) (s.average_amount.getD 0)

/-- Account-category step without the counter: the state acted on is the
(accounts, balance snapshots) pair. -/
def accStateStep (item : PlaidItem) (today : Int)
    (st : List Account × List BalanceSnapshot) (r : AccData) :
    List Account × List BalanceSnapshot :=
  let (accounts, snaps) := st
  let p := fun a : Account => a.account_id == r.account_id
  match accounts.find? p with
  | some a =>
      (findUpdate p (updateAccountFields r) accounts,
       createBalanceSnapshot today (updateAccountFields r a) snaps)
  | Option.none =>
      let a1 := updateAccountFields r (mkAccount item r.account_id)
      (accounts ++ [a1], createBalanceSnapshot today a1 snaps)

/-- A transaction record whose two fallible conversions both succeed. -/
def txnRecOk (r : TxnData) : Prop :=
  (∃ d, parseTxnDate r.date = .ok d) ∧ (∃ q, pyFloat r.amount = .ok q)

/-- Total variant of the transaction field update; on records whose
conversions fail it returns the row unchanged (those records are exactly
the ones an exception-free run never updates). -/
def updateTransactionFieldsPure (r : TxnData) (t : Transaction) : Transaction :=
  match updateTransactionFields r t with
  | .ok t1 => t1
  | .error _ => t

/-- Transaction-category step without the counter and without the
exception channel. -/
def syncTransactionsStepPure (accounts : List Account) (item : PlaidItem)
    (txns : List Transaction) (r : TxnData) : List Transaction :=
  let p := fun t : Transaction => t.transaction_id == r.transaction_id
  match txns.find? p with
  | some t => findUpdate p (fun _ => updateTransactionFieldsPure r t) txns
  | Option.none =>
      match accounts.find? (fun a => a.account_id == r.account_id) with
      | Option.none => txns
      | some account =>
          txns ++ [updateTransactionFieldsPure r (mkTransaction account item r.transaction_id)]

/-- Whether a transaction record is counted, relative to the transaction
table state at the start of the category run. -/
def txnCounted (accounts : List Account) (txns : List Transaction)
    (r : TxnData) : Bool :=
  (txns.find? (fun t => t.transaction_id == r.transaction_id)).isSome
    || (accounts.find? (fun a => a.account_id == r.account_id)).isSome

/-- A holding record whose gain/loss computation cannot raise: a positive
cost basis forces a non-null institution value. -/
def holdRecOk (r : HoldingData) : Prop :=
  ∀ c, safe_decimal r.cost_basis = some c → 0 < c →
    ∃ v, safe_decimal r.institution_value = some v

/-- Total variant of the holding field update. -/
def updateHoldingFieldsPure (r : HoldingData) (h : Holding) : Holding :=
  match updateHoldingFields r h with
  | .ok h1 => h1
  | .error _ => h

/-- Holding-category step without the counter and the exception channel. -/
def syncHoldingsStepPure (accounts : List Account) (item : PlaidItem)
    (secIds : List String) (holdings : List Holding) (r : HoldingData) :
    List Holding :=
  match accounts.find? (fun a => a.account_id == r.account_id) with
  | Option.none => holdings
  | some account =>
      match r.security_id with
      | Option.none => holdings
      | some sid =>
          if secIds.contains sid then
            let p := fun h : Holding =>
              h.account_id == account.account_id && h.security_id == sid
            match holdings.find? p with
            | some h => findUpdate p (fun _ => updateHoldingFieldsPure r h) holdings
            | Option.none =>
                holdings ++ [updateHoldingFieldsPure r (mkHolding account item sid)]
          else holdings

/-- Whether a holding record is counted. -/
def holdCounted (accounts : List Account) (secIds : List String)
    (r : HoldingData) : Bool :=
  (accounts.find? (fun a => a.account_id == r.account_id)).isSome
    && (match r.security_id with
        | some sid => secIds.contains sid
        | Option.none => false)

/-- A liability date field that cannot raise: a truthy raw value parses. -/
def liabDateOk (d : DateVal) : Prop :=
  dateTruthy d = true → ∃ x, parseLiabDate d = .ok x

/-- Total variant of a liability field update. -/
def liabUpdatePure (upd : Liability → Except String Liability)
    (l : Liability) : Liability :=
  match upd l with
  | .ok l1 => l1
  | .error _ => l

/-- Liability upsert without the counter and the exception channel. -/
def upsertLiabilityPure (accounts : List Account) (item : PlaidItem)
    (ltype : String) (accId : String)
    (upd : Liability → Except String Liability) (liabs : List Liability) :
    List Liability :=
  match accounts.find? (fun a => a.account_id == accId) with
  | Option.none => liabs
  | some account =>
      let p := fun l : Liability => l.account_id == account.account_id
      match liabs.find? p with
      | some l => findUpdate p (fun _ => liabUpdatePure upd l) liabs
      | Option.none => liabs ++ [liabUpdatePure upd (mkLiability account item ltype)]

/-- Whether a liability record is counted (depends only on the account
table, which the liability category never writes). -/
def liabCounted (accounts : List Account) (accId : String) : Bool :=
  (accounts.find? (fun a => a.account_id == accId)).isSome

/-- Each upstream record list carries pairwise distinct external keys, and
in a liabilities response no account appears under two liability types.
This matches the unique external ids of the aggregator contract. -/
def upstreamWellKeyed (up : Upstream) : Prop :=
  (∀ recs, up.accounts_resp = .ok recs →
    (recs.map (fun r => r.account_id)).Nodup) ∧
  (∀ recs, up.transactions_resp = .ok recs →
    (recs.map (fun r => r.transaction_id)).Nodup) ∧
  (∀ sh, up.investments_resp = .ok sh →
    (sh.1.map (fun r => r.security_id)).Nodup ∧
    (sh.2.map (fun r => (r.account_id, r.security_id))).Nodup) ∧
  (∀ ld, up.liabilities_resp = .ok ld →
    (ld.credit.map (fun r => r.account_id)).Nodup ∧
    (ld.student.map (fun r => r.account_id)).Nodup ∧
    (ld.mortgage.map (fun r => r.account_id)).Nodup ∧
    (∀ r ∈ ld.credit, ∀ r2 ∈ ld.student, r.account_id ≠ r2.account_id) ∧
    (∀ r ∈ ld.credit, ∀ r2 ∈ ld.mortgage, r.account_id ≠ r2.account_id) ∧
    (∀ r ∈ ld.student, ∀ r2 ∈ ld.mortgage, r.account_id ≠ r2.account_id))

/-- The store keeps externally keyed entities unique, matching the unique
constraints of the schema. -/
def dbWellKeyed (db : Db) : Prop :=
  (db.accounts.map (fun a => a.account_id)).Nodup ∧
  (db.transactions.map (fun t => t.transaction_id)).Nodup ∧
  (db.securities.map (fun s => s.security_id)).Nodup ∧
  (db.holdings.map (fun h => (h.account_id, h.security_id))).Nodup ∧
  (db.liabilities.map (fun l => l.account_id)).Nodup

/-- A security record of a `get_investments_holdings` response. -/
def testSec1 : SecData :=
  { security_id := "sec1", ticker_symbol := some "VTI", cusip := Option.none
    isin := Option.none, name := some "Total Market", type := some "etf"
    close_price := .num 200, iso_currency_code := some "USD"
    is_cash_equivalent := false }

/-- A holding of that security in the test account, with a positive
cost basis and a non-null institution value. -/
def testHold1 : HoldingData :=
  { account_id := "acc1", security_id := some "sec1", quantity := .num 3
    cost_basis := .num 500, institution_price := .num 200
    institution_value := .num 600, iso_currency_code := some "USD" }

/-- A credit-card liability record for the test account. -/
def testCredit1 : CreditLiabData :=
  { account_id := "acc1", is_overdue := false, last_payment_amount := .num 25
    last_statement_balance := .num 100, minimum_payment_amount := .num 25
    next_payment_due_date := .obj 60 }

/-- An upstream batch exercising all four categories. -/
def testUpFull : Upstream :=
  { accounts_resp := .ok [testAccData]
    transactions_resp := .ok [testGoodTxn]
    investments_resp := .ok ([testSec1], [testHold1])
    liabilities_resp := .ok { credit := [testCredit1], student := [], mortgage := [] } }

/-- The first sync run over the full batch. -/
def testRun1 : Except String (Db × SyncReport) :=
  syncItem testDb testUpFull 100 50 "item1"

/-- The store after the first run. -/
def testDb1 : Db :=
  match testRun1 with
  | .ok (d, _) => d
  | .error _ => testDb

/-- The report of the first run. -/
def testR1 : SyncReport :=
  match testRun1 with
  | .ok (_, r) => r
  | .error _ => { item_id := "", accounts_synced := 0, transactions_synced := 0
                  holdings_synced := 0, securities_synced := 0
                  liabilities_synced := 0, errors := [] }

/-- The second sync run, over the same upstream batch. -/
def testRun2 : Except String (Db × SyncReport) :=
  syncItem testDb1 testUpFull 200 50 "item1"

/-- The store after the second run. -/
def testDb2 : Db :=
  match testRun2 with
  | .ok (d, _) => d
  | .error _ => testDb

/-- The report of the second run. -/
def testR2 : SyncReport :=
  match testRun2 with
  | .ok (_, r) => r
  | .error _ => { item_id := "", accounts_synced := 0, transactions_synced := 0
                  holdings_synced := 0, securities_synced := 0
                  liabilities_synced := 0, errors := [] }

/-! ## General lemmas about the first-match update pattern -/

theorem length_findUpdate (p : α → Bool) (f : α → α) (l : List α) :
    (findUpdate p f l).length = l.length := by
  induction l with
  | nil => rfl
  | cons x xs ih =>
      simp only [findUpdate]
      split <;> simp [ih]

theorem map_findUpdate_key (p : α → Bool) (f : α → α) (key : α → κ)
    (hf : ∀ x, p x = true → key (f x) = key x) (l : List α) :
    (findUpdate p f l).map key = l.map key := by
  induction l with
  | nil => rfl
  | cons x xs ih =>
      simp only [findUpdate]
      by_cases hx : p x = true
      · simp [hx, hf x hx]
      · simp only [Bool.not_eq_true] at hx
        simp [hx, ih]

theorem find?_findUpdate_ne (p q : α → Bool) (f : α → α)
    (hpq : ∀ x, q x = true → p x = false)
    (hf : ∀ x, q x = true → p (f x) = false) (l : List α) :
    (findUpdate q f l).find? p = l.find? p := by
  induction l with
  | nil => rfl
  | cons x xs ih =>
      by_cases hx : q x = true
      · have h1 : findUpdate q f (x :: xs) = f x :: xs := by
          simp [findUpdate, hx]
        rw [h1]
        simp [List.find?, hf x hx, hpq x hx]
      · have hxf : q x = false := by simpa using hx
        have h1 : findUpdate q f (x :: xs) = x :: findUpdate q f xs := by
          simp [findUpdate, hxf]
        rw [h1]
        cases hpx : p x with
        | true => simp [List.find?, hpx]
        | false => simp [List.find?, hpx, ih]

theorem find?_findUpdate_self (p : α → Bool) (f : α → α)
    (hf : ∀ x, p x = true → p (f x) = true) (l : List α) :
    (findUpdate p f l).find? p = (l.find? p).map f := by
  induction l with
  | nil => rfl
  | cons x xs ih =>
      simp only [findUpdate]
      by_cases hx : p x = true
      · simp [hx, List.find?, hf x hx]
      · simp only [Bool.not_eq_true] at hx
        simp [hx, List.find?, ih]

theorem find?_append_none (p : α → Bool) (l l' : List α)
    (h : l.find? p = Option.none) : (l ++ l').find? p = l'.find? p := by
  induction l with
  | nil => rfl
  | cons x xs ih =>
      rw [List.find?] at h
      rcases hx : p x with _ | _
      · rw [hx] at h
        simp only [List.cons_append, List.find?, hx]
        exact ih h
      · rw [hx] at h
        simp at h

theorem find?_append_some (p : α → Bool) (l l' : List α) (x : α)
    (h : l.find? p = some x) : (l ++ l').find? p = some x := by
  induction l with
  | nil => simp at h
  | cons y ys ih =>
      rw [List.find?] at h
      rcases hy : p y with _ | _
      · rw [hy] at h
        simp only [List.cons_append, List.find?, hy]
        exact ih h
      · rw [hy] at h
        simp only [List.cons_append, List.find?, hy]
        exact h

/-! ## C4: transaction cash-flow classification -/

/-- C4: for every transaction ingested by sync, the stored cash_flow_type
is income when the signed amount is negative, else transfer when the
primary category is a transfer-in/out category, else expense; in
particular amount -45 gives income and amount 45 with a non-transfer
category gives expense. -/
theorem transaction_cash_flow_classification :
    (∀ (amount : Rat) (cat : Option String),
      (amount < 0 → cashFlowType amount cat = "income") ∧
      (0 ≤ amount → (cat = some "TRANSFER_IN" ∨ cat = some "TRANSFER_OUT") →
        cashFlowType amount cat = "transfer") ∧
      (0 ≤ amount → cat ≠ some "TRANSFER_IN" → cat ≠ some "TRANSFER_OUT" →
        cashFlowType amount cat = "expense")) ∧
    (∀ (r : TxnData) (t t' : Transaction), updateTransactionFields r t = .ok t' →
      ∃ amt, pyFloat r.amount = .ok amt ∧
        t'.cash_flow_type = some (cashFlowType amt
          (match r.personal_finance_category with
           | some pf => pf.primary
           | Option.none => some ""))) ∧
    cashFlowType (-45) (some "FOOD_AND_DRINK") = "income" ∧
    cashFlowType 45 (some "FOOD_AND_DRINK") = "expense" := by
  refine ⟨fun amount cat => ⟨?_, ?_, ?_⟩, ?_, by decide, by decide⟩
  · intro h
    simp [cashFlowType, h]
  · intro h0 hcat
    have hnl : ¬ amount < 0 := not_lt.mpr h0
    rcases hcat with h | h <;> subst h <;> simp [cashFlowType, hnl]
  · intro h0 h1 h2
    have hnl : ¬ amount < 0 := not_lt.mpr h0
    have b1 : (cat == some "TRANSFER_IN") = false := by
      simpa using h1
    have b2 : (cat == some "TRANSFER_OUT") = false := by
      simpa using h2
    simp [cashFlowType, hnl, b1, b2]
  · intro r t t' h
    unfold updateTransactionFields at h
    cases hd : parseTxnDate r.date with
    | error e => rw [hd] at h; simp [Bind.bind, Except.bind] at h
    | ok d =>
        rw [hd] at h
        cases ha : pyFloat r.amount with
        | error e => rw [ha] at h; simp [Bind.bind, Except.bind] at h
        | ok amt =>
            rw [ha] at h
            simp only [Bind.bind, Except.bind, pure, Except.pure, Except.ok.injEq] at h
            exact ⟨amt, rfl, by rw [← h]⟩

/-- Witness for C4 at concrete inputs. -/
theorem transaction_cash_flow_classification_witness :
    cashFlowType (-2) Option.none = "income" ∧
    cashFlowType 5 (some "TRANSFER_IN") = "transfer" ∧
    cashFlowType 7 (some "RENT") = "expense" :=
  ⟨(transaction_cash_flow_classification.1 (-2) Option.none).1 (by norm_num),
   (transaction_cash_flow_classification.1 5 (some "TRANSFER_IN")).2.1
     (by norm_num) (Or.inl rfl),
   (transaction_cash_flow_classification.1 7 (some "RENT")).2.2
     (by norm_num) (by decide) (by decide)⟩

/-! ## C9: empty portfolio -/

/-- C9: for a user with zero holdings, get_portfolio_summary returns the
explicit all-zero structure with empty holdings list and empty allocation
map, not an error. -/
theorem portfolio_summary_empty :
    ∀ (db : Db) (user : String),
      db.holdings.filter (fun h => h.user_id == user) = [] →
      getPortfolioSummary db user =
        { total_value := 0, total_cost_basis := 0, total_gain_loss := 0
          total_gain_loss_percent := 0, holdings := [], allocation := []
          holdings_count := Option.none } := by
  intro db user h
  unfold getPortfolioSummary portfolioHoldings
  rw [h]
  rfl

/-- Witness for C9 on the empty database. -/
theorem portfolio_summary_empty_witness :
    getPortfolioSummary emptyDb "user1" =
      { total_value := 0, total_cost_basis := 0, total_gain_loss := 0
        total_gain_loss_percent := 0, holdings := [], allocation := []
        holdings_count := Option.none } :=
  portfolio_summary_empty emptyDb "user1" rfl

/-! ## C10: numeric coercion during sync -/

/-- C10 counterexample: a transaction whose amount is the malformed string
"abc" does not merely store zero; the `float(amount)` conversion raises
and the whole transactions category fails, so the claim that a malformed
amount never causes the record or its category to fail is false on this
input. -/
theorem malformed_amount_fails_category :
    syncTransactions [] [testOverriddenAccount] testItem (.ok [testBadAmountTxn]) =
      .error "ValueError: could not convert string to float: abc" ∧
    (syncItem testDb testUpBadTxn 5 0 "item1").map
        (fun x => (x.2.transactions_synced, x.2.errors)) =
      .ok (0, ["Transactions sync error: ValueError: could not convert string to float: abc"]) ∧
    safe_decimal (.str "abc") = some 0 := by
  refine ⟨rfl, rfl, by decide⟩

/-- C10 amended: safe_decimal is total with null mapping to null and any
unparsable value mapping to zero, and the accounts category never fails
on record content (malformed balances are stored as zero); however a
malformed non-null transaction amount string makes the record update
raise, failing the transactions category. -/
theorem safe_decimal_amended :
    (safe_decimal PyVal.none = Option.none) ∧
    (∀ q : Rat, safe_decimal (.num q) = some q) ∧
    (∀ s : String, parseNumber s = Option.none → safe_decimal (.str s) = some 0) ∧
    (∀ v : PyVal, v ≠ PyVal.none → ∃ q, safe_decimal v = some q) ∧
    (∀ accounts snaps item recs today, ∃ out,
        syncAccounts accounts snaps item (.ok recs) today = .ok out) ∧
    (∀ (r : TxnData) (t : Transaction) (s : String), r.amount = .str s →
        parseNumber s = Option.none → ∃ e, updateTransactionFields r t = .error e) := by
  refine ⟨rfl, fun q => rfl, ?_, ?_, ?_, ?_⟩
  · intro s h
    simp [safe_decimal, h]
  · intro v hv
    cases v with
    | none => exact absurd rfl hv
    | num q => exact ⟨q, rfl⟩
    | str s => exact ⟨(parseNumber s).getD 0, rfl⟩
  · intro accounts snaps item recs today
    exact ⟨_, rfl⟩
  · intro r t s hs hp
    unfold updateTransactionFields
    cases hd : parseTxnDate r.date with
    | error e => exact ⟨e, by simp [Bind.bind, Except.bind, hd]⟩
    | ok d =>
        have ha : pyFloat r.amount =
            .error ("ValueError: could not convert string to float: " ++ s) := by
          rw [hs]
          simp [pyFloat, hp]
        exact ⟨"ValueError: could not convert string to float: " ++ s,
          by simp [Bind.bind, Except.bind, hd, ha]⟩

/-- Witness for C10 amended at concrete inputs. -/
theorem safe_decimal_amended_witness :
    safe_decimal (.str "12notanumber") = some 0 ∧
    (∃ e, updateTransactionFields testBadAmountTxn
        (mkTransaction testOverriddenAccount testItem "txn1") = .error e) :=
  ⟨safe_decimal_amended.2.2.1 "12notanumber" rfl,
   safe_decimal_amended.2.2.2.2.2 testBadAmountTxn
     (mkTransaction testOverriddenAccount testItem "txn1") "abc" rfl rfl⟩

/-! ## C8: cash-flow forecast -/

theorem mem_insertByDate (x y : UpcomingItem) (l : List UpcomingItem) :
    y ∈ insertByDate x l ↔ y = x ∨ y ∈ l := by
  induction l with
  | nil => simp [insertByDate]
  | cons z zs ih =>
      simp only [insertByDate]
      split
      · simp [List.mem_cons]
      · simp only [List.mem_cons, ih]
        tauto

theorem mem_sortByDate (x : UpcomingItem) (l : List UpcomingItem) :
    x ∈ sortByDate l ↔ x ∈ l := by
  induction l with
  | nil => simp [sortByDate]
  | cons z zs ih =>
      simp only [sortByDate, List.foldr] at *
      rw [mem_insertByDate]
      simp [ih]

theorem pairwise_insertByDate (x : UpcomingItem) (l : List UpcomingItem)
    (h : l.Pairwise (fun a b => a.expected_date ≤ b.expected_date)) :
    (insertByDate x l).Pairwise (fun a b => a.expected_date ≤ b.expected_date) := by
  induction l with
  | nil => simp [insertByDate]
  | cons z zs ih =>
      rcases List.pairwise_cons.mp h with ⟨hz, hzs⟩
      simp only [insertByDate]
      split
      · rename_i hle
        refine List.pairwise_cons.mpr ⟨?_, h⟩
        intro b hb
        rcases List.mem_cons.mp hb with hb | hb
        · exact hb ▸ hle
        · exact le_trans hle (hz b hb)
      · rename_i hgt
        refine List.pairwise_cons.mpr ⟨?_, ih hzs⟩
        intro b hb
        rcases (mem_insertByDate x b zs).mp hb with hb | hb
        · exact hb ▸ le_of_not_le hgt
        · exact hz b hb

theorem pairwise_sortByDate (l : List UpcomingItem) :
    (sortByDate l).Pairwise (fun a b => a.expected_date ≤ b.expected_date) := by
  induction l with
  | nil => simp [sortByDate]
  | cons z zs ih => exact pairwise_insertByDate z _ ih


/-- Characterization of the forecast stream loop: starting accumulators
are carried through, the eligible streams are exactly those whose next
expected date is non-null and on or before the window end, income and
expense totals accumulate the absolute average amounts, and the items are
appended in stream order. -/
theorem forecast_foldl_char (forecastEnd : Int)
    (P : RecurringTransaction → Bool)
    (hP : ∀ s, P s = match s.next_expected_date with
                     | some d => decide (d ≤ forecastEnd)
                     | Option.none => false)
    (l : List RecurringTransaction) :
    ∀ (i e : Rat) (u : List UpcomingItem),
      l.foldl (forecastStep forecastEnd) (i, e, u) =
        (i + (((l.filter P).filter (fun s => s.is_income)).map
              (fun s => |s.average_amount.getD 0|)).sum,
         e + (((l.filter P).filter (fun s => !s.is_income)).map
              (fun s => |s.average_amount.getD 0|)).sum,
         u ++ (l.filter P).map streamToItem) := by
  induction l with
  | nil => intro i e u; simp
  | cons s rest ih =>
      intro i e u
      rcases hs : s.next_expected_date with _ | d
      · have hstep : forecastStep forecastEnd (i, e, u) s = (i, e, u) := by
          simp [forecastStep, hs]
        have hps : P s = false := by rw [hP s, hs]
        have hfil : (s :: rest).filter P = rest.filter P := by
          simp [List.filter_cons, hps]
        rw [List.foldl_cons, hstep, hfil]
        exact ih i e u
      · by_cases hd : d ≤ forecastEnd
        · have hps : P s = true := by rw [hP s, hs]; simpa using hd
          have hfil : (s :: rest).filter P = s :: rest.filter P := by
            simp [List.filter_cons, hps]
          have hitem : streamToItem s =
              mkUpcomingItem s d (s.average_amount.getD 0) := by
            simp [streamToItem, hs]
          by_cases hinc : s.is_income = true
          · have hstep : forecastStep forecastEnd (i, e, u) s =
                (i + |s.average_amount.getD 0|, e,
                 u ++ [mkUpcomingItem s d (s.average_amount.getD 0)]) := by
              simp [forecastStep, hs, hd, hinc]
            rw [List.foldl_cons, hstep, ih, hfil]
            simp only [Prod.mk.injEq]
            refine ⟨?_, ?_, ?_⟩
            · have h2 : (s :: rest.filter P).filter (fun s => s.is_income) =
                  s :: (rest.filter P).filter (fun s => s.is_income) := by
                simp [List.filter_cons, hinc]
              rw [h2, List.map_cons, List.sum_cons]
              ring
            · have h2 : (s :: rest.filter P).filter (fun s => !s.is_income) =
                  (rest.filter P).filter (fun s => !s.is_income) := by
                simp [List.filter_cons, hinc]
              rw [h2]
            · rw [List.map_cons, ← hitem]
              simp [List.append_assoc]
          · have hincf : s.is_income = false := by simpa using hinc
            have hstep : forecastStep forecastEnd (i, e, u) s =
                (i, e + |s.average_amount.getD 0|,
                 u ++ [mkUpcomingItem s d (s.average_amount.getD 0)]) := by
              simp [forecastStep, hs, hd, hincf]
            rw [List.foldl_cons, hstep, ih, hfil]
            simp only [Prod.mk.injEq]
            refine ⟨?_, ?_, ?_⟩
            · have h2 : (s :: rest.filter P).filter (fun s => s.is_income) =
                  (rest.filter P).filter (fun s => s.is_income) := by
                simp [List.filter_cons, hincf]
              rw [h2]
            · have h2 : (s :: rest.filter P).filter (fun s => !s.is_income) =
                  s :: (rest.filter P).filter (fun s => !s.is_income) := by
                simp [List.filter_cons, hincf]
              rw [h2, List.map_cons, List.sum_cons]
              ring
            · rw [List.map_cons, ← hitem]
              simp [List.append_assoc]
        · have hps : P s = false := by
            rw [hP s, hs]; simpa using hd
          have hstep : forecastStep forecastEnd (i, e, u) s = (i, e, u) := by
            simp [forecastStep, hs, hd]
          have hfil : (s :: rest).filter P = rest.filter P := by
            simp [List.filter_cons, hps]
          rw [List.foldl_cons, hstep, hfil]
          exact ih i e u

/-- C8 counterexample: a stream whose next expected date is ten days in
the past is not inside the forecast window of the next 30 days, yet
forecast_cash_flow includes it in the upcoming transactions (the source
only bounds the date from above), so the claim that exactly the streams
inside the window are included is false on this input. -/
theorem forecast_includes_past_due_stream :
    (forecastCashFlow testStreamDb "user1" 0 30).upcoming_transactions =
      [streamToItem testPastDueStream] ∧
    (∀ s ∈ testStreamDb.recurring_transactions, ∀ d,
      s.next_expected_date = some d → ¬ inForecastWindow 0 30 d) := by
  refine ⟨by decide, ?_⟩
  intro s hs d hd
  have hseq : s = testPastDueStream := by
    simpa [testStreamDb] using hs
  subst hseq
  have hdeq : (-10 : Int) = d := by
    simpa [testPastDueStream] using hd
  subst hdeq
  rintro ⟨h1, _⟩
  omega

/-- C8 amended: forecast_cash_flow includes exactly the active streams of
the user with a non-null next expected date on or before today plus the
window length (past-due dates included; there is no lower bound); the
absolute average amount of each included stream accumulates into expected
income when its is_income flag is set and into expected expenses
otherwise; expected_net is income minus expenses; and the upcoming items
are sorted by expected date. -/
theorem forecast_cash_flow_amended :
    ∀ (db : Db) (user : String) (today days : Int),
      ((forecastCashFlow db user today days).expected_income =
        (((includedStreams db user today days).filter (fun s => s.is_income)).map
          (fun s => |s.average_amount.getD 0|)).sum) ∧
      ((forecastCashFlow db user today days).expected_expenses =
        (((includedStreams db user today days).filter (fun s => !s.is_income)).map
          (fun s => |s.average_amount.getD 0|)).sum) ∧
      ((forecastCashFlow db user today days).expected_net =
        (forecastCashFlow db user today days).expected_income -
        (forecastCashFlow db user today days).expected_expenses) ∧
      (∀ it, it ∈ (forecastCashFlow db user today days).upcoming_transactions ↔
        ∃ s ∈ includedStreams db user today days, it = streamToItem s) ∧
      List.Pairwise (fun a b => a.expected_date ≤ b.expected_date)
        (forecastCashFlow db user today days).upcoming_transactions ∧
      (∀ s ∈ includedStreams db user today days,
        s.user_id = user ∧ s.is_active = true ∧
        ∃ d, s.next_expected_date = some d ∧ d ≤ today + days) := by
  intro db user today days
  have hfold := forecast_foldl_char (today + days)
    (fun s => match s.next_expected_date with
              | some d => decide (d ≤ today + days)
              | Option.none => false)
    (fun s => rfl)
    (db.recurring_transactions.filter (fun s => s.user_id == user && s.is_active))
    0 0 []
  have hF : forecastCashFlow db user today days =
      { forecast_period_days := days
        expected_income := 0 + (((includedStreams db user today days).filter
            (fun s => s.is_income)).map (fun s => |s.average_amount.getD 0|)).sum
        expected_expenses := 0 + (((includedStreams db user today days).filter
            (fun s => !s.is_income)).map (fun s => |s.average_amount.getD 0|)).sum
        expected_net :=
          (0 + (((includedStreams db user today days).filter
            (fun s => s.is_income)).map (fun s => |s.average_amount.getD 0|)).sum) -
          (0 + (((includedStreams db user today days).filter
            (fun s => !s.is_income)).map (fun s => |s.average_amount.getD 0|)).sum)
        upcoming_transactions :=
          sortByDate ([] ++ (includedStreams db user today days).map streamToItem) } := by
    simp only [forecastCashFlow]
    rw [hfold]
    rfl
  rw [hF]
  refine ⟨by simp, by simp, by simp, ?_, ?_, ?_⟩
  · intro it
    rw [mem_sortByDate]
    simp only [List.nil_append, List.mem_map]
    constructor
    · rintro ⟨s, hs, rfl⟩
      exact ⟨s, hs, rfl⟩
    · rintro ⟨s, hs, rfl⟩
      exact ⟨s, hs, rfl⟩
  · exact pairwise_sortByDate _
  · intro s hs
    unfold includedStreams at hs
    rcases List.mem_filter.mp hs with ⟨hs1, hs2⟩
    rcases List.mem_filter.mp hs1 with ⟨_, hq⟩
    have hq2 : (s.user_id == user) = true ∧ s.is_active = true := by
      simpa using hq
    have huser : s.user_id = user := by simpa using hq2.1
    have hact : s.is_active = true := hq2.2
    refine ⟨huser, hact, ?_⟩
    rcases hnd : s.next_expected_date with _ | d
    · rw [hnd] at hs2
      simp at hs2
    · rw [hnd] at hs2
      exact ⟨d, rfl, by simpa using hs2⟩

/-- Witness for C8 amended: the past-due stream is among the returned
upcoming transactions, and the net identity holds on the fixture. -/
theorem forecast_cash_flow_amended_witness :
    streamToItem testPastDueStream ∈
      (forecastCashFlow testStreamDb "user1" 0 30).upcoming_transactions ∧
    (forecastCashFlow testStreamDb "user1" 0 30).expected_net =
      (forecastCashFlow testStreamDb "user1" 0 30).expected_income -
      (forecastCashFlow testStreamDb "user1" 0 30).expected_expenses := by
  have h := forecast_cash_flow_amended testStreamDb "user1" 0 30
  exact ⟨(h.2.2.2.1 (streamToItem testPastDueStream)).mpr
    ⟨testPastDueStream, by decide, rfl⟩, h.2.2.1⟩

/-! ## C6: net-worth change lookback; C7: trend -/

/-- The snapshot selection fold returns a member of the candidate list
that maximizes the snapshot date. -/
theorem prevFold_some (c : List NetWorthSnapshot) :
    ∀ (best : Option NetWorthSnapshot) (s : NetWorthSnapshot),
      c.foldl pickLaterSnapshot best = some s →
      ((s ∈ c ∨ best = some s) ∧
       (∀ x ∈ c, x.snapshot_date ≤ s.snapshot_date) ∧
       (∀ b, best = some b → b.snapshot_date ≤ s.snapshot_date)) := by
  induction c with
  | nil =>
      intro best s h
      simp only [List.foldl_nil] at h
      exact ⟨Or.inr h, by simp, fun b hb => by rw [hb] at h; simp at h; rw [h]⟩
  | cons x xs ih =>
      intro best s h
      simp only [List.foldl_cons] at h
      rcases best with _ | b
      · rw [show pickLaterSnapshot Option.none x = some x from rfl] at h
        rcases ih (some x) s h with ⟨h1, h2, h3⟩
        refine ⟨?_, ?_, ?_⟩
        · rcases h1 with h1 | h1
          · exact Or.inl (List.mem_cons_of_mem _ h1)
          · simp only [Option.some.injEq] at h1
            exact Or.inl (h1 ▸ List.mem_cons_self _ _)
        · intro y hy
          rcases List.mem_cons.mp hy with hy | hy
          · exact hy ▸ h3 x rfl
          · exact h2 y hy
        · intro b hb
          cases hb
      · by_cases hlt : b.snapshot_date < x.snapshot_date
        · rw [show pickLaterSnapshot (some b) x = some x from by
            simp [pickLaterSnapshot, hlt]] at h
          rcases ih (some x) s h with ⟨h1, h2, h3⟩
          refine ⟨?_, ?_, ?_⟩
          · rcases h1 with h1 | h1
            · exact Or.inl (List.mem_cons_of_mem _ h1)
            · simp only [Option.some.injEq] at h1
              exact Or.inl (h1 ▸ List.mem_cons_self _ _)
          · intro y hy
            rcases List.mem_cons.mp hy with hy | hy
            · exact hy ▸ h3 x rfl
            · exact h2 y hy
          · intro b2 hb2
            simp only [Option.some.injEq] at hb2
            exact le_trans (le_of_lt (hb2 ▸ hlt)) (h3 x rfl)
        · rw [show pickLaterSnapshot (some b) x = some b from by
            simp [pickLaterSnapshot, hlt]] at h
          rcases ih (some b) s h with ⟨h1, h2, h3⟩
          refine ⟨?_, ?_, ?_⟩
          · rcases h1 with h1 | h1
            · exact Or.inl (List.mem_cons_of_mem _ h1)
            · exact Or.inr h1
          · intro y hy
            rcases List.mem_cons.mp hy with hy | hy
            · exact hy ▸ le_trans (le_of_not_lt hlt) (h3 b rfl)
            · exact h2 y hy
          · exact h3

/-- The snapshot selection fold returns nothing only on an empty
candidate list. -/
theorem prevFold_none (c : List NetWorthSnapshot) :
    ∀ best, c.foldl pickLaterSnapshot best = Option.none →
      c = [] ∧ best = Option.none := by
  induction c with
  | nil => intro best h; exact ⟨rfl, h⟩
  | cons x xs ih =>
      intro best s
      simp only [List.foldl_cons] at s
      rcases best with _ | b
      · rcases ih (pickLaterSnapshot Option.none x) s with ⟨_, h2⟩
        rw [show pickLaterSnapshot Option.none x = some x from rfl] at h2
        cases h2
      · rcases ih (pickLaterSnapshot (some b) x) s with ⟨_, h2⟩
        by_cases hlt : b.snapshot_date < x.snapshot_date
        · rw [show pickLaterSnapshot (some b) x = some x from by
            simp [pickLaterSnapshot, hlt]] at h2
          cases h2
        · rw [show pickLaterSnapshot (some b) x = some b from by
            simp [pickLaterSnapshot, hlt]] at h2
          cases h2

/-- C6: for each lookback window of 1, 7 and 30 days,
calculate_current_net_worth reports a change computed against the most
recent net-worth snapshot dated on or before today minus the window: the
amount is current minus that snapshot net worth and the percent is the
change over the absolute previous value times 100, with a zero result
when no prior snapshot exists or the previous net worth is zero (or
null). -/
theorem net_worth_change_against_lookback :
    ∀ (db : Db) (user : String) (today : Int),
      ((calculateCurrentNetWorth db user today).daily_change =
          calcChange (calculateCurrentNetWorth db user today).net_worth
            (getPreviousSnapshot db user today 1) ∧
       (calculateCurrentNetWorth db user today).weekly_change =
          calcChange (calculateCurrentNetWorth db user today).net_worth
            (getPreviousSnapshot db user today 7) ∧
       (calculateCurrentNetWorth db user today).monthly_change =
          calcChange (calculateCurrentNetWorth db user today).net_worth
            (getPreviousSnapshot db user today 30)) ∧
      (∀ daysAgo s, getPreviousSnapshot db user today daysAgo = some s →
          s ∈ db.net_worth_snapshots ∧ s.user_id = user ∧
          s.snapshot_date ≤ today - daysAgo ∧
          ∀ s2 ∈ db.net_worth_snapshots, s2.user_id = user →
            s2.snapshot_date ≤ today - daysAgo →
            s2.snapshot_date ≤ s.snapshot_date) ∧
      (∀ daysAgo, getPreviousSnapshot db user today daysAgo = Option.none →
          ∀ s2 ∈ db.net_worth_snapshots, s2.user_id = user →
            ¬ s2.snapshot_date ≤ today - daysAgo) ∧
      (∀ current : Rat, calcChange current Option.none =
          { amount := 0, percent := 0 }) ∧
      (∀ (current : Rat) (s : NetWorthSnapshot),
          (s.net_worth = Option.none ∨ s.net_worth = some 0) →
          calcChange current (some s) = { amount := 0, percent := 0 }) ∧
      (∀ (current p : Rat) (s : NetWorthSnapshot), s.net_worth = some p →
          p ≠ 0 → calcChange current (some s) =
            { amount := current - p, percent := (current - p) / |p| * 100 }) := by
  intro db user today
  refine ⟨⟨rfl, rfl, rfl⟩, ?_, ?_, fun current => rfl, ?_, ?_⟩
  · intro daysAgo s h
    unfold getPreviousSnapshot at h
    rcases prevFold_some _ _ _ h with ⟨h1, h2, _⟩
    rcases h1 with h1 | h1
    · rcases List.mem_filter.mp h1 with ⟨hmem, hcond⟩
      have hc : (s.user_id == user) = true ∧
          decide (s.snapshot_date ≤ today - daysAgo) = true := by
        simpa using hcond
      refine ⟨hmem, by simpa using hc.1, by simpa using hc.2, ?_⟩
      intro s2 hs2 hu2 hd2
      exact h2 s2 (List.mem_filter.mpr ⟨hs2, by simp [hu2, hd2]⟩)
    · cases h1
  · intro daysAgo h s2 hs2 hu2 hd2
    unfold getPreviousSnapshot at h
    rcases prevFold_none _ _ h with ⟨hempty, _⟩
    have : s2 ∈ (db.net_worth_snapshots.filter (fun s =>
        s.user_id == user && decide (s.snapshot_date ≤ today - daysAgo))) :=
      List.mem_filter.mpr ⟨hs2, by simp [hu2, hd2]⟩
    rw [hempty] at this
    cases this
  · intro current s h
    rcases h with h | h <;> simp [calcChange, h]
  · intro current p s hp hne
    simp [calcChange, hp, hne]

/-- Witness for C6 on a concrete snapshot store. -/
theorem net_worth_change_witness :
    calcChange 1100 (some testSnapshot90) =
      { amount := 1100 - 1000, percent := (1100 - 1000) / |(1000 : Rat)| * 100 } ∧
    getPreviousSnapshot testSnapDb "user1" 100 7 = some testSnapshot90 := by
  refine ⟨?_, by decide⟩
  exact (net_worth_change_against_lookback testSnapDb "user1" 100).2.2.2.2.2
    1100 1000 testSnapshot90 rfl (by norm_num)

/-- C7: the net-worth trend is insufficient_data for fewer than 7
snapshots; otherwise the average of the last 7 values is compared with
the average of the preceding (up to 23) values, giving increasing above
+3 percent, decreasing below -3 percent, and stable between. -/
theorem trend_classification :
    (∀ history : List Rat, history.length < 7 →
        calcTrend history = "insufficient_data") ∧
    (∀ history : List Rat, 7 ≤ history.length →
      ((history.take (history.length - 7)).drop (history.length - 30)) ≠ [] →
      ∀ changePercent : Rat,
        changePercent =
          (if ((history.take (history.length - 7)).drop
                (history.length - 30)).foldl (· + ·) 0 /
              ((((history.take (history.length - 7)).drop
                (history.length - 30)).length : Nat) : Rat) ≠ 0 then
            ((history.drop (history.length - 7)).foldl (· + ·) 0 /
                (((history.drop (history.length - 7)).length : Nat) : Rat) -
              ((history.take (history.length - 7)).drop
                  (history.length - 30)).foldl (· + ·) 0 /
                ((((history.take (history.length - 7)).drop
                  (history.length - 30)).length : Nat) : Rat)) /
              |((history.take (history.length - 7)).drop
                  (history.length - 30)).foldl (· + ·) 0 /
                ((((history.take (history.length - 7)).drop
                  (history.length - 30)).length : Nat) : Rat)| * 100
          else 0) →
        (changePercent > 3 → calcTrend history = "increasing") ∧
        (changePercent < -3 → calcTrend history = "decreasing") ∧
        (-3 ≤ changePercent → changePercent ≤ 3 →
          calcTrend history = "stable")) := by
  constructor
  · intro history h
    unfold calcTrend
    rw [if_pos h]
  · intro history h7 hprev changePercent hcp
    have hn7 : ¬ history.length < 7 := not_lt.mpr h7
    have hgt : 7 < history.length := by
      rcases lt_or_eq_of_le h7 with h | h
      · exact h
      · exfalso
        apply hprev
        rw [← h]
        simp
    have hdef : calcTrend history =
        (if changePercent > 3 then "increasing"
         else if changePercent < -3 then "decreasing"
         else "stable") := by
      simp only [calcTrend]
      rw [if_neg hn7, if_pos hgt]
      rw [if_neg (by simpa using hprev)]
      rw [hcp]
    refine ⟨?_, ?_, ?_⟩
    · intro h3
      rw [hdef, if_pos h3]
    · intro h3
      rw [hdef, if_neg (by linarith), if_pos h3]
    · intro h3a h3b
      rw [hdef, if_neg (by linarith), if_neg (by linarith)]

/-- Witness for C7 at concrete histories. -/
theorem trend_classification_witness :
    calcTrend [] = "insufficient_data" ∧
    calcTrend [1, 2, 2, 2, 2, 2, 2, 2] = "increasing" := by
  constructor
  · exact trend_classification.1 [] (by decide)
  · exact (trend_classification.2 [1, 2, 2, 2, 2, 2, 2, 2] (by decide) (by decide)
      100 (by norm_num [List.take, List.drop, List.foldl])).1 (by norm_num)

/-! ## C1: user-editable classification fields under resync -/

/-- Updating a first match that the update leaves unchanged is a no-op. -/
theorem findUpdate_eq_self (p : α → Bool) (f : α → α) (l : List α) (x : α)
    (hfind : l.find? p = some x) (hfix : f x = x) : findUpdate p f l = l := by
  induction l with
  | nil => simp at hfind
  | cons y ys ih =>
      rw [List.find?] at hfind
      cases hy : p y with
      | true =>
          rw [hy] at hfind
          simp only [Option.some.injEq] at hfind
          subst hfind
          simp [findUpdate, hy, hfix]
      | false =>
          rw [hy] at hfind
          simp [findUpdate, hy, ih hfind]

/-- Appending a non-matching element does not change the first match. -/
theorem find?_append_single_ne (p : α → Bool) (l : List α) (a : α)
    (ha : p a = false) : (l ++ [a]).find? p = l.find? p := by
  cases hl : l.find? p with
  | some x => exact find?_append_some p l [a] x hl
  | none =>
      rw [find?_append_none p l [a] hl]
      simp [List.find?, ha]

/-- The account update never touches the external key. -/
theorem updateAccountFields_key (r : AccData) (a : Account) :
    (updateAccountFields r a).account_id = a.account_id := rfl

/-- An account-loop iteration for a different external id leaves the
first match of a key untouched. -/
theorem syncAccountsStep_find?_ne (item : PlaidItem) (today : Int)
    (st : List Account × List BalanceSnapshot × Nat) (r2 : AccData) (k : String)
    (hne : r2.account_id ≠ k) :
    (syncAccountsStep item today st r2).1.find? (fun a => a.account_id == k) =
      st.1.find? (fun a => a.account_id == k) := by
  obtain ⟨accounts, snaps, n⟩ := st
  simp only [syncAccountsStep]
  cases hfind : accounts.find? (fun a => a.account_id == r2.account_id) with
  | some a =>
      simp only
      apply find?_findUpdate_ne
      · intro x hx
        have hx2 : x.account_id = r2.account_id := by simpa using hx
        simp [hx2, hne]
      · intro x hx
        have hx2 : x.account_id = r2.account_id := by simpa using hx
        simp [updateAccountFields_key, hx2, hne]
  | none =>
      simp only
      apply find?_append_single_ne
      have : (updateAccountFields r2 (mkAccount item r2.account_id)).account_id =
          r2.account_id := rfl
      simp [this, hne]

/-- The account loop leaves keys it never processes untouched. -/
theorem syncAccounts_foldl_find?_ne (item : PlaidItem) (today : Int)
    (recs : List AccData) (k : String) :
    ∀ st, (∀ r2 ∈ recs, r2.account_id ≠ k) →
      (recs.foldl (syncAccountsStep item today) st).1.find?
          (fun a => a.account_id == k) =
        st.1.find? (fun a => a.account_id == k) := by
  induction recs with
  | nil => intro st h; rfl
  | cons r rest ih =>
      intro st h
      rw [List.foldl_cons]
      rw [ih _ (fun r2 hr2 => h r2 (List.mem_cons_of_mem _ hr2))]
      exact syncAccountsStep_find?_ne item today st r k (h r (List.mem_cons_self _ _))

/-- After its loop iteration, the row of a record key is the updated
found row, or the updated fresh row when absent. -/
theorem syncAccountsStep_find?_self (item : PlaidItem) (today : Int)
    (st : List Account × List BalanceSnapshot × Nat) (r : AccData) :
    (syncAccountsStep item today st r).1.find?
        (fun a => a.account_id == r.account_id) =
      some (updateAccountFields r
        (match st.1.find? (fun a => a.account_id == r.account_id) with
         | some a => a
         | Option.none => mkAccount item r.account_id)) := by
  obtain ⟨accounts, snaps, n⟩ := st
  simp only [syncAccountsStep]
  cases hfind : accounts.find? (fun a => a.account_id == r.account_id) with
  | some a =>
      simp only
      rw [find?_findUpdate_self]
      · rw [hfind]
        rfl
      · intro x hx
        have hx2 : x.account_id = r.account_id := by simpa using hx
        simp [updateAccountFields_key, hx2]
  | none =>
      simp only
      rw [find?_append_none _ _ _ hfind]
      have hk : ((updateAccountFields r (mkAccount item r.account_id)).account_id ==
          r.account_id) = true := by
        rw [updateAccountFields_key]
        simp [mkAccount]
      simp [List.find?, hk]

/-- Row contents at a processed key after the whole account loop, given
distinct upstream keys. -/
theorem syncAccounts_foldl_find?_char (item : PlaidItem) (today : Int)
    (recs : List AccData) (r : AccData) :
    ∀ st, (recs.map (fun x => x.account_id)).Nodup → r ∈ recs →
      (recs.foldl (syncAccountsStep item today) st).1.find?
          (fun a => a.account_id == r.account_id) =
        some (updateAccountFields r
          (match st.1.find? (fun a => a.account_id == r.account_id) with
           | some a => a
           | Option.none => mkAccount item r.account_id)) := by
  induction recs with
  | nil => intro st _ hmem; cases hmem
  | cons r0 rest ih =>
      intro st hnd hmem
      have hnd2 := hnd
      rw [List.map_cons, List.nodup_cons] at hnd2
      rcases List.mem_cons.mp hmem with heq | hmem2
      · subst heq
        rw [List.foldl_cons]
        rw [syncAccounts_foldl_find?_ne item today rest r.account_id _ ?hke]
        case hke =>
          intro r2 hr2 hk
          exact hnd2.1 (hk ▸ List.mem_map_of_mem (fun x => x.account_id) hr2)
        exact syncAccountsStep_find?_self item today st r
      · have hne : r0.account_id ≠ r.account_id := by
          intro he
          exact hnd2.1 (he ▸ List.mem_map_of_mem (fun x => x.account_id) hmem2)
        rw [List.foldl_cons]
        rw [ih _ hnd2.2 hmem2]
        rw [syncAccountsStep_find?_ne item today st r0 r.account_id hne]

/-- C1 counterexample: an existing depository account whose user set
is_asset and is_liquid to false comes out of a resync with both flags
recomputed to true by the classification rule, so the claim that these
fields are left unchanged on accounts that already exist is false on
this input. -/
theorem resync_overwrites_classification :
    (syncAccounts [testOverriddenAccount] [] testItem (.ok [testAccData]) 0).map
        (fun out => out.1.map (fun a => (a.is_asset, a.is_liquid))) =
      .ok [(true, true)] ∧
    testOverriddenAccount.is_asset = false ∧
    testOverriddenAccount.is_liquid = false ∧
    testAccData.account_id = testOverriddenAccount.account_id := by
  refine ⟨rfl, rfl, rfl, rfl⟩

/-- C1 amended: on resync of an existing account the user-editable
fields include_in_net_worth and custom_category are left unchanged, but
is_asset and is_liquid are recomputed from the upstream account type by
the classification rule on every sync, creation and update alike. -/
theorem resync_merges_user_fields :
    ∀ (accounts : List Account) (snaps : List BalanceSnapshot)
      (item : PlaidItem) (recs : List AccData) (today : Int)
      (a : Account) (r : AccData) (out : List Account × List BalanceSnapshot × Nat),
      (recs.map (fun x => x.account_id)).Nodup →
      accounts.find? (fun x => x.account_id == a.account_id) = some a →
      r ∈ recs → r.account_id = a.account_id →
      syncAccounts accounts snaps item (.ok recs) today = .ok out →
      out.1.find? (fun x => x.account_id == a.account_id) =
        some (updateAccountFields r a) ∧
      (updateAccountFields r a).include_in_net_worth = a.include_in_net_worth ∧
      (updateAccountFields r a).custom_category = a.custom_category ∧
      (updateAccountFields r a).is_asset =
        (!(r.type == some "credit") && !(r.type == some "loan")) ∧
      (updateAccountFields r a).is_liquid = (r.type == some "depository") := by
  intro accounts snaps item recs today a r out hnd hfind hmem hkey hsync
  have hout : out = recs.foldl (syncAccountsStep item today) (accounts, snaps, 0) := by
    simp only [syncAccounts, Except.ok.injEq] at hsync
    exact hsync.symm
  subst hout
  refine ⟨?_, rfl, rfl, rfl, rfl⟩
  have hchar := syncAccounts_foldl_find?_char item today recs r
    (accounts, snaps, 0) hnd hmem
  rw [hkey] at hchar
  rw [hchar]
  have hfind2 : List.find? (fun x => x.account_id == a.account_id)
      ((accounts, snaps, (0 : Nat)) :
        List Account × List BalanceSnapshot × Nat).1 = some a := hfind
  rw [hfind2]

/-- Witness for C1 amended on the fixture account. -/
theorem resync_merges_user_fields_witness :
    (updateAccountFields testAccData testOverriddenAccount).include_in_net_worth =
      testOverriddenAccount.include_in_net_worth ∧
    (updateAccountFields testAccData testOverriddenAccount).custom_category =
      testOverriddenAccount.custom_category ∧
    ([testAccData].foldl (syncAccountsStep testItem 0)
        ([testOverriddenAccount], [], 0)).1.find?
        (fun x => x.account_id == testOverriddenAccount.account_id) =
      some (updateAccountFields testAccData testOverriddenAccount) := by
  have h := resync_merges_user_fields [testOverriddenAccount] [] testItem
    [testAccData] 0 testOverriddenAccount testAccData
    ([testAccData].foldl (syncAccountsStep testItem 0)
      ([testOverriddenAccount], [], 0))
    (by decide) (by decide) (List.mem_cons_self _ _) rfl rfl
  exact ⟨h.2.1, h.2.2.1, h.1⟩

/-! ## C2: sync report and partial-failure isolation -/

/-- C2 counterexample: called with an institution link id that does not
exist, sync_item raises instead of returning a report, so the claim that
it returns a report for every input is false on this input. -/
theorem sync_item_unknown_item_raises :
    syncItem emptyDb testUpAccountsOnly 5 0 "missing" =
      .error "Plaid item not found: missing" ∧
    syncItem testDb testUpAccountsOnly 5 0 "nope" =
      .error "Plaid item not found: nope" := by
  exact ⟨rfl, rfl⟩

/-- Stamping the last-synced time keeps the item findable and sets the
timestamp. -/
theorem setLastSynced_find? (items : List PlaidItem) (itemId : String)
    (item : PlaidItem) (now : Int)
    (hfind : items.find? (fun i => i.id == itemId) = some item) :
    (findUpdate (fun i => i.id == itemId)
        (fun i => { i with last_synced_at := some now }) items).find?
        (fun i => i.id == itemId) =
      some { item with last_synced_at := some now } := by
  have h := find?_findUpdate_self (fun i : PlaidItem => i.id == itemId)
    (fun i => { i with last_synced_at := some now }) (fun x hx => hx) items
  rw [h, hfind]
  rfl

/-- C2 amended: whenever the institution link exists, sync_item returns a
report rather than raising; each of the four categories that fails is
caught and recorded as a category-scoped error string without preventing
the remaining categories from running (their counts and table states are
exactly the outcome of their own runs, and a failed category contributes
a zero count and leaves its tables unchanged); the report carries all
per-category counts, and the last-synced timestamp of the link is updated
at the end regardless of per-category errors. -/
theorem sync_item_report_amended :
    ∀ (db : Db) (up : Upstream) (now today : Int) (itemId : String)
      (item : PlaidItem),
      db.items.find? (fun i => i.id == itemId) = some item →
      ∃ db2 rep, syncItem db up now today itemId = .ok (db2, rep) ∧
        rep.item_id = itemId ∧
        (∃ j, db2.items.find? (fun i => i.id == itemId) = some j ∧
          j.last_synced_at = some now) ∧
        (match syncAccounts db.accounts db.balance_snapshots item
            up.accounts_resp today with
         | .ok out => rep.accounts_synced = out.2.2 ∧ db2.accounts = out.1 ∧
             db2.balance_snapshots = out.2.1
         | .error e => rep.accounts_synced = 0 ∧ db2.accounts = db.accounts ∧
             db2.balance_snapshots = db.balance_snapshots ∧
             ("Accounts sync error: " ++ e) ∈ rep.errors) ∧
        (match syncTransactions db.transactions db2.accounts item
            up.transactions_resp with
         | .ok out => rep.transactions_synced = out.2 ∧ db2.transactions = out.1
         | .error e => rep.transactions_synced = 0 ∧
             db2.transactions = db.transactions ∧
             ("Transactions sync error: " ++ e) ∈ rep.errors) ∧
        (match syncInvestments db.securities db.holdings db2.accounts item
            up.investments_resp with
         | .ok out => rep.holdings_synced = out.2.2.1 ∧
             rep.securities_synced = out.2.2.2 ∧ db2.securities = out.1 ∧
             db2.holdings = out.2.1
         | .error e => rep.holdings_synced = 0 ∧ rep.securities_synced = 0 ∧
             db2.securities = db.securities ∧ db2.holdings = db.holdings ∧
             ("Investments sync error: " ++ e) ∈ rep.errors) ∧
        (match syncLiabilities db.liabilities db2.accounts item
            up.liabilities_resp with
         | .ok out => rep.liabilities_synced = out.2 ∧ db2.liabilities = out.1
         | .error e => rep.liabilities_synced = 0 ∧
             db2.liabilities = db.liabilities ∧
             ("Liabilities sync error: " ++ e) ∈ rep.errors) ∧
        rep.errors.length ≤ 4 := by
  intro db up now today itemId item hfind
  simp only [syncItem, hfind]
  cases hA : syncAccounts db.accounts db.balance_snapshots item
      up.accounts_resp today with
  | ok outA =>
      obtain ⟨a1, s1, nA⟩ := outA
      cases hT : syncTransactions db.transactions a1 item up.transactions_resp with
      | ok outT =>
          obtain ⟨t1, nT⟩ := outT
          cases hI : syncInvestments db.securities db.holdings a1 item
              up.investments_resp with
          | ok outI =>
              obtain ⟨se1, h1, nH, nS⟩ := outI
              cases hL : syncLiabilities db.liabilities a1 item
                  up.liabilities_resp with
              | ok outL =>
                  obtain ⟨l1, nL⟩ := outL
                  refine ⟨_, _, rfl, rfl,
                    ⟨_, setLastSynced_find? db.items itemId item now hfind, rfl⟩,
                    ?_, ?_, ?_, ?_, ?_⟩
                  · simp [hA]
                  · simp [hT]
                  · simp [hI]
                  · simp [hL]
                  · simp
              | error eL =>
                  refine ⟨_, _, rfl, rfl,
                    ⟨_, setLastSynced_find? db.items itemId item now hfind, rfl⟩,
                    ?_, ?_, ?_, ?_, ?_⟩
                  · simp [hA]
                  · simp [hT]
                  · simp [hI]
                  · simp [hL]
                  · simp
          | error eI =>
              cases hL : syncLiabilities db.liabilities a1 item
                  up.liabilities_resp with
              | ok outL =>
                  obtain ⟨l1, nL⟩ := outL
                  refine ⟨_, _, rfl, rfl,
                    ⟨_, setLastSynced_find? db.items itemId item now hfind, rfl⟩,
                    ?_, ?_, ?_, ?_, ?_⟩
                  · simp [hA]
                  · simp [hT]
                  · simp [hI]
                  · simp [hL]
                  · simp
              | error eL =>
                  refine ⟨_, _, rfl, rfl,
                    ⟨_, setLastSynced_find? db.items itemId item now hfind, rfl⟩,
                    ?_, ?_, ?_, ?_, ?_⟩
                  · simp [hA]
                  · simp [hT]
                  · simp [hI]
                  · simp [hL]
                  · simp
      | error eT =>
          cases hI : syncInvestments db.securities db.holdings a1 item
              up.investments_resp with
          | ok outI =>
              obtain ⟨se1, h1, nH, nS⟩ := outI
              cases hL : syncLiabilities db.liabilities a1 item
                  up.liabilities_resp with
              | ok outL =>
                  obtain ⟨l1, nL⟩ := outL
                  refine ⟨_, _, rfl, rfl,
                    ⟨_, setLastSynced_find? db.items itemId item now hfind, rfl⟩,
                    ?_, ?_, ?_, ?_, ?_⟩
                  · simp [hA]
                  · simp [hT]
                  · simp [hI]
                  · simp [hL]
                  · simp
              | error eL =>
                  refine ⟨_, _, rfl, rfl,
                    ⟨_, setLastSynced_find? db.items itemId item now hfind, rfl⟩,
                    ?_, ?_, ?_, ?_, ?_⟩
                  · simp [hA]
                  · simp [hT]
                  · simp [hI]
                  · simp [hL]
                  · simp
          | error eI =>
              cases hL : syncLiabilities db.liabilities a1 item
                  up.liabilities_resp with
              | ok outL =>
                  obtain ⟨l1, nL⟩ := outL
                  refine ⟨_, _, rfl, rfl,
                    ⟨_, setLastSynced_find? db.items itemId item now hfind, rfl⟩,
                    ?_, ?_, ?_, ?_, ?_⟩
                  · simp [hA]
                  · simp [hT]
                  · simp [hI]
                  · simp [hL]
                  · simp
              | error eL =>
                  refine ⟨_, _, rfl, rfl,
                    ⟨_, setLastSynced_find? db.items itemId item now hfind, rfl⟩,
                    ?_, ?_, ?_, ?_, ?_⟩
                  · simp [hA]
                  · simp [hT]
                  · simp [hI]
                  · simp [hL]
                  · simp
  | error eA =>
      cases hT : syncTransactions db.transactions db.accounts item
          up.transactions_resp with
      | ok outT =>
          obtain ⟨t1, nT⟩ := outT
          cases hI : syncInvestments db.securities db.holdings db.accounts item
              up.investments_resp with
          | ok outI =>
              obtain ⟨se1, h1, nH, nS⟩ := outI
              cases hL : syncLiabilities db.liabilities db.accounts item
                  up.liabilities_resp with
              | ok outL =>
                  obtain ⟨l1, nL⟩ := outL
                  refine ⟨_, _, rfl, rfl,
                    ⟨_, setLastSynced_find? db.items itemId item now hfind, rfl⟩,
                    ?_, ?_, ?_, ?_, ?_⟩
                  · simp [hA]
                  · simp [hT]
                  · simp [hI]
                  · simp [hL]
                  · simp
              | error eL =>
                  refine ⟨_, _, rfl, rfl,
                    ⟨_, setLastSynced_find? db.items itemId item now hfind, rfl⟩,
                    ?_, ?_, ?_, ?_, ?_⟩
                  · simp [hA]
                  · simp [hT]
                  · simp [hI]
                  · simp [hL]
                  · simp
          | error eI =>
              cases hL : syncLiabilities db.liabilities db.accounts item
                  up.liabilities_resp with
              | ok outL =>
                  obtain ⟨l1, nL⟩ := outL
                  refine ⟨_, _, rfl, rfl,
                    ⟨_, setLastSynced_find? db.items itemId item now hfind, rfl⟩,
                    ?_, ?_, ?_, ?_, ?_⟩
                  · simp [hA]
                  · simp [hT]
                  · simp [hI]
                  · simp [hL]
                  · simp
              | error eL =>
                  refine ⟨_, _, rfl, rfl,
                    ⟨_, setLastSynced_find? db.items itemId item now hfind, rfl⟩,
                    ?_, ?_, ?_, ?_, ?_⟩
                  · simp [hA]
                  · simp [hT]
                  · simp [hI]
                  · simp [hL]
                  · simp
      | error eT =>
          cases hI : syncInvestments db.securities db.holdings db.accounts item
              up.investments_resp with
          | ok outI =>
              obtain ⟨se1, h1, nH, nS⟩ := outI
              cases hL : syncLiabilities db.liabilities db.accounts item
                  up.liabilities_resp with
              | ok outL =>
                  obtain ⟨l1, nL⟩ := outL
                  refine ⟨_, _, rfl, rfl,
                    ⟨_, setLastSynced_find? db.items itemId item now hfind, rfl⟩,
                    ?_, ?_, ?_, ?_, ?_⟩
                  · simp [hA]
                  · simp [hT]
                  · simp [hI]
                  · simp [hL]
                  · simp
              | error eL =>
                  refine ⟨_, _, rfl, rfl,
                    ⟨_, setLastSynced_find? db.items itemId item now hfind, rfl⟩,
                    ?_, ?_, ?_, ?_, ?_⟩
                  · simp [hA]
                  · simp [hT]
                  · simp [hI]
                  · simp [hL]
                  · simp
          | error eI =>
              cases hL : syncLiabilities db.liabilities db.accounts item
                  up.liabilities_resp with
              | ok outL =>
                  obtain ⟨l1, nL⟩ := outL
                  refine ⟨_, _, rfl, rfl,
                    ⟨_, setLastSynced_find? db.items itemId item now hfind, rfl⟩,
                    ?_, ?_, ?_, ?_, ?_⟩
                  · simp [hA]
                  · simp [hT]
                  · simp [hI]
                  · simp [hL]
                  · simp
              | error eL =>
                  refine ⟨_, _, rfl, rfl,
                    ⟨_, setLastSynced_find? db.items itemId item now hfind, rfl⟩,
                    ?_, ?_, ?_, ?_, ?_⟩
                  · simp [hA]
                  · simp [hT]
                  · simp [hI]
                  · simp [hL]
                  · simp

/-- Witness for C2 amended on the fixture database. -/
theorem sync_item_report_amended_witness :
    ∃ db2 rep, syncItem testDb testUpAccountsOnly 5 0 "item1" = .ok (db2, rep) := by
  obtain ⟨db2, rep, h, -⟩ := sync_item_report_amended testDb testUpAccountsOnly
    5 0 "item1" testItem rfl
  exact ⟨db2, rep, h⟩

/-! ## C5: at most one snapshot per key per day -/

/-- The balance-snapshot upsert preserves uniqueness per
(account, date). -/
theorem createBalanceSnapshot_nodup (today : Int) (a : Account)
    (snaps : List BalanceSnapshot) (h : balanceSnapshotsUnique snaps) :
    balanceSnapshotsUnique (createBalanceSnapshot today a snaps) := by
  unfold balanceSnapshotsUnique at *
  simp only [createBalanceSnapshot]
  cases hfind : snaps.find? (fun s =>
      s.account_id == a.account_id && s.snapshot_date == today) with
  | some s0 =>
      simp only
      rw [map_findUpdate_key]
      · exact h
      · intro x hx
        rfl
  | none =>
      simp only
      rw [List.map_append]
      have hnotin : ((a.account_id, today) : String × Int) ∉
          snaps.map (fun s => (s.account_id, s.snapshot_date)) := by
        intro hmem
        rcases List.mem_map.mp hmem with ⟨x, hx, hkey⟩
        have := List.find?_eq_none.mp hfind x hx
        apply this
        have h1 : x.account_id = a.account_id := congrArg Prod.fst hkey
        have h2 : x.snapshot_date = today := congrArg Prod.snd hkey
        simp [h1, h2]
      rw [List.nodup_append]
      refine ⟨h, by simp, ?_⟩
      intro x hx
      simp only [List.map_cons, List.map_nil, List.mem_singleton]
      intro he
      exact hnotin (he ▸ hx)

/-- When a snapshot for (account, today) already exists the upsert
updates it in place: no row is added. -/
theorem createBalanceSnapshot_length_of_present (today : Int) (a : Account)
    (snaps : List BalanceSnapshot)
    (h : ∃ s ∈ snaps, s.account_id = a.account_id ∧ s.snapshot_date = today) :
    (createBalanceSnapshot today a snaps).length = snaps.length := by
  simp only [createBalanceSnapshot]
  rcases h with ⟨s0, hmem, hk1, hk2⟩
  have hsome : (snaps.find? (fun s =>
      s.account_id == a.account_id && s.snapshot_date == today)).isSome := by
    rw [List.find?_isSome]
    exact ⟨s0, hmem, by simp [hk1, hk2]⟩
  cases hfind : snaps.find? (fun s =>
      s.account_id == a.account_id && s.snapshot_date == today) with
  | some s1 =>
      simp only
      exact length_findUpdate _ _ _
  | none => rw [hfind] at hsome; simp at hsome

/-- A successful save_daily_snapshot leaves balance snapshots untouched
and upserts one net-worth row keyed by (user, today). -/
theorem saveDailySnapshot_shape (db : Db) (user : String) (today : Int)
    (db2 : Db) (h : saveDailySnapshot db user today = .ok db2) :
    db2.balance_snapshots = db.balance_snapshots ∧
    ∃ s3 : NetWorthSnapshot, s3.user_id = user ∧ s3.snapshot_date = today ∧
      db2.net_worth_snapshots =
        (match db.net_worth_snapshots.find? (fun s =>
            s.user_id == user && s.snapshot_date == today) with
         | some _ => findUpdate (fun s =>
              s.user_id == user && s.snapshot_date == today)
              (fun _ => s3) db.net_worth_snapshots
         | Option.none => db.net_worth_snapshots ++ [s3]) := by
  simp only [saveDailySnapshot] at h
  cases hprev : getPreviousSnapshot db user today 1 with
  | none =>
      rw [hprev] at h
      simp only [Except.ok.injEq] at h
      subst h
      refine ⟨rfl, ?_⟩
      cases hfind : db.net_worth_snapshots.find? (fun s =>
          s.user_id == user && s.snapshot_date == today) with
      | some s0 =>
          have hp := List.find?_some hfind
          have hp2 : s0.user_id = user ∧ s0.snapshot_date = today := by
            simpa using hp
          refine ⟨_, ?_, ?_, rfl⟩
          · simpa using hp2.1
          · simpa using hp2.2
      | none =>
          exact ⟨_, rfl, rfl, rfl⟩
  | some y =>
      simp only [hprev] at h
      cases hyn : y.net_worth with
      | none =>
          simp only [hyn] at h
          simp at h
      | some yn =>
          simp only [hyn] at h
          simp only [Except.ok.injEq] at h
          subst h
          refine ⟨rfl, ?_⟩
          cases hfind : db.net_worth_snapshots.find? (fun s =>
              s.user_id == user && s.snapshot_date == today) with
          | some s0 =>
              have hp := List.find?_some hfind
              have hp2 : s0.user_id = user ∧ s0.snapshot_date = today := by
                simpa using hp
              refine ⟨_, ?_, ?_, rfl⟩
              · by_cases hz : yn ≠ 0 <;> simp [hz, hp2.1]
              · by_cases hz : yn ≠ 0 <;> simp [hz, hp2.2]
          | none =>
              refine ⟨_, ?_, ?_, rfl⟩
              · by_cases hz : yn ≠ 0 <;> simp [hz]
              · by_cases hz : yn ≠ 0 <;> simp [hz]

/-- The net-worth snapshot upsert preserves uniqueness per
(user, date). -/
theorem nwUpsert_nodup (nws : List NetWorthSnapshot) (user : String)
    (today : Int) (s3 : NetWorthSnapshot)
    (hu : s3.user_id = user) (hd : s3.snapshot_date = today)
    (hn : netWorthSnapshotsUnique nws) :
    netWorthSnapshotsUnique
      (match nws.find? (fun s : NetWorthSnapshot =>
          s.user_id == user && s.snapshot_date == today) with
       | some _ => findUpdate (fun s : NetWorthSnapshot =>
           s.user_id == user && s.snapshot_date == today) (fun _ => s3) nws
       | Option.none => nws ++ [s3]) := by
  unfold netWorthSnapshotsUnique at *
  cases hfind : nws.find? (fun s : NetWorthSnapshot =>
      s.user_id == user && s.snapshot_date == today) with
  | some s0 =>
      rw [map_findUpdate_key]
      · exact hn
      · intro x hx
        have hx2 : x.user_id = user ∧ x.snapshot_date = today := by
          simpa using hx
        simp [hu, hd, hx2.1, hx2.2]
  | none =>
      rw [List.map_append, List.nodup_append]
      refine ⟨hn, by simp, ?_⟩
      intro k hk
      simp only [List.map_cons, List.map_nil, List.mem_singleton]
      intro he
      rcases List.mem_map.mp hk with ⟨x, hx, hkey⟩
      have hne := List.find?_eq_none.mp hfind x hx
      apply hne
      have h1 : x.user_id = s3.user_id := by
        have := congrArg Prod.fst (he ▸ hkey)
        simpa using this
      have h2 : x.snapshot_date = s3.snapshot_date := by
        have := congrArg Prod.snd (he ▸ hkey)
        simpa using this
      simp [h1, h2, hu, hd]

/-- When a net-worth snapshot for (user, today) already exists the
upsert updates it in place: no row is added. -/
theorem nwUpsert_length_of_present (nws : List NetWorthSnapshot)
    (user : String) (today : Int) (s3 : NetWorthSnapshot)
    (h : ∃ s ∈ nws, s.user_id = user ∧ s.snapshot_date = today) :
    (match nws.find? (fun s : NetWorthSnapshot =>
        s.user_id == user && s.snapshot_date == today) with
     | some _ => findUpdate (fun s : NetWorthSnapshot =>
         s.user_id == user && s.snapshot_date == today) (fun _ => s3) nws
     | Option.none => nws ++ [s3]).length = nws.length := by
  rcases h with ⟨s0, hmem, hk1, hk2⟩
  have hsome : (nws.find? (fun s : NetWorthSnapshot =>
      s.user_id == user && s.snapshot_date == today)).isSome := by
    rw [List.find?_isSome]
    exact ⟨s0, hmem, by simp [hk1, hk2]⟩
  cases hfind : nws.find? (fun s : NetWorthSnapshot =>
      s.user_id == user && s.snapshot_date == today) with
  | some s1 => exact length_findUpdate _ _ _
  | none => rw [hfind] at hsome; simp at hsome

/-- One account-loop iteration preserves balance-snapshot uniqueness. -/
theorem syncAccountsStep_snaps_nodup (item : PlaidItem) (today : Int)
    (st : List Account × List BalanceSnapshot × Nat) (r : AccData)
    (h : balanceSnapshotsUnique st.2.1) :
    balanceSnapshotsUnique (syncAccountsStep item today st r).2.1 := by
  obtain ⟨accounts, snaps, n⟩ := st
  simp only [syncAccountsStep]
  cases hfind : accounts.find? (fun a => a.account_id == r.account_id) with
  | some a => exact createBalanceSnapshot_nodup _ _ _ h
  | none => exact createBalanceSnapshot_nodup _ _ _ h

/-- The whole account loop preserves balance-snapshot uniqueness. -/
theorem syncAccounts_foldl_snaps_nodup (item : PlaidItem) (today : Int)
    (recs : List AccData) :
    ∀ st, balanceSnapshotsUnique st.2.1 →
      balanceSnapshotsUnique
        (recs.foldl (syncAccountsStep item today) st).2.1 := by
  induction recs with
  | nil => intro st h; exact h
  | cons r rest ih =>
      intro st h
      rw [List.foldl_cons]
      exact ih _ (syncAccountsStep_snaps_nodup item today st r h)

/-- A successful sync_item never touches net-worth snapshots, and its
balance snapshots are either untouched or the result of the account
loop. -/
theorem syncItem_snapshot_shape (db : Db) (up : Upstream) (now today : Int)
    (itemId : String) (db2 : Db) (rep : SyncReport)
    (h : syncItem db up now today itemId = .ok (db2, rep)) :
    db2.net_worth_snapshots = db.net_worth_snapshots ∧
    (db2.balance_snapshots = db.balance_snapshots ∨
      ∃ (item : PlaidItem) (recs : List AccData), db2.balance_snapshots =
        (recs.foldl (syncAccountsStep item today)
          (db.accounts, db.balance_snapshots, 0)).2.1) := by
  cases hfi : db.items.find? (fun i => i.id == itemId) with
  | none =>
      simp only [syncItem, hfi] at h
      cases h
  | some item =>
      simp only [syncItem, hfi] at h
      rw [Except.ok.injEq, Prod.mk.injEq] at h
      obtain ⟨hdb2, -⟩ := h
      subst hdb2
      refine ⟨rfl, ?_⟩
      cases hre : up.accounts_resp with
      | error e =>
          left
          simp only [hre, syncAccounts]
      | ok recs =>
          right
          exact ⟨item, recs, by simp only [hre, syncAccounts]⟩

/-- One same-day operation preserves both snapshot invariants. -/
theorem applyDayOp_preserves (today : Int) (db : Db) (op : DayOp)
    (hb : balanceSnapshotsUnique db.balance_snapshots)
    (hn : netWorthSnapshotsUnique db.net_worth_snapshots) :
    balanceSnapshotsUnique (applyDayOp today db op).balance_snapshots ∧
    netWorthSnapshotsUnique (applyDayOp today db op).net_worth_snapshots := by
  cases op with
  | sync up itemId now =>
      simp only [applyDayOp]
      cases hs : syncItem db up now today itemId with
      | error e => exact ⟨hb, hn⟩
      | ok out =>
          obtain ⟨db2, rep⟩ := out
          obtain ⟨hnw, hbal⟩ :=
            syncItem_snapshot_shape db up now today itemId db2 rep hs
          constructor
          · rcases hbal with hbal | ⟨item, recs, hbal⟩
            · rw [hbal]; exact hb
            · rw [hbal]
              exact syncAccounts_foldl_snaps_nodup item today recs _ hb
          · rw [hnw]; exact hn
  | save user =>
      simp only [applyDayOp]
      cases hs : saveDailySnapshot db user today with
      | error e => exact ⟨hb, hn⟩
      | ok db2 =>
          obtain ⟨hbal, s3, hu, hd, hnw⟩ :=
            saveDailySnapshot_shape db user today db2 hs
          refine ⟨by rw [hbal]; exact hb, ?_⟩
          rw [hnw]
          exact nwUpsert_nodup _ _ _ _ hu hd hn

/-- C5: after any number of repeated sync runs and save_daily_snapshot
calls on the same calendar day there is at most one balance snapshot per
(account, date) and at most one net-worth snapshot per (user, date), and
a later call on a day that already has its snapshot updates the existing
row in place rather than inserting a second one. -/
theorem snapshot_per_day_uniqueness :
    (∀ (today : Int) (db : Db) (ops : List DayOp),
      balanceSnapshotsUnique db.balance_snapshots →
      netWorthSnapshotsUnique db.net_worth_snapshots →
      balanceSnapshotsUnique (ops.foldl (applyDayOp today) db).balance_snapshots ∧
      netWorthSnapshotsUnique (ops.foldl (applyDayOp today) db).net_worth_snapshots) ∧
    (∀ (today : Int) (a : Account) (snaps : List BalanceSnapshot),
      (∃ s ∈ snaps, s.account_id = a.account_id ∧ s.snapshot_date = today) →
      (createBalanceSnapshot today a snaps).length = snaps.length) ∧
    (∀ (today : Int) (db : Db) (user : String) (db2 : Db),
      (∃ s ∈ db.net_worth_snapshots, s.user_id = user ∧ s.snapshot_date = today) →
      saveDailySnapshot db user today = .ok db2 →
      db2.net_worth_snapshots.length = db.net_worth_snapshots.length) := by
  refine ⟨?_, ?_, ?_⟩
  · intro today db ops
    induction ops generalizing db with
    | nil => intro hb hn; exact ⟨hb, hn⟩
    | cons op rest ih =>
        intro hb hn
        rw [List.foldl_cons]
        obtain ⟨hb2, hn2⟩ := applyDayOp_preserves today db op hb hn
        exact ih _ hb2 hn2
  · exact fun today a snaps h =>
      createBalanceSnapshot_length_of_present today a snaps h
  · intro today db user db2 hpresent hsave
    obtain ⟨-, s3, hu, hd, hnw⟩ := saveDailySnapshot_shape db user today db2 hsave
    rw [hnw]
    exact nwUpsert_length_of_present _ _ _ _ hpresent

/-- Witness for C5 on a concrete operation sequence. -/
theorem snapshot_per_day_uniqueness_witness :
    balanceSnapshotsUnique
      (([DayOp.save "user1", DayOp.save "user1", DayOp.sync testUpAccountsOnly "item1" 5,
         DayOp.sync testUpAccountsOnly "item1" 6].foldl
        (applyDayOp 0) testDb)).balance_snapshots ∧
    netWorthSnapshotsUnique
      (([DayOp.save "user1", DayOp.save "user1", DayOp.sync testUpAccountsOnly "item1" 5,
         DayOp.sync testUpAccountsOnly "item1" 6].foldl
        (applyDayOp 0) testDb)).net_worth_snapshots :=
  snapshot_per_day_uniqueness.1 0 testDb
    [DayOp.save "user1", DayOp.save "user1", DayOp.sync testUpAccountsOnly "item1" 5,
     DayOp.sync testUpAccountsOnly "item1" 6]
    (by simp [balanceSnapshotsUnique, testDb])
    (by simp [netWorthSnapshotsUnique, testDb])

/-! ## Idempotence of the sync pipeline (C3) -/
theorem foldl_fixed {σ ρ : Type _} (step : σ → ρ → σ) (l : List ρ) (s : σ)
    (h : ∀ r ∈ l, step s r = s) : l.foldl step s = s := by
  induction l with
  | nil => rfl
  | cons r rest ih =>
      rw [List.foldl_cons, h r (List.mem_cons_self _ _)]
      exact ih (fun r2 hr2 => h r2 (List.mem_cons_of_mem _ hr2))

theorem updateAccountFields_idem (r : AccData) (a : Account) :
    updateAccountFields r (updateAccountFields r a) = updateAccountFields r a := rfl

theorem createBalanceSnapshot_find? (today : Int) (a : Account)
    (snaps : List BalanceSnapshot) :
    ∃ srow, (createBalanceSnapshot today a snaps).find?
        (fun s => s.account_id == a.account_id && s.snapshot_date == today) =
        some srow ∧
      srow.balance_available = a.balance_available ∧
      srow.balance_current = a.balance_current ∧
      srow.balance_limit = a.balance_limit := by
  simp only [createBalanceSnapshot]
  cases hfind : snaps.find? (fun s =>
      s.account_id == a.account_id && s.snapshot_date == today) with
  | some s0 =>
      refine ⟨{ s0 with balance_available := a.balance_available, balance_current := a.balance_current, balance_limit := a.balance_limit }, ?_, rfl, rfl, rfl⟩
      rw [find?_findUpdate_self]
      · rw [hfind]
        rfl
      · intro x hx
        have hx2 : x.account_id = a.account_id ∧ x.snapshot_date = today := by
          simpa using hx
        simp [hx2.1, hx2.2]
  | none =>
      refine ⟨{ account_id := a.account_id, user_id := a.user_id, snapshot_date := today, balance_available := a.balance_available, balance_current := a.balance_current, balance_limit := a.balance_limit }, ?_, rfl, rfl, rfl⟩
      rw [find?_append_none _ _ _ hfind]
      simp [List.find?]

theorem createBalanceSnapshot_fixed (today : Int) (a : Account)
    (snaps : List BalanceSnapshot) (srow : BalanceSnapshot)
    (hfind : snaps.find? (fun s =>
        s.account_id == a.account_id && s.snapshot_date == today) = some srow)
    (h1 : srow.balance_available = a.balance_available)
    (h2 : srow.balance_current = a.balance_current)
    (h3 : srow.balance_limit = a.balance_limit) :
    createBalanceSnapshot today a snaps = snaps := by
  simp only [createBalanceSnapshot]
  rw [hfind]
  simp only
  apply findUpdate_eq_self _ _ _ _ hfind
  rw [← h1, ← h2, ← h3]

theorem createBalanceSnapshot_find?_ne (today : Int) (a : Account)
    (snaps : List BalanceSnapshot) (k : String) (hne : a.account_id ≠ k) :
    (createBalanceSnapshot today a snaps).find?
        (fun s => s.account_id == k && s.snapshot_date == today) =
      snaps.find? (fun s => s.account_id == k && s.snapshot_date == today) := by
  simp only [createBalanceSnapshot]
  cases hfind : snaps.find? (fun s =>
      s.account_id == a.account_id && s.snapshot_date == today) with
  | some s0 =>
      apply find?_findUpdate_ne
      · intro x hx
        have hx2 : x.account_id = a.account_id ∧ x.snapshot_date = today := by
          simpa using hx
        simp [hx2.1, hne]
      · intro x hx
        have hx2 : x.account_id = a.account_id ∧ x.snapshot_date = today := by
          simpa using hx
        simp [hx2.1, hne]
  | none =>
      apply find?_append_single_ne
      simp [hne]

theorem syncAccountsStep_snapfind?_ne (item : PlaidItem) (today : Int)
    (st : List Account × List BalanceSnapshot × Nat) (r2 : AccData) (k : String)
    (hne : r2.account_id ≠ k) :
    (syncAccountsStep item today st r2).2.1.find?
        (fun s => s.account_id == k && s.snapshot_date == today) =
      st.2.1.find? (fun s => s.account_id == k && s.snapshot_date == today) := by
  obtain ⟨accounts, snaps, n⟩ := st
  simp only [syncAccountsStep]
  cases hfind : accounts.find? (fun a => a.account_id == r2.account_id) with
  | some a =>
      have ha : a.account_id = r2.account_id := by
        simpa using List.find?_some hfind
      have hkey : (updateAccountFields r2 a).account_id ≠ k := by
        rw [updateAccountFields_key, ha]
        exact hne
      exact createBalanceSnapshot_find?_ne today _ snaps k hkey
  | none =>
      have hkey : (updateAccountFields r2 (mkAccount item r2.account_id)).account_id ≠ k := by
        rw [updateAccountFields_key]
        simpa [mkAccount] using hne
      exact createBalanceSnapshot_find?_ne today _ snaps k hkey

theorem syncAccounts_foldl_snapfind?_ne (item : PlaidItem) (today : Int)
    (recs : List AccData) (k : String) :
    ∀ st, (∀ r2 ∈ recs, r2.account_id ≠ k) →
      (recs.foldl (syncAccountsStep item today) st).2.1.find?
          (fun s => s.account_id == k && s.snapshot_date == today) =
        st.2.1.find? (fun s => s.account_id == k && s.snapshot_date == today) := by
  induction recs with
  | nil => intro st h; rfl
  | cons r rest ih =>
      intro st h
      rw [List.foldl_cons]
      rw [ih _ (fun r2 hr2 => h r2 (List.mem_cons_of_mem _ hr2))]
      exact syncAccountsStep_snapfind?_ne item today st r k
        (h r (List.mem_cons_self _ _))

theorem syncAccounts_foldl_snap_char (item : PlaidItem) (today : Int)
    (recs : List AccData) (r : AccData) :
    ∀ st, (recs.map (fun x => x.account_id)).Nodup → r ∈ recs →
      ∃ srow, (recs.foldl (syncAccountsStep item today) st).2.1.find?
          (fun s => s.account_id == r.account_id && s.snapshot_date == today) =
          some srow ∧
        srow.balance_available = (updateAccountFields r
          (match st.1.find? (fun a => a.account_id == r.account_id) with
           | some a => a
           | Option.none => mkAccount item r.account_id)).balance_available ∧
        srow.balance_current = (updateAccountFields r
          (match st.1.find? (fun a => a.account_id == r.account_id) with
           | some a => a
           | Option.none => mkAccount item r.account_id)).balance_current ∧
        srow.balance_limit = (updateAccountFields r
          (match st.1.find? (fun a => a.account_id == r.account_id) with
           | some a => a
           | Option.none => mkAccount item r.account_id)).balance_limit := by
  induction recs with
  | nil => intro st _ hmem; cases hmem
  | cons r0 rest ih =>
      intro st hnd hmem
      have hnd2 := hnd
      rw [List.map_cons, List.nodup_cons] at hnd2
      rcases List.mem_cons.mp hmem with heq | hmem2
      · subst heq
        rw [List.foldl_cons]
        have hke : ∀ r2 ∈ rest, r2.account_id ≠ r.account_id := by
          intro r2 hr2 hk
          exact hnd2.1 (hk ▸ List.mem_map_of_mem (fun x => x.account_id) hr2)
        rw [syncAccounts_foldl_snapfind?_ne item today rest r.account_id _ hke]
        obtain ⟨accounts, snaps, n⟩ := st
        simp only [syncAccountsStep]
        cases hfind : accounts.find? (fun a => a.account_id == r.account_id) with
        | some a =>
            have ha : a.account_id = r.account_id := by
              simpa using List.find?_some hfind
            have hkk : (updateAccountFields r a).account_id = r.account_id := by
              rw [updateAccountFields_key, ha]
            obtain ⟨srow, hsf, hf1, hf2, hf3⟩ :=
              createBalanceSnapshot_find? today (updateAccountFields r a) snaps
            rw [hkk] at hsf
            exact ⟨srow, hsf, hf1, hf2, hf3⟩
        | none =>
            have hkk : (updateAccountFields r
                (mkAccount item r.account_id)).account_id = r.account_id := by
              rw [updateAccountFields_key]
              rfl
            obtain ⟨srow, hsf, hf1, hf2, hf3⟩ := createBalanceSnapshot_find? today
              (updateAccountFields r (mkAccount item r.account_id)) snaps
            rw [hkk] at hsf
            exact ⟨srow, hsf, hf1, hf2, hf3⟩
      · have hne : r0.account_id ≠ r.account_id := by
          intro he
          exact hnd2.1 (he ▸ List.mem_map_of_mem (fun x => x.account_id) hmem2)
        rw [List.foldl_cons]
        obtain ⟨srow, hsf, hf1, hf2, hf3⟩ := ih (syncAccountsStep item today st r0)
          hnd2.2 hmem2
        rw [syncAccountsStep_find?_ne item today st r0 r.account_id hne] at hf1 hf2 hf3
        exact ⟨srow, hsf, hf1, hf2, hf3⟩

theorem syncAccountsStep_count (item : PlaidItem) (today : Int)
    (st : List Account × List BalanceSnapshot × Nat) (r : AccData) :
    (syncAccountsStep item today st r).2.2 = st.2.2 + 1 := by
  obtain ⟨accounts, snaps, n⟩ := st
  simp only [syncAccountsStep]
  cases hfind : accounts.find? (fun a => a.account_id == r.account_id) <;> rfl

theorem syncAccounts_foldl_count (item : PlaidItem) (today : Int)
    (recs : List AccData) :
    ∀ st, (recs.foldl (syncAccountsStep item today) st).2.2 =
      st.2.2 + recs.length := by
  induction recs with
  | nil => intro st; rfl
  | cons r rest ih =>
      intro st
      rw [List.foldl_cons, ih, syncAccountsStep_count]
      simp [Nat.add_assoc, Nat.add_comm 1 rest.length]

theorem syncAccounts_rerun (accounts : List Account)
    (snaps : List BalanceSnapshot) (item item2 : PlaidItem)
    (recs : List AccData) (today : Int) (a1 : List Account)
    (s1 : List BalanceSnapshot) (n1 : Nat)
    (hnd : (recs.map (fun x => x.account_id)).Nodup)
    (h1 : syncAccounts accounts snaps item (.ok recs) today = .ok (a1, s1, n1)) :
    syncAccounts a1 s1 item2 (.ok recs) today = .ok (a1, s1, n1) := by
  simp only [syncAccounts, Except.ok.injEq] at h1 ⊢
  have hfold : recs.foldl (syncAccountsStep item today) (accounts, snaps, 0) =
      (a1, s1, n1) := h1
  have hn1 : n1 = recs.length := by
    have := syncAccounts_foldl_count item today recs (accounts, snaps, 0)
    rw [hfold] at this
    simpa using this
  have hstep : ∀ r ∈ recs, ∀ c : Nat,
      syncAccountsStep item2 today (a1, s1, c) r = (a1, s1, c + 1) := by
    intro r hmem c
    have hchar := syncAccounts_foldl_find?_char item today recs r
      (accounts, snaps, 0) hnd hmem
    rw [hfold] at hchar
    obtain ⟨srow, hsf, hf1, hf2, hf3⟩ := syncAccounts_foldl_snap_char item today
      recs r (accounts, snaps, 0) hnd hmem
    rw [hfold] at hsf
    simp only [syncAccountsStep, hchar]
    have hidem := updateAccountFields_idem r
      (match List.find? (fun a => a.account_id == r.account_id)
          ((accounts, snaps, (0 : Nat)) : List Account × List BalanceSnapshot × Nat).1 with
       | some a => a
       | Option.none => mkAccount item r.account_id)
    rw [hidem]
    have hacc : findUpdate (fun a => a.account_id == r.account_id)
        (updateAccountFields r) a1 = a1 := by
      apply findUpdate_eq_self _ _ _ _ hchar
      exact hidem
    rw [hacc]
    have hkk : (updateAccountFields r
        (match List.find? (fun a => a.account_id == r.account_id)
            ((accounts, snaps, (0 : Nat)) : List Account × List BalanceSnapshot × Nat).1 with
         | some a => a
         | Option.none => mkAccount item r.account_id)).account_id = r.account_id := by
      rw [updateAccountFields_key]
      cases hh : List.find? (fun a => a.account_id == r.account_id) accounts with
      | some a =>
          simp only [hh]
          simpa using List.find?_some hh
      | none =>
          simp only [hh]
          rfl
    have hsnap : createBalanceSnapshot today (updateAccountFields r
        (match List.find? (fun a => a.account_id == r.account_id)
            ((accounts, snaps, (0 : Nat)) : List Account × List BalanceSnapshot × Nat).1 with
         | some a => a
         | Option.none => mkAccount item r.account_id)) s1 = s1 := by
      apply createBalanceSnapshot_fixed today _ s1 srow _ hf1 hf2 hf3
      rw [hkk]
      exact hsf
    rw [hsnap]
  have hfold2 : ∀ (l : List AccData), (∀ r ∈ l, ∀ c : Nat,
      syncAccountsStep item2 today (a1, s1, c) r = (a1, s1, c + 1)) →
      ∀ c : Nat, l.foldl (syncAccountsStep item2 today) (a1, s1, c) =
        (a1, s1, c + l.length) := by
    intro l
    induction l with
    | nil => intro _ c; rfl
    | cons r rest ih =>
        intro h c
        rw [List.foldl_cons, h r (List.mem_cons_self _ _) c]
        rw [ih (fun r2 h2 c2 => h r2 (List.mem_cons_of_mem _ h2) c2)]
        simp [Nat.add_assoc, Nat.add_comm 1 rest.length]
  rw [hfold2 recs hstep 0, hn1]
  simp

theorem syncAccountsStep_accounts_nodup (item : PlaidItem) (today : Int)
    (st : List Account × List BalanceSnapshot × Nat) (r : AccData)
    (h : (st.1.map (fun a => a.account_id)).Nodup) :
    ((syncAccountsStep item today st r).1.map (fun a => a.account_id)).Nodup := by
  obtain ⟨accounts, snaps, n⟩ := st
  simp only [syncAccountsStep]
  cases hfind : accounts.find? (fun a => a.account_id == r.account_id) with
  | some a =>
      rw [map_findUpdate_key]
      · exact h
      · intro x hx
        exact updateAccountFields_key r x
  | none =>
      rw [List.map_append, List.nodup_append]
      refine ⟨h, by simp, ?_⟩
      intro k hk
      simp only [List.map_cons, List.map_nil, List.mem_singleton]
      intro he
      rcases List.mem_map.mp hk with ⟨x, hx, hkey⟩
      have hne := List.find?_eq_none.mp hfind x hx
      apply hne
      rw [he, updateAccountFields_key] at hkey
      simp [hkey, mkAccount]

theorem syncAccounts_foldl_accounts_nodup (item : PlaidItem) (today : Int)
    (recs : List AccData) :
    ∀ st, (st.1.map (fun a => a.account_id)).Nodup →
      ((recs.foldl (syncAccountsStep item today) st).1.map
        (fun a => a.account_id)).Nodup := by
  induction recs with
  | nil => intro st h; exact h
  | cons r rest ih =>
      intro st h
      rw [List.foldl_cons]
      exact ih _ (syncAccountsStep_accounts_nodup item today st r h)

theorem updateSecurityFields_key (r : SecData) (s : Security) :
    (updateSecurityFields r s).security_id = s.security_id := rfl

theorem updateSecurityFields_idem (r : SecData) (s : Security) :
    updateSecurityFields r (updateSecurityFields r s) = updateSecurityFields r s := rfl

theorem syncSecurityStep_find?_ne (securities : List Security) (r2 : SecData)
    (k : String) (hne : r2.security_id ≠ k) :
    (syncSecurityStep securities r2).find? (fun s => s.security_id == k) =
      securities.find? (fun s => s.security_id == k) := by
  simp only [syncSecurityStep]
  cases hfind : securities.find? (fun s => s.security_id == r2.security_id) with
  | some s0 =>
      apply find?_findUpdate_ne
      · intro x hx
        have hx2 : x.security_id = r2.security_id := by simpa using hx
        simp [hx2, hne]
      · intro x hx
        have hx2 : x.security_id = r2.security_id := by simpa using hx
        simp [updateSecurityFields_key, hx2, hne]
  | none =>
      apply find?_append_single_ne
      rw [updateSecurityFields_key]
      simpa [mkSecurity] using hne

theorem syncSecurity_foldl_find?_ne (recs : List SecData) (k : String) :
    ∀ securities, (∀ r2 ∈ recs, r2.security_id ≠ k) →
      (recs.foldl syncSecurityStep securities).find? (fun s => s.security_id == k) =
        securities.find? (fun s => s.security_id == k) := by
  induction recs with
  | nil => intro securities h; rfl
  | cons r rest ih =>
      intro securities h
      rw [List.foldl_cons]
      rw [ih _ (fun r2 hr2 => h r2 (List.mem_cons_of_mem _ hr2))]
      exact syncSecurityStep_find?_ne securities r k (h r (List.mem_cons_self _ _))

theorem syncSecurityStep_find?_self (securities : List Security) (r : SecData) :
    (syncSecurityStep securities r).find? (fun s => s.security_id == r.security_id) =
      some (updateSecurityFields r
        (match securities.find? (fun s => s.security_id == r.security_id) with
         | some s => s
         | Option.none => mkSecurity r.security_id)) := by
  simp only [syncSecurityStep]
  cases hfind : securities.find? (fun s => s.security_id == r.security_id) with
  | some s0 =>
      rw [find?_findUpdate_self]
      · rw [hfind]
        rfl
      · intro x hx
        have hx2 : x.security_id = r.security_id := by simpa using hx
        simp [updateSecurityFields_key, hx2]
  | none =>
      rw [find?_append_none _ _ _ hfind]
      have hk : ((updateSecurityFields r (mkSecurity r.security_id)).security_id ==
          r.security_id) = true := by
        rw [updateSecurityFields_key]
        simp [mkSecurity]
      simp [List.find?, hk]

theorem syncSecurity_foldl_find?_char (recs : List SecData) (r : SecData) :
    ∀ securities, (recs.map (fun x => x.security_id)).Nodup → r ∈ recs →
      (recs.foldl syncSecurityStep securities).find?
          (fun s => s.security_id == r.security_id) =
        some (updateSecurityFields r
          (match securities.find? (fun s => s.security_id == r.security_id) with
           | some s => s
           | Option.none => mkSecurity r.security_id)) := by
  induction recs with
  | nil => intro securities _ hmem; cases hmem
  | cons r0 rest ih =>
      intro securities hnd hmem
      have hnd2 := hnd
      rw [List.map_cons, List.nodup_cons] at hnd2
      rcases List.mem_cons.mp hmem with heq | hmem2
      · subst heq
        rw [List.foldl_cons]
        rw [syncSecurity_foldl_find?_ne rest r.security_id _ ?hke]
        case hke =>
          intro r2 hr2 hk
          exact hnd2.1 (hk ▸ List.mem_map_of_mem (fun x => x.security_id) hr2)
        exact syncSecurityStep_find?_self securities r
      · have hne : r0.security_id ≠ r.security_id := by
          intro he
          exact hnd2.1 (he ▸ List.mem_map_of_mem (fun x => x.security_id) hmem2)
        rw [List.foldl_cons]
        rw [ih _ hnd2.2 hmem2]
        rw [syncSecurityStep_find?_ne securities r0 r.security_id hne]

theorem syncSecurity_foldl_rerun (recs : List SecData) (securities : List Security)
    (hnd : (recs.map (fun x => x.security_id)).Nodup) :
    recs.foldl syncSecurityStep (recs.foldl syncSecurityStep securities) =
      recs.foldl syncSecurityStep securities := by
  apply foldl_fixed
  intro r hmem
  have hchar := syncSecurity_foldl_find?_char recs r securities hnd hmem
  simp only [syncSecurityStep, hchar]
  apply findUpdate_eq_self _ _ _ _ hchar
  exact updateSecurityFields_idem r _

theorem syncSecurityStep_nodup (securities : List Security) (r : SecData)
    (h : (securities.map (fun s => s.security_id)).Nodup) :
    ((syncSecurityStep securities r).map (fun s => s.security_id)).Nodup := by
  simp only [syncSecurityStep]
  cases hfind : securities.find? (fun s => s.security_id == r.security_id) with
  | some s0 =>
      rw [map_findUpdate_key]
      · exact h
      · intro x hx
        exact updateSecurityFields_key r x
  | none =>
      rw [List.map_append, List.nodup_append]
      refine ⟨h, by simp, ?_⟩
      intro k hk
      simp only [List.map_cons, List.map_nil, List.mem_singleton]
      intro he
      rcases List.mem_map.mp hk with ⟨x, hx, hkey⟩
      have hne := List.find?_eq_none.mp hfind x hx
      apply hne
      rw [he, updateSecurityFields_key] at hkey
      simp [hkey, mkSecurity]

theorem syncSecurity_foldl_nodup (recs : List SecData) :
    ∀ securities, ((securities : List Security).map (fun s => s.security_id)).Nodup →
      ((recs.foldl syncSecurityStep securities).map (fun s => s.security_id)).Nodup := by
  induction recs with
  | nil => intro securities h; exact h
  | cons r rest ih =>
      intro securities h
      rw [List.foldl_cons]
      exact ih _ (syncSecurityStep_nodup securities r h)

theorem updateTransactionFields_eq (r : TxnData) (t : Transaction) (d : Option Int)
    (amt : Rat) (hd : parseTxnDate r.date = .ok d)
    (ha : pyFloat r.amount = .ok amt) :
    updateTransactionFields r t = .ok
      { t with
        amount := safe_decimal r.amount
        iso_currency_code := pyOrStr r.iso_currency_code "USD"
        date := d
        name := r.name
        merchant_name := r.merchant_name
        category_primary :=
          match r.personal_finance_category with
          | some pf => some (pyOrStr pf.primary "UNCATEGORIZED")
          | Option.none => t.category_primary
        category_detailed :=
          match r.personal_finance_category with
          | some pf => pf.detailed
          | Option.none => t.category_detailed
        cash_flow_type := some (cashFlowType amt
          (match r.personal_finance_category with
           | some pf => pf.primary
           | Option.none => some ""))
        pending := r.pending
        location_city := r.location_city
        location_region := r.location_region
        location_country := r.location_country } := by
  simp [updateTransactionFields, hd, ha, Bind.bind, Except.bind]

theorem updateTransactionFields_isOk_inv (r : TxnData) (t t2 : Transaction)
    (h : updateTransactionFields r t = .ok t2) : txnRecOk r := by
  unfold updateTransactionFields at h
  cases hd : parseTxnDate r.date with
  | error e => rw [hd] at h; simp [Bind.bind, Except.bind] at h
  | ok d =>
      rw [hd] at h
      cases ha : pyFloat r.amount with
      | error e => rw [ha] at h; simp [Bind.bind, Except.bind] at h
      | ok amt => exact ⟨⟨d, hd⟩, ⟨amt, ha⟩⟩

theorem updateTransactionFieldsPure_of_ok (r : TxnData) (t t2 : Transaction)
    (h : updateTransactionFields r t = .ok t2) :
    updateTransactionFieldsPure r t = t2 := by
  unfold updateTransactionFieldsPure
  rw [h]

theorem updateTransactionFields_ofOk (r : TxnData) (t : Transaction)
    (hok : txnRecOk r) :
    updateTransactionFields r t = .ok (updateTransactionFieldsPure r t) := by
  obtain ⟨⟨d, hd⟩, ⟨amt, ha⟩⟩ := hok
  rw [updateTransactionFields_eq r t d amt hd ha]
  rw [updateTransactionFieldsPure_of_ok r t _ (updateTransactionFields_eq r t d amt hd ha)]

theorem updateTransactionFieldsPure_key (r : TxnData) (t : Transaction) :
    (updateTransactionFieldsPure r t).transaction_id = t.transaction_id := by
  unfold updateTransactionFieldsPure
  cases h : updateTransactionFields r t with
  | error e => rfl
  | ok t2 =>
      unfold updateTransactionFields at h
      cases hd : parseTxnDate r.date with
      | error e => rw [hd] at h; simp [Bind.bind, Except.bind] at h
      | ok d =>
          rw [hd] at h
          cases ha : pyFloat r.amount with
          | error e => rw [ha] at h; simp [Bind.bind, Except.bind] at h
          | ok amt =>
              rw [ha] at h
              simp only [Bind.bind, Except.bind, pure, Except.pure,
                Except.ok.injEq] at h
              rw [← h]

theorem updateTransactionFieldsPure_idem (r : TxnData) (t : Transaction)
    (hok : txnRecOk r) :
    updateTransactionFieldsPure r (updateTransactionFieldsPure r t) =
      updateTransactionFieldsPure r t := by
  obtain ⟨⟨d, hd⟩, ⟨amt, ha⟩⟩ := hok
  have h1 := updateTransactionFields_eq r t d amt hd ha
  have hp1 := updateTransactionFieldsPure_of_ok r t _ h1
  rw [hp1]
  have h2 := updateTransactionFields_eq r
    ({ t with
        amount := safe_decimal r.amount
        iso_currency_code := pyOrStr r.iso_currency_code "USD"
        date := d
        name := r.name
        merchant_name := r.merchant_name
        category_primary :=
          match r.personal_finance_category with
          | some pf => some (pyOrStr pf.primary "UNCATEGORIZED")
          | Option.none => t.category_primary
        category_detailed :=
          match r.personal_finance_category with
          | some pf => pf.detailed
          | Option.none => t.category_detailed
        cash_flow_type := some (cashFlowType amt
          (match r.personal_finance_category with
           | some pf => pf.primary
           | Option.none => some ""))
        pending := r.pending
        location_city := r.location_city
        location_region := r.location_region
        location_country := r.location_country }) d amt hd ha
  have hp2 := updateTransactionFieldsPure_of_ok r _ _ h2
  rw [hp2]
  cases hpf : r.personal_finance_category <;> simp [hpf]

theorem syncTransactionsStepPure_find?_ne (accounts : List Account)
    (item : PlaidItem) (txns : List Transaction) (r2 : TxnData) (k : String)
    (hne : r2.transaction_id ≠ k) :
    (syncTransactionsStepPure accounts item txns r2).find?
        (fun t => t.transaction_id == k) =
      txns.find? (fun t => t.transaction_id == k) := by
  simp only [syncTransactionsStepPure]
  cases hfind : txns.find? (fun t => t.transaction_id == r2.transaction_id) with
  | some t =>
      have ht : t.transaction_id = r2.transaction_id := by
        simpa using List.find?_some hfind
      apply find?_findUpdate_ne
      · intro x hx
        have hx2 : x.transaction_id = r2.transaction_id := by simpa using hx
        simp [hx2, hne]
      · intro x _
        rw [updateTransactionFieldsPure_key, ht]
        simp [hne]
  | none =>
      cases hacct : accounts.find? (fun a => a.account_id == r2.account_id) with
      | none => rfl
      | some account =>
          apply find?_append_single_ne
          rw [updateTransactionFieldsPure_key]
          simpa [mkTransaction] using hne

theorem syncTransactionsStepPure_find?_self (accounts : List Account)
    (item : PlaidItem) (txns : List Transaction) (r : TxnData) :
    (syncTransactionsStepPure accounts item txns r).find?
        (fun t => t.transaction_id == r.transaction_id) =
      (match txns.find? (fun t => t.transaction_id == r.transaction_id) with
       | some t => some (updateTransactionFieldsPure r t)
       | Option.none =>
          match accounts.find? (fun a => a.account_id == r.account_id) with
          | some account =>
              some (updateTransactionFieldsPure r
                (mkTransaction account item r.transaction_id))
          | Option.none => Option.none) := by
  simp only [syncTransactionsStepPure]
  cases hfind : txns.find? (fun t => t.transaction_id == r.transaction_id) with
  | some t =>
      have ht : t.transaction_id = r.transaction_id := by
        simpa using List.find?_some hfind
      rw [find?_findUpdate_self]
      · rw [hfind]
        rfl
      · intro x hx
        rw [updateTransactionFieldsPure_key, ht]
        simp
  | none =>
      cases hacct : accounts.find? (fun a => a.account_id == r.account_id) with
      | none => exact hfind
      | some account =>
          rw [find?_append_none _ _ _ hfind]
          have hk : ((updateTransactionFieldsPure r
              (mkTransaction account item r.transaction_id)).transaction_id ==
              r.transaction_id) = true := by
            rw [updateTransactionFieldsPure_key]
            simp [mkTransaction]
          simp [List.find?, hk]

theorem syncTxnsPure_foldl_find?_ne (accounts : List Account) (item : PlaidItem)
    (recs : List TxnData) (k : String) :
    ∀ txns, (∀ r2 ∈ recs, r2.transaction_id ≠ k) →
      (recs.foldl (syncTransactionsStepPure accounts item) txns).find?
          (fun t => t.transaction_id == k) =
        txns.find? (fun t => t.transaction_id == k) := by
  induction recs with
  | nil => intro txns h; rfl
  | cons r rest ih =>
      intro txns h
      rw [List.foldl_cons]
      rw [ih _ (fun r2 hr2 => h r2 (List.mem_cons_of_mem _ hr2))]
      exact syncTransactionsStepPure_find?_ne accounts item txns r k
        (h r (List.mem_cons_self _ _))

theorem syncTxnsPure_foldl_find?_char (accounts : List Account)
    (item : PlaidItem) (recs : List TxnData) (r : TxnData) :
    ∀ txns, (recs.map (fun x => x.transaction_id)).Nodup → r ∈ recs →
      (recs.foldl (syncTransactionsStepPure accounts item) txns).find?
          (fun t => t.transaction_id == r.transaction_id) =
        (match txns.find? (fun t => t.transaction_id == r.transaction_id) with
         | some t => some (updateTransactionFieldsPure r t)
         | Option.none =>
            match accounts.find? (fun a => a.account_id == r.account_id) with
            | some account =>
                some (updateTransactionFieldsPure r
                  (mkTransaction account item r.transaction_id))
            | Option.none => Option.none) := by
  induction recs with
  | nil => intro txns _ hmem; cases hmem
  | cons r0 rest ih =>
      intro txns hnd hmem
      have hnd2 := hnd
      rw [List.map_cons, List.nodup_cons] at hnd2
      rcases List.mem_cons.mp hmem with heq | hmem2
      · subst heq
        rw [List.foldl_cons]
        rw [syncTxnsPure_foldl_find?_ne accounts item rest r.transaction_id _ ?hke]
        case hke =>
          intro r2 hr2 hk
          exact hnd2.1 (hk ▸ List.mem_map_of_mem (fun x => x.transaction_id) hr2)
        exact syncTransactionsStepPure_find?_self accounts item txns r
      · have hne : r0.transaction_id ≠ r.transaction_id := by
          intro he
          exact hnd2.1 (he ▸ List.mem_map_of_mem (fun x => x.transaction_id) hmem2)
        rw [List.foldl_cons]
        rw [ih _ hnd2.2 hmem2]
        rw [syncTransactionsStepPure_find?_ne accounts item txns r0
          r.transaction_id hne]

theorem syncTxns_foldlM_ok_char (accounts : List Account) (item : PlaidItem) :
    ∀ (recs : List TxnData) (txns : List Transaction) (n : Nat)
      (out : List Transaction × Nat),
      (recs.map (fun x => x.transaction_id)).Nodup →
      List.foldlM (syncTransactionsStep accounts item) (txns, n) recs = .ok out →
      (out.1 = recs.foldl (syncTransactionsStepPure accounts item) txns ∧
       out.2 = n + (recs.filter (txnCounted accounts txns)).length ∧
       ∀ r ∈ recs, txnCounted accounts txns r = true → txnRecOk r) := by
  intro recs
  induction recs with
  | nil =>
      intro txns n out _ h
      simp only [List.foldlM_nil, pure, Except.pure, Except.ok.injEq] at h
      subst h
      simp
  | cons r rest ih =>
      intro txns n out hnd h
      have hnd2 := hnd
      rw [List.map_cons, List.nodup_cons] at hnd2
      have hkeyne : ∀ r2 ∈ rest, r2.transaction_id ≠ r.transaction_id := by
        intro r2 hr2 hk
        exact hnd2.1 (hk ▸ List.mem_map_of_mem (fun x => x.transaction_id) hr2)
      rw [List.foldlM_cons] at h
      cases hfind : txns.find? (fun t => t.transaction_id == r.transaction_id) with
      | some t =>
          simp only [syncTransactionsStep, hfind] at h
          cases hupd : updateTransactionFields r t with
          | error e =>
              rw [hupd] at h
              simp [Bind.bind, Except.bind] at h
          | ok t2 =>
              rw [hupd] at h
              simp only [Bind.bind, Except.bind] at h
              have hok : txnRecOk r := updateTransactionFields_isOk_inv r t t2 hupd
              have hpure := updateTransactionFieldsPure_of_ok r t t2 hupd
              obtain ⟨ih1, ih2, ih3⟩ := ih _ _ _ hnd2.2 h
              have hstate : findUpdate (fun t => t.transaction_id == r.transaction_id)
                  (fun _ => t2) txns =
                  syncTransactionsStepPure accounts item txns r := by
                simp only [syncTransactionsStepPure, hfind, hpure]
              have hcounted : txnCounted accounts txns r = true := by
                simp [txnCounted, hfind]
              have hcntpres : ∀ r2 ∈ rest,
                  txnCounted accounts (syncTransactionsStepPure accounts item txns r) r2 =
                  txnCounted accounts txns r2 := by
                intro r2 hr2
                unfold txnCounted
                rw [syncTransactionsStepPure_find?_ne accounts item txns r _
                  (fun hk => (hkeyne r2 hr2) hk.symm)]
              refine ⟨?_, ?_, ?_⟩
              · rw [List.foldl_cons, ← hstate]
                exact ih1
              · rw [ih2, List.filter_cons_of_pos hcounted, List.length_cons]
                rw [hstate, List.filter_congr hcntpres]
                omega
              · intro r2 hr2 hc
                rcases List.mem_cons.mp hr2 with he | hr2
                · exact he ▸ hok
                · apply ih3 r2 hr2
                  rw [hstate, hcntpres r2 hr2]
                  exact hc
      | none =>
          cases hacct : accounts.find? (fun a => a.account_id == r.account_id) with
          | none =>
              simp only [syncTransactionsStep, hfind, hacct] at h
              simp only [pure, Except.pure, Bind.bind, Except.bind] at h
              obtain ⟨ih1, ih2, ih3⟩ := ih _ _ _ hnd2.2 h
              have hstate : syncTransactionsStepPure accounts item txns r = txns := by
                simp only [syncTransactionsStepPure, hfind, hacct]
              have hcounted : txnCounted accounts txns r = false := by
                simp [txnCounted, hfind, hacct]
              refine ⟨?_, ?_, ?_⟩
              · rw [List.foldl_cons, hstate]
                exact ih1
              · rw [ih2, List.filter_cons_of_neg (by simp [hcounted])]
              · intro r2 hr2 hc
                rcases List.mem_cons.mp hr2 with he | hr2
                · rw [he] at hc
                  rw [hcounted] at hc
                  cases hc
                · exact ih3 r2 hr2 hc
          | some account =>
              simp only [syncTransactionsStep, hfind, hacct] at h
              cases hupd : updateTransactionFields r
                  (mkTransaction account item r.transaction_id) with
              | error e =>
                  rw [hupd] at h
                  simp [Bind.bind, Except.bind] at h
              | ok t2 =>
                  rw [hupd] at h
                  simp only [Bind.bind, Except.bind] at h
                  have hok : txnRecOk r := updateTransactionFields_isOk_inv r _ t2 hupd
                  have hpure := updateTransactionFieldsPure_of_ok r _ t2 hupd
                  obtain ⟨ih1, ih2, ih3⟩ := ih _ _ _ hnd2.2 h
                  have hstate : txns ++ [t2] =
                      syncTransactionsStepPure accounts item txns r := by
                    simp only [syncTransactionsStepPure, hfind, hacct, hpure]
                  have hcounted : txnCounted accounts txns r = true := by
                    simp [txnCounted, hacct]
                  have hcntpres : ∀ r2 ∈ rest,
                      txnCounted accounts (syncTransactionsStepPure accounts item txns r) r2 =
                      txnCounted accounts txns r2 := by
                    intro r2 hr2
                    unfold txnCounted
                    rw [syncTransactionsStepPure_find?_ne accounts item txns r _
                      (fun hk => (hkeyne r2 hr2) hk.symm)]
                  refine ⟨?_, ?_, ?_⟩
                  · rw [List.foldl_cons, ← hstate]
                    exact ih1
                  · rw [ih2, List.filter_cons_of_pos hcounted, List.length_cons]
                    rw [hstate, List.filter_congr hcntpres]
                    omega
                  · intro r2 hr2 hc
                    rcases List.mem_cons.mp hr2 with he | hr2
                    · exact he ▸ hok
                    · apply ih3 r2 hr2
                      rw [hstate, hcntpres r2 hr2]
                      exact hc

theorem foldlM_count_fixed {α ρ : Type _}
    (step : α × Nat → ρ → Except String (α × Nat)) (P : ρ → Bool) (a : α) :
    ∀ (l : List ρ),
      (∀ r ∈ l, ∀ c : Nat,
        step (a, c) r = .ok (a, c + (if P r then 1 else 0))) →
      ∀ c : Nat, List.foldlM step (a, c) l = .ok (a, c + (l.filter P).length) := by
  intro l
  induction l with
  | nil =>
      intro _ c
      simp [pure, Except.pure]
  | cons r rest ih =>
      intro h c
      rw [List.foldlM_cons, h r (List.mem_cons_self _ _) c]
      simp only [Bind.bind, Except.bind]
      rw [ih (fun r2 h2 c2 => h r2 (List.mem_cons_of_mem _ h2) c2)]
      cases hP : P r <;> simp [List.filter_cons, hP] <;> omega

theorem syncTransactions_rerun (txns : List Transaction)
    (accounts : List Account) (item item2 : PlaidItem) (recs : List TxnData)
    (t1 : List Transaction) (n1 : Nat)
    (hnd : (recs.map (fun x => x.transaction_id)).Nodup)
    (h1 : syncTransactions txns accounts item (.ok recs) = .ok (t1, n1)) :
    syncTransactions t1 accounts item2 (.ok recs) = .ok (t1, n1) := by
  simp only [syncTransactions] at h1 ⊢
  obtain ⟨ho1, ho2, ho3⟩ :=
    syncTxns_foldlM_ok_char accounts item recs txns 0 (t1, n1) hnd h1
  have ht1 : t1 = recs.foldl (syncTransactionsStepPure accounts item) txns := ho1
  have hn1 : n1 = (recs.filter (txnCounted accounts txns)).length := by
    simpa using ho2
  have hstep : ∀ r ∈ recs, ∀ c : Nat,
      syncTransactionsStep accounts item2 (t1, c) r =
        .ok (t1, c + (if txnCounted accounts txns r then 1 else 0)) := by
    intro r hmem c
    have hchar := syncTxnsPure_foldl_find?_char accounts item recs r txns hnd hmem
    rw [← ht1] at hchar
    cases hf : txns.find? (fun t => t.transaction_id == r.transaction_id) with
    | some t0 =>
        simp only [hf] at hchar
        have hcounted : txnCounted accounts txns r = true := by
          simp [txnCounted, hf]
        have hok := ho3 r hmem hcounted
        simp only [syncTransactionsStep, hchar]
        rw [updateTransactionFields_ofOk _ _ hok]
        rw [updateTransactionFieldsPure_idem r t0 hok]
        simp only [Bind.bind, Except.bind]
        rw [findUpdate_eq_self _ _ _ _ hchar rfl]
        simp [hcounted]
    | none =>
        cases ha : accounts.find? (fun a => a.account_id == r.account_id) with
        | some account =>
            simp only [hf, ha] at hchar
            have hcounted : txnCounted accounts txns r = true := by
              simp [txnCounted, ha]
            have hok := ho3 r hmem hcounted
            simp only [syncTransactionsStep, hchar]
            rw [updateTransactionFields_ofOk _ _ hok]
            rw [updateTransactionFieldsPure_idem r _ hok]
            simp only [Bind.bind, Except.bind]
            rw [findUpdate_eq_self _ _ _ _ hchar rfl]
            simp [hcounted]
        | none =>
            simp only [hf, ha] at hchar
            have hcounted : txnCounted accounts txns r = false := by
              simp [txnCounted, hf, ha]
            simp only [syncTransactionsStep, hchar, ha]
            simp [hcounted, pure, Except.pure]
  rw [foldlM_count_fixed (syncTransactionsStep accounts item2)
    (txnCounted accounts txns) t1 recs hstep 0]
  rw [hn1]
  simp

theorem syncTransactionsStepPure_nodup (accounts : List Account)
    (item : PlaidItem) (txns : List Transaction) (r : TxnData)
    (h : (txns.map (fun t => t.transaction_id)).Nodup) :
    ((syncTransactionsStepPure accounts item txns r).map
      (fun t => t.transaction_id)).Nodup := by
  simp only [syncTransactionsStepPure]
  cases hfind : txns.find? (fun t => t.transaction_id == r.transaction_id) with
  | some t =>
      rw [map_findUpdate_key]
      · exact h
      · intro x hx
        have hx2 : x.transaction_id = r.transaction_id := by simpa using hx
        rw [updateTransactionFieldsPure_key]
        have ht : t.transaction_id = r.transaction_id := by
          simpa using List.find?_some hfind
        rw [ht, hx2]
  | none =>
      cases hacct : accounts.find? (fun a => a.account_id == r.account_id) with
      | none => exact h
      | some account =>
          rw [List.map_append, List.nodup_append]
          refine ⟨h, by simp, ?_⟩
          intro k hk
          simp only [List.map_cons, List.map_nil, List.mem_singleton]
          intro he
          rcases List.mem_map.mp hk with ⟨x, hx, hkey⟩
          have hne := List.find?_eq_none.mp hfind x hx
          apply hne
          rw [he, updateTransactionFieldsPure_key] at hkey
          simp [hkey, mkTransaction]

theorem syncTxnsPure_foldl_nodup (accounts : List Account) (item : PlaidItem)
    (recs : List TxnData) :
    ∀ txns, ((txns : List Transaction).map (fun t => t.transaction_id)).Nodup →
      ((recs.foldl (syncTransactionsStepPure accounts item) txns).map
        (fun t => t.transaction_id)).Nodup := by
  induction recs with
  | nil => intro txns h; exact h
  | cons r rest ih =>
      intro txns h
      rw [List.foldl_cons]
      exact ih _ (syncTransactionsStepPure_nodup accounts item txns r h)

theorem updateHoldingFields_keyE (r : HoldingData) (h h2 : Holding)
    (he : updateHoldingFields r h = .ok h2) :
    h2.account_id = h.account_id ∧ h2.security_id = h.security_id := by
  simp only [updateHoldingFields] at he
  cases hc : safe_decimal r.cost_basis with
  | none =>
      simp only [hc, Except.ok.injEq] at he
      subst he
      exact ⟨rfl, rfl⟩
  | some c =>
      simp only [hc] at he
      by_cases hcpos : 0 < c
      · rw [if_pos hcpos] at he
        cases hv : safe_decimal r.institution_value with
        | none => simp only [hv] at he; cases he
        | some v =>
            simp only [hv, Except.ok.injEq] at he
            subst he
            exact ⟨rfl, rfl⟩
      · rw [if_neg hcpos] at he
        simp only [Except.ok.injEq] at he
        subst he
        exact ⟨rfl, rfl⟩

theorem updateHoldingFields_isOk_inv (r : HoldingData) (h h2 : Holding)
    (he : updateHoldingFields r h = .ok h2) : holdRecOk r := by
  intro c hc hcpos
  simp only [updateHoldingFields, hc, if_pos hcpos] at he
  cases hv : safe_decimal r.institution_value with
  | none => simp only [hv] at he; cases he
  | some v => exact ⟨v, rfl⟩

theorem updateHoldingFieldsPure_of_ok (r : HoldingData) (h h2 : Holding)
    (he : updateHoldingFields r h = .ok h2) :
    updateHoldingFieldsPure r h = h2 := by
  unfold updateHoldingFieldsPure
  rw [he]

theorem updateHoldingFields_ofOk (r : HoldingData) (h : Holding)
    (hok : holdRecOk r) :
    updateHoldingFields r h = .ok (updateHoldingFieldsPure r h) := by
  suffices hh : ∃ h2, updateHoldingFields r h = .ok h2 by
    obtain ⟨h2, he⟩ := hh
    rw [updateHoldingFieldsPure_of_ok r h h2 he]
    exact he
  simp only [updateHoldingFields]
  cases hc : safe_decimal r.cost_basis with
  | none => exact ⟨_, rfl⟩
  | some c =>
      by_cases hcpos : 0 < c
      · obtain ⟨v, hv⟩ := hok c hc hcpos
        simp only [if_pos hcpos, hv]
        exact ⟨_, rfl⟩
      · simp only [if_neg hcpos]
        exact ⟨_, rfl⟩

theorem updateHoldingFieldsPure_key (r : HoldingData) (h : Holding) :
    (updateHoldingFieldsPure r h).account_id = h.account_id ∧
    (updateHoldingFieldsPure r h).security_id = h.security_id := by
  unfold updateHoldingFieldsPure
  cases he : updateHoldingFields r h with
  | error e => exact ⟨rfl, rfl⟩
  | ok h2 => exact updateHoldingFields_keyE r h h2 he

theorem updateHoldingFields_stab (r : HoldingData) (h h2 : Holding)
    (he : updateHoldingFields r h = .ok h2) :
    updateHoldingFields r h2 = .ok h2 := by
  simp only [updateHoldingFields] at he ⊢
  cases hc : safe_decimal r.cost_basis with
  | none =>
      simp only [hc, Except.ok.injEq] at he ⊢
      subst he
      rfl
  | some c =>
      simp only [hc] at he ⊢
      by_cases hcpos : 0 < c
      · rw [if_pos hcpos] at he ⊢
        cases hv : safe_decimal r.institution_value with
        | none => simp only [hv] at he; cases he
        | some v =>
            simp only [hv, Except.ok.injEq] at he ⊢
            subst he
            rfl
      · rw [if_neg hcpos] at he ⊢
        simp only [Except.ok.injEq] at he ⊢
        subst he
        rfl

theorem updateHoldingFieldsPure_idem (r : HoldingData) (h : Holding)
    (hok : holdRecOk r) :
    updateHoldingFieldsPure r (updateHoldingFieldsPure r h) =
      updateHoldingFieldsPure r h := by
  have h1 := updateHoldingFields_ofOk r h hok
  have h2 := updateHoldingFields_stab r h _ h1
  exact updateHoldingFieldsPure_of_ok r _ _ h2

theorem syncHoldingsStepPure_find?_ne (accounts : List Account)
    (item : PlaidItem) (secIds : List String) (holdings : List Holding)
    (r2 : HoldingData) (k1 k2 : String)
    (hne : ¬(r2.account_id = k1 ∧ r2.security_id = some k2)) :
    (syncHoldingsStepPure accounts item secIds holdings r2).find?
        (fun h => h.account_id == k1 && h.security_id == k2) =
      holdings.find? (fun h => h.account_id == k1 && h.security_id == k2) := by
  simp only [syncHoldingsStepPure]
  cases hacc : accounts.find? (fun a => a.account_id == r2.account_id) with
  | none => rfl
  | some account =>
      have haid : account.account_id = r2.account_id := by
        simpa using List.find?_some hacc
      cases hsid : r2.security_id with
      | none => rfl
      | some sid =>
          have hq : ∀ y : Holding, y.account_id = r2.account_id →
              y.security_id = sid →
              (y.account_id == k1 && y.security_id == k2) = false := by
            intro y h1 h2
            rcases Decidable.em (r2.account_id = k1) with hak | hak
            · have hsk : sid ≠ k2 := fun hh => hne ⟨hak, by rw [hsid, hh]⟩
              simp [h1, h2, hak, hsk]
            · simp [h1, h2, hak]
          by_cases hcont : secIds.contains sid = true
          case neg =>
            simp only [if_neg hcont]
          case pos =>
              simp only [if_pos hcont]
              cases hfind : holdings.find? (fun h =>
                  h.account_id == account.account_id && h.security_id == sid) with
              | some h0 =>
                  have hh0 := List.find?_some hfind
                  simp only [Bool.and_eq_true, beq_iff_eq] at hh0
                  apply find?_findUpdate_ne
                  · intro x hx
                    simp only [Bool.and_eq_true, beq_iff_eq] at hx
                    exact hq x (hx.1.trans haid) hx.2
                  · intro x _
                    obtain ⟨hk1, hk2⟩ := updateHoldingFieldsPure_key r2 h0
                    exact hq _ (hk1.trans (hh0.1.trans haid)) (hk2.trans hh0.2)
              | none =>
                  apply find?_append_single_ne
                  obtain ⟨hk1, hk2⟩ :=
                    updateHoldingFieldsPure_key r2 (mkHolding account item sid)
                  exact hq _ (hk1.trans haid) hk2

theorem syncHoldingsStepPure_find?_self (accounts : List Account)
    (item : PlaidItem) (secIds : List String) (holdings : List Holding)
    (r : HoldingData) (account : Account) (sid : String)
    (hacc : accounts.find? (fun a => a.account_id == r.account_id) = some account)
    (hsid : r.security_id = some sid) (hcont : secIds.contains sid = true) :
    (syncHoldingsStepPure accounts item secIds holdings r).find?
        (fun h => h.account_id == r.account_id && h.security_id == sid) =
      some (updateHoldingFieldsPure r
        (match holdings.find? (fun h =>
            h.account_id == r.account_id && h.security_id == sid) with
         | some h => h
         | Option.none => mkHolding account item sid)) := by
  have haid : account.account_id = r.account_id := by
    simpa using List.find?_some hacc
  simp only [syncHoldingsStepPure, hacc, hsid, if_pos hcont, haid]
  cases hfind : holdings.find? (fun h =>
      h.account_id == r.account_id && h.security_id == sid) with
  | some h0 =>
      have hh0 := List.find?_some hfind
      simp only [Bool.and_eq_true, beq_iff_eq] at hh0
      rw [find?_findUpdate_self]
      · rw [hfind]
        rfl
      · intro x hx
        obtain ⟨hk1, hk2⟩ := updateHoldingFieldsPure_key r h0
        simp [hk1, hk2, hh0.1, hh0.2]
  | none =>
      rw [find?_append_none _ _ _ hfind]
      obtain ⟨hk1, hk2⟩ := updateHoldingFieldsPure_key r (mkHolding account item sid)
      have hk : ((updateHoldingFieldsPure r (mkHolding account item sid)).account_id ==
          r.account_id && (updateHoldingFieldsPure r
            (mkHolding account item sid)).security_id == sid) = true := by
        rw [hk1, hk2]
        simp [mkHolding, haid]
      simp [List.find?, hk]

theorem syncHoldsPure_foldl_find?_ne (accounts : List Account)
    (item : PlaidItem) (secIds : List String) (recs : List HoldingData)
    (k1 k2 : String) :
    ∀ holdings, (∀ r2 ∈ recs, ¬(r2.account_id = k1 ∧ r2.security_id = some k2)) →
      (recs.foldl (syncHoldingsStepPure accounts item secIds) holdings).find?
          (fun h => h.account_id == k1 && h.security_id == k2) =
        holdings.find? (fun h => h.account_id == k1 && h.security_id == k2) := by
  induction recs with
  | nil => intro holdings _; rfl
  | cons r rest ih =>
      intro holdings h
      rw [List.foldl_cons]
      rw [ih _ (fun r2 hr2 => h r2 (List.mem_cons_of_mem _ hr2))]
      exact syncHoldingsStepPure_find?_ne accounts item secIds holdings r k1 k2
        (h r (List.mem_cons_self _ _))

theorem syncHoldsPure_foldl_find?_char (accounts : List Account)
    (item : PlaidItem) (secIds : List String) (recs : List HoldingData)
    (r : HoldingData) (account : Account) (sid : String)
    (hacc : accounts.find? (fun a => a.account_id == r.account_id) = some account)
    (hsid : r.security_id = some sid) (hcont : secIds.contains sid = true) :
    ∀ holdings,
      (recs.map (fun x => (x.account_id, x.security_id))).Nodup → r ∈ recs →
      (recs.foldl (syncHoldingsStepPure accounts item secIds) holdings).find?
          (fun h => h.account_id == r.account_id && h.security_id == sid) =
        some (updateHoldingFieldsPure r
          (match holdings.find? (fun h =>
              h.account_id == r.account_id && h.security_id == sid) with
           | some h => h
           | Option.none => mkHolding account item sid)) := by
  induction recs with
  | nil => intro holdings _ hmem; cases hmem
  | cons r0 rest ih =>
      intro holdings hnd hmem
      have hnd2 := hnd
      rw [List.map_cons, List.nodup_cons] at hnd2
      rcases List.mem_cons.mp hmem with heq | hmem2
      · subst heq
        rw [List.foldl_cons]
        rw [syncHoldsPure_foldl_find?_ne accounts item secIds rest
          r.account_id sid _ ?hke]
        case hke =>
          intro r2 hr2 hk
          apply hnd2.1
          have : (r2.account_id, r2.security_id) = (r.account_id, r.security_id) := by
            rw [hk.1, hk.2, hsid]
          exact this ▸ List.mem_map_of_mem (fun x => (x.account_id, x.security_id)) hr2
        exact syncHoldingsStepPure_find?_self accounts item secIds holdings r
          account sid hacc hsid hcont
      · have hne : ¬(r0.account_id = r.account_id ∧ r0.security_id = some sid) := by
          intro hk
          apply hnd2.1
          have : (r0.account_id, r0.security_id) = (r.account_id, r.security_id) := by
            rw [hk.1, hk.2, hsid]
          exact this ▸ List.mem_map_of_mem (fun x => (x.account_id, x.security_id)) hmem2
        rw [List.foldl_cons]
        rw [ih _ hnd2.2 hmem2]
        rw [syncHoldingsStepPure_find?_ne accounts item secIds holdings r0
          r.account_id sid hne]

theorem syncHoldingsStepPure_nodup (accounts : List Account)
    (item : PlaidItem) (secIds : List String) (holdings : List Holding)
    (r : HoldingData)
    (h : (holdings.map (fun x => (x.account_id, x.security_id))).Nodup) :
    ((syncHoldingsStepPure accounts item secIds holdings r).map
      (fun x => (x.account_id, x.security_id))).Nodup := by
  simp only [syncHoldingsStepPure]
  cases hacc : accounts.find? (fun a => a.account_id == r.account_id) with
  | none => exact h
  | some account =>
      cases hsid : r.security_id with
      | none => exact h
      | some sid =>
          by_cases hcont : secIds.contains sid = true
          case neg => simp only [if_neg hcont]; exact h
          case pos =>
              simp only [if_pos hcont]
              cases hfind : holdings.find? (fun x =>
                  x.account_id == account.account_id && x.security_id == sid) with
              | some h0 =>
                  rw [map_findUpdate_key]
                  · exact h
                  · intro x hx
                    obtain ⟨hk1, hk2⟩ := updateHoldingFieldsPure_key r h0
                    have hh0 := List.find?_some hfind
                    simp only [Bool.and_eq_true, beq_iff_eq] at hh0 hx
                    rw [hk1, hk2, hh0.1, hh0.2, hx.1, hx.2]
              | none =>
                  rw [List.map_append, List.nodup_append]
                  refine ⟨h, by simp, ?_⟩
                  intro k hk
                  simp only [List.map_cons, List.map_nil, List.mem_singleton]
                  intro he
                  rcases List.mem_map.mp hk with ⟨x, hx, hkey⟩
                  have hne := List.find?_eq_none.mp hfind x hx
                  apply hne
                  obtain ⟨hk1, hk2⟩ :=
                    updateHoldingFieldsPure_key r (mkHolding account item sid)
                  rw [he, hk1, hk2] at hkey
                  have : x.account_id = account.account_id ∧ x.security_id = sid := by
                    have h1 := congrArg Prod.fst hkey
                    have h2 := congrArg Prod.snd hkey
                    simp only [mkHolding] at h1 h2
                    exact ⟨h1, h2⟩
                  simp [this.1, this.2]

theorem syncHoldsPure_foldl_nodup (accounts : List Account) (item : PlaidItem)
    (secIds : List String) (recs : List HoldingData) :
    ∀ holdings,
      ((holdings : List Holding).map (fun x => (x.account_id, x.security_id))).Nodup →
      ((recs.foldl (syncHoldingsStepPure accounts item secIds) holdings).map
        (fun x => (x.account_id, x.security_id))).Nodup := by
  induction recs with
  | nil => intro holdings h; exact h
  | cons r rest ih =>
      intro holdings h
      rw [List.foldl_cons]
      exact ih _ (syncHoldingsStepPure_nodup accounts item secIds holdings r h)

theorem syncHolds_foldlM_ok_char (accounts : List Account) (item : PlaidItem)
    (secIds : List String) :
    ∀ (recs : List HoldingData) (holdings : List Holding) (n : Nat)
      (out : List Holding × Nat),
      List.foldlM (syncHoldingsStep accounts item secIds) (holdings, n) recs =
        .ok out →
      (out.1 = recs.foldl (syncHoldingsStepPure accounts item secIds) holdings ∧
       out.2 = n + (recs.filter (holdCounted accounts secIds)).length ∧
       ∀ r ∈ recs, holdCounted accounts secIds r = true → holdRecOk r) := by
  intro recs
  induction recs with
  | nil =>
      intro holdings n out h
      simp only [List.foldlM_nil, pure, Except.pure, Except.ok.injEq] at h
      subst h
      simp
  | cons r rest ih =>
      intro holdings n out h
      rw [List.foldlM_cons] at h
      cases hacc : accounts.find? (fun a => a.account_id == r.account_id) with
      | none =>
          simp only [syncHoldingsStep, hacc] at h
          simp only [pure, Except.pure, Bind.bind, Except.bind] at h
          obtain ⟨ih1, ih2, ih3⟩ := ih _ _ _ h
          have hcounted : holdCounted accounts secIds r = false := by
            simp [holdCounted, hacc]
          have hstate : syncHoldingsStepPure accounts item secIds holdings r =
              holdings := by
            simp only [syncHoldingsStepPure, hacc]
          refine ⟨?_, ?_, ?_⟩
          · rw [List.foldl_cons, hstate]; exact ih1
          · rw [ih2, List.filter_cons_of_neg (by simp [hcounted])]
          · intro r2 hr2 hc
            rcases List.mem_cons.mp hr2 with he | hr2
            · rw [he, hcounted] at hc; cases hc
            · exact ih3 r2 hr2 hc
      | some account =>
          cases hsid : r.security_id with
          | none =>
              simp only [syncHoldingsStep, hacc, hsid] at h
              simp only [pure, Except.pure, Bind.bind, Except.bind] at h
              obtain ⟨ih1, ih2, ih3⟩ := ih _ _ _ h
              have hcounted : holdCounted accounts secIds r = false := by
                simp [holdCounted, hsid]
              have hstate : syncHoldingsStepPure accounts item secIds holdings r =
                  holdings := by
                simp only [syncHoldingsStepPure, hacc, hsid]
              refine ⟨?_, ?_, ?_⟩
              · rw [List.foldl_cons, hstate]; exact ih1
              · rw [ih2, List.filter_cons_of_neg (by simp [hcounted])]
              · intro r2 hr2 hc
                rcases List.mem_cons.mp hr2 with he | hr2
                · rw [he, hcounted] at hc; cases hc
                · exact ih3 r2 hr2 hc
          | some sid =>
              by_cases hcont : secIds.contains sid = true
              case neg =>
                have hcf : secIds.contains sid = false := by simpa using hcont
                simp only [syncHoldingsStep, hacc, hsid, if_neg hcont] at h
                simp only [pure, Except.pure, Bind.bind, Except.bind] at h
                obtain ⟨ih1, ih2, ih3⟩ := ih _ _ _ h
                have hcounted : holdCounted accounts secIds r = false := by
                  unfold holdCounted
                  rw [hacc, hsid]
                  simp only [Option.isSome_some, Bool.true_and]
                  exact hcf
                have hstate :
                    syncHoldingsStepPure accounts item secIds holdings r =
                    holdings := by
                  simp only [syncHoldingsStepPure, hacc, hsid, if_neg hcont]
                refine ⟨?_, ?_, ?_⟩
                · rw [List.foldl_cons, hstate]; exact ih1
                · rw [ih2, List.filter_cons_of_neg (by simp [hcounted])]
                · intro r2 hr2 hc
                  rcases List.mem_cons.mp hr2 with he | hr2
                  · rw [he, hcounted] at hc; cases hc
                  · exact ih3 r2 hr2 hc
              case pos =>
                simp only [syncHoldingsStep, hacc, hsid, if_pos hcont] at h
                cases hfind : holdings.find? (fun x =>
                    x.account_id == account.account_id && x.security_id == sid) with
                | some h0 =>
                    cases hupd : updateHoldingFields r h0 with
                    | error e =>
                        simp [hfind, hupd, Bind.bind, Except.bind] at h
                    | ok h2 =>
                        simp only [hfind, hupd, Bind.bind, Except.bind] at h
                        obtain ⟨ih1, ih2, ih3⟩ := ih _ _ _ h
                        have hok : holdRecOk r :=
                          updateHoldingFields_isOk_inv r h0 h2 hupd
                        have hpure := updateHoldingFieldsPure_of_ok r h0 h2 hupd
                        have hcounted : holdCounted accounts secIds r = true := by
                          unfold holdCounted
                          rw [hacc, hsid]
                          simp only [Option.isSome_some, Bool.true_and]
                          exact hcont
                        have hstate :
                            syncHoldingsStepPure accounts item secIds holdings r =
                            findUpdate (fun x =>
                              x.account_id == account.account_id &&
                                x.security_id == sid) (fun _ => h2) holdings := by
                          simp only [syncHoldingsStepPure, hacc, hsid,
                            if_pos hcont, hfind, hpure]
                        refine ⟨?_, ?_, ?_⟩
                        · rw [List.foldl_cons, hstate]; exact ih1
                        · rw [ih2, List.filter_cons_of_pos hcounted,
                            List.length_cons]
                          omega
                        · intro r2 hr2 hc
                          rcases List.mem_cons.mp hr2 with he | hr2
                          · exact he ▸ hok
                          · exact ih3 r2 hr2 hc
                | none =>
                    cases hupd : updateHoldingFields r (mkHolding account item sid) with
                    | error e =>
                        simp [hfind, hupd, Bind.bind, Except.bind] at h
                    | ok h2 =>
                        simp only [hfind, hupd, Bind.bind, Except.bind] at h
                        obtain ⟨ih1, ih2, ih3⟩ := ih _ _ _ h
                        have hok : holdRecOk r :=
                          updateHoldingFields_isOk_inv r _ h2 hupd
                        have hpure := updateHoldingFieldsPure_of_ok r _ h2 hupd
                        have hcounted : holdCounted accounts secIds r = true := by
                          unfold holdCounted
                          rw [hacc, hsid]
                          simp only [Option.isSome_some, Bool.true_and]
                          exact hcont
                        have hstate :
                            syncHoldingsStepPure accounts item secIds holdings r =
                            holdings ++ [h2] := by
                          simp only [syncHoldingsStepPure, hacc, hsid,
                            if_pos hcont, hfind, hpure]
                        refine ⟨?_, ?_, ?_⟩
                        · rw [List.foldl_cons, hstate]; exact ih1
                        · rw [ih2, List.filter_cons_of_pos hcounted,
                            List.length_cons]
                          omega
                        · intro r2 hr2 hc
                          rcases List.mem_cons.mp hr2 with he | hr2
                          · exact he ▸ hok
                          · exact ih3 r2 hr2 hc

theorem syncInvestments_rerun (securities : List Security)
    (holdings : List Holding) (accounts : List Account)
    (item item2 : PlaidItem) (secs : List SecData) (holds : List HoldingData)
    (s1 : List Security) (hl1 : List Holding) (hn sn : Nat)
    (hndS : (secs.map (fun x => x.security_id)).Nodup)
    (hndH : (holds.map (fun x => (x.account_id, x.security_id))).Nodup)
    (h1 : syncInvestments securities holdings accounts item (.ok (secs, holds)) =
      .ok (s1, hl1, hn, sn)) :
    syncInvestments s1 hl1 accounts item2 (.ok (secs, holds)) =
      .ok (s1, hl1, hn, sn) := by
  simp only [syncInvestments] at h1 ⊢
  cases hfold : List.foldlM
      (syncHoldingsStep accounts item (secs.map (fun r => r.security_id)))
      (holdings, 0) holds with
  | error e =>
      simp [hfold, Bind.bind, Except.bind] at h1
  | ok st =>
      obtain ⟨hl, hnv⟩ := st
      simp only [hfold, Bind.bind, Except.bind, Except.ok.injEq, Prod.mk.injEq] at h1
      obtain ⟨hs1, hhl, hhn, hsn⟩ := h1
      obtain ⟨ch1, ch2, ch3⟩ := syncHolds_foldlM_ok_char accounts item
        (secs.map (fun r => r.security_id)) holds holdings 0 (hl, hnv) hfold
      have hhl1 : hl1 = holds.foldl
          (syncHoldingsStepPure accounts item (secs.map (fun r => r.security_id)))
          holdings := by
        rw [← hhl]; exact ch1
      have hhn1 : hn = (holds.filter
          (holdCounted accounts (secs.map (fun r => r.security_id)))).length := by
        rw [← hhn]; simpa using ch2
      have hsecfix : secs.foldl syncSecurityStep s1 = s1 := by
        rw [← hs1]
        exact syncSecurity_foldl_rerun secs securities hndS
      have hstep : ∀ r ∈ holds, ∀ c : Nat,
          syncHoldingsStep accounts item2 (secs.map (fun r => r.security_id))
            (hl1, c) r =
          .ok (hl1, c + (if holdCounted accounts
            (secs.map (fun r => r.security_id)) r then 1 else 0)) := by
        intro r hmem c
        cases hacc : accounts.find? (fun a => a.account_id == r.account_id) with
        | none =>
            have hcounted : holdCounted accounts
                (secs.map (fun r => r.security_id)) r = false := by
              unfold holdCounted
              rw [hacc]
              rfl
            simp only [syncHoldingsStep, hacc]
            simp [hcounted, pure, Except.pure]
        | some account =>
            have haid : account.account_id = r.account_id := by
              simpa using List.find?_some hacc
            cases hsid : r.security_id with
            | none =>
                have hcounted : holdCounted accounts
                    (secs.map (fun r => r.security_id)) r = false := by
                  unfold holdCounted
                  rw [hacc, hsid]
                  rfl
                simp only [syncHoldingsStep, hacc, hsid]
                simp [hcounted, pure, Except.pure]
            | some sid =>
                by_cases hcont :
                    (secs.map (fun r => r.security_id)).contains sid = true
                case neg =>
                  have hcf : (secs.map (fun r => r.security_id)).contains sid =
                      false := by simpa using hcont
                  have hcounted : holdCounted accounts
                      (secs.map (fun r => r.security_id)) r = false := by
                    unfold holdCounted
                    rw [hacc, hsid]
                    simp only [Option.isSome_some, Bool.true_and]
                    exact hcf
                  simp only [syncHoldingsStep, hacc, hsid, if_neg hcont]
                  simp [hcounted, pure, Except.pure]
                case pos =>
                  have hcounted : holdCounted accounts
                      (secs.map (fun r => r.security_id)) r = true := by
                    unfold holdCounted
                    rw [hacc, hsid]
                    simp only [Option.isSome_some, Bool.true_and]
                    exact hcont
                  have hok := ch3 r hmem hcounted
                  have hchar2 := syncHoldsPure_foldl_find?_char accounts item
                    (secs.map (fun r => r.security_id)) holds r account sid
                    hacc hsid hcont holdings hndH hmem
                  rw [← hhl1] at hchar2
                  simp only [syncHoldingsStep, hacc, hsid, if_pos hcont, haid]
                  simp only [hchar2]
                  rw [updateHoldingFields_ofOk _ _ hok]
                  rw [updateHoldingFieldsPure_idem r _ hok]
                  simp only [Bind.bind, Except.bind]
                  rw [findUpdate_eq_self _ _ _ _ hchar2 rfl]
                  simp [hcounted]
      rw [foldlM_count_fixed
        (syncHoldingsStep accounts item2 (secs.map (fun r => r.security_id)))
        (holdCounted accounts (secs.map (fun r => r.security_id)))
        hl1 holds hstep 0]
      simp only [Bind.bind, Except.bind]
      rw [hsecfix, ← hhn1, hsn]
      simp

theorem liabUpdatePure_key (upd : Liability → Except String Liability)
    (hkey : ∀ l l2, upd l = .ok l2 → l2.account_id = l.account_id)
    (l : Liability) : (liabUpdatePure upd l).account_id = l.account_id := by
  unfold liabUpdatePure
  cases he : upd l with
  | error e => rfl
  | ok l2 => exact hkey l l2 he

theorem liabUpdatePure_of_ok (upd : Liability → Except String Liability)
    (l l2 : Liability) (he : upd l = .ok l2) : liabUpdatePure upd l = l2 := by
  unfold liabUpdatePure
  rw [he]

theorem upsertLiabilityPure_find?_ne (accounts : List Account)
    (item : PlaidItem) (ltype accId : String)
    (upd : Liability → Except String Liability) (liabs : List Liability)
    (k : String) (hne : accId ≠ k)
    (hkey : ∀ l l2, upd l = .ok l2 → l2.account_id = l.account_id) :
    (upsertLiabilityPure accounts item ltype accId upd liabs).find?
        (fun l => l.account_id == k) =
      liabs.find? (fun l => l.account_id == k) := by
  simp only [upsertLiabilityPure]
  cases hacc : accounts.find? (fun a => a.account_id == accId) with
  | none => rfl
  | some account =>
      have haid : account.account_id = accId := by
        simpa using List.find?_some hacc
      cases hfind : liabs.find? (fun l => l.account_id == account.account_id) with
      | some l0 =>
          have hl0 : l0.account_id = account.account_id := by
            simpa using List.find?_some hfind
          simp only [hfind]
          apply find?_findUpdate_ne
          · intro x hx
            have hx2 : x.account_id = account.account_id := by simpa using hx
            simp [hx2, haid, hne]
          · intro x _
            rw [liabUpdatePure_key upd hkey l0, hl0]
            simp [haid, hne]
      | none =>
          simp only [hfind]
          apply find?_append_single_ne
          rw [liabUpdatePure_key upd hkey (mkLiability account item ltype)]
          simp [mkLiability, haid, hne]

theorem upsertLiabilityPure_find?_self (accounts : List Account)
    (item : PlaidItem) (ltype accId : String)
    (upd : Liability → Except String Liability) (liabs : List Liability)
    (account : Account)
    (hacc : accounts.find? (fun a => a.account_id == accId) = some account)
    (hkey : ∀ l l2, upd l = .ok l2 → l2.account_id = l.account_id) :
    (upsertLiabilityPure accounts item ltype accId upd liabs).find?
        (fun l => l.account_id == accId) =
      some (liabUpdatePure upd
        (match liabs.find? (fun l => l.account_id == accId) with
         | some l => l
         | Option.none => mkLiability account item ltype)) := by
  have haid : account.account_id = accId := by
    simpa using List.find?_some hacc
  simp only [upsertLiabilityPure, hacc, haid]
  cases hfind : liabs.find? (fun l => l.account_id == accId) with
  | some l0 =>
      have hl0 : l0.account_id = accId := by
        simpa using List.find?_some hfind
      rw [find?_findUpdate_self]
      · rw [hfind]
        rfl
      · intro x hx
        rw [liabUpdatePure_key upd hkey l0, hl0]
        simp
  | none =>
      rw [find?_append_none _ _ _ hfind]
      have hk : ((liabUpdatePure upd (mkLiability account item ltype)).account_id ==
          accId) = true := by
        rw [liabUpdatePure_key upd hkey (mkLiability account item ltype)]
        simp [mkLiability, haid]
      simp [List.find?, hk]

theorem liabPure_foldl_find?_ne {ρ : Type} (accounts : List Account)
    (item : PlaidItem) (ltype : String) (aid : ρ → String)
    (updF : ρ → Liability → Except String Liability) (recs : List ρ)
    (k : String)
    (hkey : ∀ r l l2, updF r l = .ok l2 → l2.account_id = l.account_id) :
    ∀ liabs, (∀ r2 ∈ recs, aid r2 ≠ k) →
      (recs.foldl (fun ls r =>
          upsertLiabilityPure accounts item ltype (aid r) (updF r) ls) liabs).find?
          (fun l => l.account_id == k) =
        liabs.find? (fun l => l.account_id == k) := by
  induction recs with
  | nil => intro liabs _; rfl
  | cons r rest ih =>
      intro liabs h
      rw [List.foldl_cons]
      rw [ih _ (fun r2 hr2 => h r2 (List.mem_cons_of_mem _ hr2))]
      exact upsertLiabilityPure_find?_ne accounts item ltype (aid r) (updF r)
        liabs k (h r (List.mem_cons_self _ _)) (hkey r)

theorem liabPure_foldl_find?_char {ρ : Type} (accounts : List Account)
    (item : PlaidItem) (ltype : String) (aid : ρ → String)
    (updF : ρ → Liability → Except String Liability) (recs : List ρ)
    (r : ρ) (account : Account)
    (hacc : accounts.find? (fun a => a.account_id == aid r) = some account)
    (hkey : ∀ r2 l l2, updF r2 l = .ok l2 → l2.account_id = l.account_id) :
    ∀ liabs, (recs.map aid).Nodup → r ∈ recs →
      (recs.foldl (fun ls r2 =>
          upsertLiabilityPure accounts item ltype (aid r2) (updF r2) ls) liabs).find?
          (fun l => l.account_id == aid r) =
        some (liabUpdatePure (updF r)
          (match liabs.find? (fun l => l.account_id == aid r) with
           | some l => l
           | Option.none => mkLiability account item ltype)) := by
  induction recs with
  | nil => intro liabs _ hmem; cases hmem
  | cons r0 rest ih =>
      intro liabs hnd hmem
      have hnd2 := hnd
      rw [List.map_cons, List.nodup_cons] at hnd2
      rcases List.mem_cons.mp hmem with heq | hmem2
      · subst heq
        rw [List.foldl_cons]
        rw [liabPure_foldl_find?_ne accounts item ltype aid updF rest
          (aid r) hkey _ ?hke]
        case hke =>
          intro r2 hr2 hk
          exact hnd2.1 (hk ▸ List.mem_map_of_mem aid hr2)
        exact upsertLiabilityPure_find?_self accounts item ltype (aid r)
          (updF r) liabs account hacc (hkey r)
      · have hne : aid r0 ≠ aid r := by
          intro he
          exact hnd2.1 (he ▸ List.mem_map_of_mem aid hmem2)
        rw [List.foldl_cons]
        rw [ih _ hnd2.2 hmem2]
        rw [upsertLiabilityPure_find?_ne accounts item ltype (aid r0) (updF r0)
          liabs (aid r) hne (hkey r0)]

theorem upsertLiabilityPure_nodup (accounts : List Account) (item : PlaidItem)
    (ltype accId : String) (upd : Liability → Except String Liability)
    (liabs : List Liability)
    (hkey : ∀ l l2, upd l = .ok l2 → l2.account_id = l.account_id)
    (h : (liabs.map (fun l => l.account_id)).Nodup) :
    ((upsertLiabilityPure accounts item ltype accId upd liabs).map
      (fun l => l.account_id)).Nodup := by
  simp only [upsertLiabilityPure]
  cases hacc : accounts.find? (fun a => a.account_id == accId) with
  | none => exact h
  | some account =>
      cases hfind : liabs.find? (fun l => l.account_id == account.account_id) with
      | some l0 =>
          simp only [hfind]
          rw [map_findUpdate_key]
          · exact h
          · intro x hx
            have hl0 : l0.account_id = account.account_id := by
              simpa using List.find?_some hfind
            have hx2 : x.account_id = account.account_id := by simpa using hx
            rw [liabUpdatePure_key upd hkey l0, hl0, hx2]
      | none =>
          simp only [hfind]
          rw [List.map_append, List.nodup_append]
          refine ⟨h, by simp, ?_⟩
          intro k hk
          simp only [List.map_cons, List.map_nil, List.mem_singleton]
          intro he
          rcases List.mem_map.mp hk with ⟨x, hx, hkeyx⟩
          have hne := List.find?_eq_none.mp hfind x hx
          apply hne
          rw [he, liabUpdatePure_key upd hkey (mkLiability account item ltype)] at hkeyx
          simp only [mkLiability] at hkeyx
          simp [hkeyx]

theorem liabPure_foldl_nodup {ρ : Type} (accounts : List Account)
    (item : PlaidItem) (ltype : String) (aid : ρ → String)
    (updF : ρ → Liability → Except String Liability) (recs : List ρ)
    (hkey : ∀ r l l2, updF r l = .ok l2 → l2.account_id = l.account_id) :
    ∀ liabs, ((liabs : List Liability).map (fun l => l.account_id)).Nodup →
      (((recs.foldl (fun ls r =>
          upsertLiabilityPure accounts item ltype (aid r) (updF r) ls) liabs)).map
        (fun l => l.account_id)).Nodup := by
  induction recs with
  | nil => intro liabs h; exact h
  | cons r rest ih =>
      intro liabs h
      rw [List.foldl_cons]
      exact ih _ (upsertLiabilityPure_nodup accounts item ltype (aid r) (updF r)
        liabs (hkey r) h)

theorem liab_foldlM_ok_char {ρ : Type} (accounts : List Account)
    (item : PlaidItem) (ltype : String) (aid : ρ → String)
    (updF : ρ → Liability → Except String Liability)
    (hkey : ∀ r l l2, updF r l = .ok l2 → l2.account_id = l.account_id) :
    ∀ (recs : List ρ) (liabs : List Liability) (n : Nat)
      (out : List Liability × Nat),
      (recs.map aid).Nodup →
      List.foldlM (fun st r =>
        upsertLiability accounts item ltype (aid r) (updF r) st) (liabs, n) recs =
        .ok out →
      (out.1 = recs.foldl (fun ls r =>
         upsertLiabilityPure accounts item ltype (aid r) (updF r) ls) liabs ∧
       out.2 = n + (recs.filter (fun r => liabCounted accounts (aid r))).length ∧
       ∀ r ∈ recs, ∀ account,
         accounts.find? (fun a => a.account_id == aid r) = some account →
         ∃ l2, updF r (match liabs.find? (fun l => l.account_id == aid r) with
                       | some l => l
                       | Option.none => mkLiability account item ltype) =
           .ok l2) := by
  intro recs
  induction recs with
  | nil =>
      intro liabs n out _ h
      simp only [List.foldlM_nil, pure, Except.pure, Except.ok.injEq] at h
      subst h
      simp
  | cons r rest ih =>
      intro liabs n out hnd h
      have hnd2 := hnd
      rw [List.map_cons, List.nodup_cons] at hnd2
      have hkeyne : ∀ r2 ∈ rest, aid r2 ≠ aid r := by
        intro r2 hr2 hk
        exact hnd2.1 (hk ▸ List.mem_map_of_mem aid hr2)
      rw [List.foldlM_cons] at h
      cases hacc : accounts.find? (fun a => a.account_id == aid r) with
      | none =>
          simp only [upsertLiability, hacc] at h
          simp only [pure, Except.pure, Bind.bind, Except.bind] at h
          obtain ⟨ih1, ih2, ih3⟩ := ih _ _ _ hnd2.2 h
          have hcounted : liabCounted accounts (aid r) = false := by
            simp [liabCounted, hacc]
          have hstate : upsertLiabilityPure accounts item ltype (aid r)
              (updF r) liabs = liabs := by
            simp only [upsertLiabilityPure, hacc]
          refine ⟨?_, ?_, ?_⟩
          · rw [List.foldl_cons, hstate]; exact ih1
          · rw [ih2]
            have hflt : (List.filter (fun r2 =>
                liabCounted accounts (aid r2)) (r :: rest)).length =
                (List.filter (fun r2 =>
                  liabCounted accounts (aid r2)) rest).length := by
              simp [List.filter_cons, hcounted]
            rw [hflt]
          · intro r2 hr2 account2 hacc2
            rcases List.mem_cons.mp hr2 with he | hr2
            · rw [he, hacc] at hacc2; cases hacc2
            · exact ih3 r2 hr2 account2 hacc2
      | some account =>
          have haid : account.account_id = aid r := by
            simpa using List.find?_some hacc
          cases hfind : liabs.find? (fun l => l.account_id == aid r) with
          | some l0 =>
              have hl0 : l0.account_id = aid r := by
                simpa using List.find?_some hfind
              cases hupd : updF r l0 with
              | error e =>
                  simp [upsertLiability, hacc, haid, hfind, hupd,
                    Bind.bind, Except.bind] at h
              | ok l2 =>
                  simp only [upsertLiability, hacc, haid, hfind, hupd,
                    Bind.bind, Except.bind] at h
                  have hl2 : l2.account_id = aid r :=
                    (hkey r l0 l2 hupd).trans hl0
                  have hfindtrans : ∀ r2 ∈ rest,
                      (findUpdate (fun l => l.account_id == aid r)
                        (fun _ => l2) liabs).find?
                          (fun l => l.account_id == aid r2) =
                        liabs.find? (fun l => l.account_id == aid r2) := by
                    intro r2 hr2
                    apply find?_findUpdate_ne
                    · intro x hx
                      have hx2 : x.account_id = aid r := by simpa using hx
                      simp [hx2, (hkeyne r2 hr2).symm]
                    · intro x _
                      simp [hl2, (hkeyne r2 hr2).symm]
                  obtain ⟨ih1, ih2, ih3⟩ := ih _ _ _ hnd2.2 h
                  have hcounted : liabCounted accounts (aid r) = true := by
                    simp [liabCounted, hacc]
                  have hstate : upsertLiabilityPure accounts item ltype (aid r)
                      (updF r) liabs =
                      findUpdate (fun l => l.account_id == aid r)
                        (fun _ => l2) liabs := by
                    simp only [upsertLiabilityPure, hacc, haid, hfind,
                      liabUpdatePure_of_ok (updF r) l0 l2 hupd]
                  refine ⟨?_, ?_, ?_⟩
                  · rw [List.foldl_cons, hstate]; exact ih1
                  · rw [ih2]
                    have hflt : (List.filter (fun r2 =>
                        liabCounted accounts (aid r2)) (r :: rest)).length =
                        (List.filter (fun r2 =>
                          liabCounted accounts (aid r2)) rest).length + 1 := by
                      simp [List.filter_cons, hcounted]
                    rw [hflt]
                    omega
                  · intro r2 hr2 account2 hacc2
                    rcases List.mem_cons.mp hr2 with he | hr2
                    · subst he
                      rw [hacc] at hacc2
                      cases hacc2
                      rw [hfind]
                      exact ⟨l2, hupd⟩
                    · obtain ⟨l2', he2⟩ := ih3 r2 hr2 account2 hacc2
                      rw [hfindtrans r2 hr2] at he2
                      exact ⟨l2', he2⟩
          | none =>
              cases hupd : updF r (mkLiability account item ltype) with
              | error e =>
                  simp [upsertLiability, hacc, haid, hfind, hupd,
                    Bind.bind, Except.bind] at h
              | ok l2 =>
                  simp only [upsertLiability, hacc, haid, hfind, hupd,
                    Bind.bind, Except.bind] at h
                  have hl2 : l2.account_id = aid r := by
                    rw [hkey r _ l2 hupd]
                    simp [mkLiability, haid]
                  have hfindtrans : ∀ r2 ∈ rest,
                      (liabs ++ [l2]).find? (fun l => l.account_id == aid r2) =
                        liabs.find? (fun l => l.account_id == aid r2) := by
                    intro r2 hr2
                    apply find?_append_single_ne
                    simp [hl2, (hkeyne r2 hr2).symm]
                  obtain ⟨ih1, ih2, ih3⟩ := ih _ _ _ hnd2.2 h
                  have hcounted : liabCounted accounts (aid r) = true := by
                    simp [liabCounted, hacc]
                  have hstate : upsertLiabilityPure accounts item ltype (aid r)
                      (updF r) liabs = liabs ++ [l2] := by
                    simp only [upsertLiabilityPure, hacc, haid, hfind,
                      liabUpdatePure_of_ok (updF r) _ l2 hupd]
                  refine ⟨?_, ?_, ?_⟩
                  · rw [List.foldl_cons, hstate]; exact ih1
                  · rw [ih2]
                    have hflt : (List.filter (fun r2 =>
                        liabCounted accounts (aid r2)) (r :: rest)).length =
                        (List.filter (fun r2 =>
                          liabCounted accounts (aid r2)) rest).length + 1 := by
                      simp [List.filter_cons, hcounted]
                    rw [hflt]
                    omega
                  · intro r2 hr2 account2 hacc2
                    rcases List.mem_cons.mp hr2 with he | hr2
                    · subst he
                      rw [hacc] at hacc2
                      cases hacc2
                      rw [hfind]
                      exact ⟨l2, hupd⟩
                    · obtain ⟨l2', he2⟩ := ih3 r2 hr2 account2 hacc2
                      rw [hfindtrans r2 hr2] at he2
                      exact ⟨l2', he2⟩


theorem except_bind_ok {α β : Type _} (x : Except String α)
    (f : α → Except String β) (b : β) (h : (x >>= f) = .ok b) :
    ∃ a, x = .ok a ∧ f a = .ok b := by
  cases x with
  | error e => simp [Bind.bind, Except.bind] at h
  | ok a => exact ⟨a, rfl, by simpa [Bind.bind, Except.bind] using h⟩

theorem updateCreditLiability_keyE (r : CreditLiabData) (l l2 : Liability)
    (h : updateCreditLiability r l = .ok l2) : l2.account_id = l.account_id := by
  simp only [updateCreditLiability] at h
  by_cases hd : dateTruthy r.next_payment_due_date = true
  · rw [if_pos hd] at h
    obtain ⟨d, hp, hb⟩ := except_bind_ok _ _ _ h
    simp only [Except.ok.injEq] at hb
    subst hb
    rfl
  · rw [if_neg hd] at h
    simp only [Except.ok.injEq] at h
    subst h
    rfl

theorem updateCreditLiability_stab (r : CreditLiabData) (l l2 : Liability)
    (h : updateCreditLiability r l = .ok l2) :
    updateCreditLiability r l2 = .ok l2 := by
  simp only [updateCreditLiability] at h ⊢
  by_cases hd : dateTruthy r.next_payment_due_date = true
  · rw [if_pos hd] at h ⊢
    obtain ⟨d, hp, hb⟩ := except_bind_ok _ _ _ h
    simp only [Except.ok.injEq] at hb
    subst hb
    rw [hp]
    simp only [Bind.bind, Except.bind]
  · rw [if_neg hd] at h ⊢
    simp only [Except.ok.injEq] at h ⊢
    subst h
    rfl

theorem updateStudentLiability_keyE (r : StudentLiabData) (l l2 : Liability)
    (h : updateStudentLiability r l = .ok l2) : l2.account_id = l.account_id := by
  simp only [updateStudentLiability] at h
  by_cases hd : dateTruthy r.origination_date = true
  · rw [if_pos hd] at h
    obtain ⟨d, hp, hb⟩ := except_bind_ok _ _ _ h
    simp only [Except.ok.injEq] at hb
    subst hb
    rfl
  · rw [if_neg hd] at h
    simp only [Except.ok.injEq] at h
    subst h
    rfl

theorem updateStudentLiability_stab (r : StudentLiabData) (l l2 : Liability)
    (h : updateStudentLiability r l = .ok l2) :
    updateStudentLiability r l2 = .ok l2 := by
  simp only [updateStudentLiability] at h ⊢
  by_cases hd : dateTruthy r.origination_date = true
  · rw [if_pos hd] at h ⊢
    obtain ⟨d, hp, hb⟩ := except_bind_ok _ _ _ h
    simp only [Except.ok.injEq] at hb
    subst hb
    rw [hp]
    simp only [Bind.bind, Except.bind]
  · rw [if_neg hd] at h ⊢
    simp only [Except.ok.injEq] at h ⊢
    subst h
    rfl

theorem updateMortgageLiability_keyE (r : MortgageLiabData) (l l2 : Liability)
    (h : updateMortgageLiability r l = .ok l2) : l2.account_id = l.account_id := by
  simp only [updateMortgageLiability] at h
  by_cases hd : dateTruthy r.origination_date = true
  · rw [if_pos hd] at h
    obtain ⟨d, hp, hb⟩ := except_bind_ok _ _ _ h
    simp only [Except.ok.injEq] at hb
    subst hb
    rfl
  · rw [if_neg hd] at h
    simp only [Except.ok.injEq] at h
    subst h
    rfl

theorem updateMortgageLiability_stab (r : MortgageLiabData) (l l2 : Liability)
    (h : updateMortgageLiability r l = .ok l2) :
    updateMortgageLiability r l2 = .ok l2 := by
  simp only [updateMortgageLiability] at h ⊢
  by_cases hd : dateTruthy r.origination_date = true
  · rw [if_pos hd] at h ⊢
    obtain ⟨d, hp, hb⟩ := except_bind_ok _ _ _ h
    simp only [Except.ok.injEq] at hb
    subst hb
    rw [hp]
    simp only [Bind.bind, Except.bind]
  · rw [if_neg hd] at h ⊢
    simp only [Except.ok.injEq] at h ⊢
    subst h
    rfl

theorem liab_rerun_foldlM {ρ : Type} (accounts : List Account)
    (item2 : PlaidItem) (ltype : String) (aid : ρ → String)
    (updF : ρ → Liability → Except String Liability) (recs : List ρ)
    (L : List Liability)
    (hfix : ∀ r ∈ recs, ∀ account,
      accounts.find? (fun a => a.account_id == aid r) = some account →
      ∃ row, L.find? (fun l => l.account_id == aid r) = some row ∧
        updF r row = .ok row) :
    ∀ c : Nat, List.foldlM (fun st r =>
        upsertLiability accounts item2 ltype (aid r) (updF r) st) (L, c) recs =
      .ok (L, c + (recs.filter (fun r => liabCounted accounts (aid r))).length) := by
  have hstep : ∀ r ∈ recs, ∀ c : Nat,
      upsertLiability accounts item2 ltype (aid r) (updF r) (L, c) =
        .ok (L, c + (if liabCounted accounts (aid r) then 1 else 0)) := by
    intro r hmem c
    cases hacc : accounts.find? (fun a => a.account_id == aid r) with
    | none =>
        have hcounted : liabCounted accounts (aid r) = false := by
          simp [liabCounted, hacc]
        simp only [upsertLiability, hacc]
        simp [hcounted, pure, Except.pure]
    | some account =>
        have haid : account.account_id = aid r := by
          simpa using List.find?_some hacc
        have hcounted : liabCounted accounts (aid r) = true := by
          simp [liabCounted, hacc]
        obtain ⟨row, hrow, hfixr⟩ := hfix r hmem account hacc
        simp only [upsertLiability, hacc, haid, hrow, hfixr]
        simp only [Bind.bind, Except.bind]
        rw [findUpdate_eq_self _ _ _ _ hrow rfl]
        simp [hcounted]
  intro c
  exact foldlM_count_fixed _ _ L recs hstep c

theorem syncLiabilities_rerun (liabs : List Liability) (accounts : List Account)
    (item item2 : PlaidItem) (ld : LiabData) (l1 : List Liability) (n1 : Nat)
    (hndC : (ld.credit.map (fun r => r.account_id)).Nodup)
    (hndS : (ld.student.map (fun r => r.account_id)).Nodup)
    (hndM : (ld.mortgage.map (fun r => r.account_id)).Nodup)
    (hCS : ∀ r ∈ ld.credit, ∀ r2 ∈ ld.student, r.account_id ≠ r2.account_id)
    (hCM : ∀ r ∈ ld.credit, ∀ r2 ∈ ld.mortgage, r.account_id ≠ r2.account_id)
    (hSM : ∀ r ∈ ld.student, ∀ r2 ∈ ld.mortgage, r.account_id ≠ r2.account_id)
    (h1 : syncLiabilities liabs accounts item (.ok ld) = .ok (l1, n1)) :
    syncLiabilities l1 accounts item2 (.ok ld) = .ok (l1, n1) := by
  simp only [syncLiabilities, Bind.bind, Except.bind] at h1 ⊢
  cases hf1 : List.foldlM (fun st r =>
      upsertLiability accounts item "credit" r.account_id
        (updateCreditLiability r) st) (liabs, 0) ld.credit with
  | error e => simp only [hf1] at h1; cases h1
  | ok st1 =>
      obtain ⟨L1, c1⟩ := st1
      simp only [hf1] at h1
      cases hf2 : List.foldlM (fun st r =>
          upsertLiability accounts item "student" r.account_id
            (updateStudentLiability r) st) (L1, c1) ld.student with
      | error e => simp only [hf2] at h1; cases h1
      | ok st2 =>
          obtain ⟨L2, c2⟩ := st2
          simp only [hf2] at h1
          obtain ⟨c11, c12, c13⟩ := liab_foldlM_ok_char accounts item "credit"
            (fun r => r.account_id) (fun r => updateCreditLiability r)
            (fun r l l2 he => updateCreditLiability_keyE r l l2 he)
            ld.credit liabs 0 (L1, c1) hndC hf1
          obtain ⟨c21, c22, c23⟩ := liab_foldlM_ok_char accounts item "student"
            (fun r => r.account_id) (fun r => updateStudentLiability r)
            (fun r l l2 he => updateStudentLiability_keyE r l l2 he)
            ld.student L1 c1 (L2, c2) hndS hf2
          obtain ⟨c31, c32, c33⟩ := liab_foldlM_ok_char accounts item "mortgage"
            (fun r => r.account_id) (fun r => updateMortgageLiability r)
            (fun r l l2 he => updateMortgageLiability_keyE r l l2 he)
            ld.mortgage L2 c2 (l1, n1) hndM h1
          have hL1eq : L1 = ld.credit.foldl (fun ls r =>
              upsertLiabilityPure accounts item "credit" r.account_id
                (updateCreditLiability r) ls) liabs := c11
          have hL2eq : L2 = ld.student.foldl (fun ls r =>
              upsertLiabilityPure accounts item "student" r.account_id
                (updateStudentLiability r) ls) L1 := c21
          have hl1eq : l1 = ld.mortgage.foldl (fun ls r =>
              upsertLiabilityPure accounts item "mortgage" r.account_id
                (updateMortgageLiability r) ls) L2 := c31
          have hc1 : c1 = 0 + (ld.credit.filter (fun r =>
              liabCounted accounts r.account_id)).length := c12
          have hc2 : c2 = c1 + (ld.student.filter (fun r =>
              liabCounted accounts r.account_id)).length := c22
          have hn1v : n1 = c2 + (ld.mortgage.filter (fun r =>
              liabCounted accounts r.account_id)).length := c32
          have hfixC : ∀ r ∈ ld.credit, ∀ account,
              accounts.find? (fun a => a.account_id == r.account_id) =
                some account →
              ∃ row, l1.find? (fun l => l.account_id == r.account_id) =
                some row ∧ updateCreditLiability r row = .ok row := by
            intro r hmem account hacc
            obtain ⟨l2x, hok⟩ := c13 r hmem account hacc
            have hok2 : updateCreditLiability r
                (match liabs.find? (fun l => l.account_id == r.account_id) with
                 | some l => l
                 | Option.none => mkLiability account item "credit") =
                .ok l2x := hok
            have hchar : (ld.credit.foldl (fun ls r2 =>
                upsertLiabilityPure accounts item "credit" r2.account_id
                  (updateCreditLiability r2) ls) liabs).find?
                  (fun l => l.account_id == r.account_id) =
                some (liabUpdatePure (updateCreditLiability r)
                  (match liabs.find? (fun l => l.account_id == r.account_id) with
                   | some l => l
                   | Option.none => mkLiability account item "credit")) :=
              liabPure_foldl_find?_char accounts item "credit"
                (fun r => r.account_id) (fun r => updateCreditLiability r)
                ld.credit r account hacc
                (fun r l l2 he => updateCreditLiability_keyE r l l2 he)
                liabs hndC hmem
            have ht1 : l1.find? (fun l => l.account_id == r.account_id) =
                L2.find? (fun l => l.account_id == r.account_id) := by
              rw [hl1eq]
              exact liabPure_foldl_find?_ne accounts item "mortgage"
                (fun r => r.account_id) (fun r => updateMortgageLiability r)
                ld.mortgage r.account_id
                (fun r l l2 he => updateMortgageLiability_keyE r l l2 he)
                L2 (fun r2 hr2 => (hCM r hmem r2 hr2).symm)
            have ht2 : L2.find? (fun l => l.account_id == r.account_id) =
                L1.find? (fun l => l.account_id == r.account_id) := by
              rw [hL2eq]
              exact liabPure_foldl_find?_ne accounts item "student"
                (fun r => r.account_id) (fun r => updateStudentLiability r)
                ld.student r.account_id
                (fun r l l2 he => updateStudentLiability_keyE r l l2 he)
                L1 (fun r2 hr2 => (hCS r hmem r2 hr2).symm)
            have hrowv := liabUpdatePure_of_ok (updateCreditLiability r) _ l2x hok2
            refine ⟨l2x, ?_, updateCreditLiability_stab r _ l2x hok2⟩
            rw [ht1, ht2, hL1eq, hchar, hrowv]
          have hfixS : ∀ r ∈ ld.student, ∀ account,
              accounts.find? (fun a => a.account_id == r.account_id) =
                some account →
              ∃ row, l1.find? (fun l => l.account_id == r.account_id) =
                some row ∧ updateStudentLiability r row = .ok row := by
            intro r hmem account hacc
            obtain ⟨l2x, hok⟩ := c23 r hmem account hacc
            have hok2 : updateStudentLiability r
                (match L1.find? (fun l => l.account_id == r.account_id) with
                 | some l => l
                 | Option.none => mkLiability account item "student") =
                .ok l2x := hok
            have hchar : (ld.student.foldl (fun ls r2 =>
                upsertLiabilityPure accounts item "student" r2.account_id
                  (updateStudentLiability r2) ls) L1).find?
                  (fun l => l.account_id == r.account_id) =
                some (liabUpdatePure (updateStudentLiability r)
                  (match L1.find? (fun l => l.account_id == r.account_id) with
                   | some l => l
                   | Option.none => mkLiability account item "student")) :=
              liabPure_foldl_find?_char accounts item "student"
                (fun r => r.account_id) (fun r => updateStudentLiability r)
                ld.student r account hacc
                (fun r l l2 he => updateStudentLiability_keyE r l l2 he)
                L1 hndS hmem
            have ht1 : l1.find? (fun l => l.account_id == r.account_id) =
                L2.find? (fun l => l.account_id == r.account_id) := by
              rw [hl1eq]
              exact liabPure_foldl_find?_ne accounts item "mortgage"
                (fun r => r.account_id) (fun r => updateMortgageLiability r)
                ld.mortgage r.account_id
                (fun r l l2 he => updateMortgageLiability_keyE r l l2 he)
                L2 (fun r2 hr2 => (hSM r hmem r2 hr2).symm)
            have hrowv := liabUpdatePure_of_ok (updateStudentLiability r) _ l2x hok2
            refine ⟨l2x, ?_, updateStudentLiability_stab r _ l2x hok2⟩
            rw [ht1, hL2eq, hchar, hrowv]
          have hfixM : ∀ r ∈ ld.mortgage, ∀ account,
              accounts.find? (fun a => a.account_id == r.account_id) =
                some account →
              ∃ row, l1.find? (fun l => l.account_id == r.account_id) =
                some row ∧ updateMortgageLiability r row = .ok row := by
            intro r hmem account hacc
            obtain ⟨l2x, hok⟩ := c33 r hmem account hacc
            have hok2 : updateMortgageLiability r
                (match L2.find? (fun l => l.account_id == r.account_id) with
                 | some l => l
                 | Option.none => mkLiability account item "mortgage") =
                .ok l2x := hok
            have hchar : (ld.mortgage.foldl (fun ls r2 =>
                upsertLiabilityPure accounts item "mortgage" r2.account_id
                  (updateMortgageLiability r2) ls) L2).find?
                  (fun l => l.account_id == r.account_id) =
                some (liabUpdatePure (updateMortgageLiability r)
                  (match L2.find? (fun l => l.account_id == r.account_id) with
                   | some l => l
                   | Option.none => mkLiability account item "mortgage")) :=
              liabPure_foldl_find?_char accounts item "mortgage"
                (fun r => r.account_id) (fun r => updateMortgageLiability r)
                ld.mortgage r account hacc
                (fun r l l2 he => updateMortgageLiability_keyE r l l2 he)
                L2 hndM hmem
            have hrowv := liabUpdatePure_of_ok (updateMortgageLiability r) _ l2x hok2
            refine ⟨l2x, ?_, updateMortgageLiability_stab r _ l2x hok2⟩
            rw [hl1eq, hchar, hrowv]
          have hA : List.foldlM (fun st r =>
              upsertLiability accounts item2 "credit" r.account_id
                (updateCreditLiability r) st) (l1, 0) ld.credit =
              .ok (l1, 0 + (ld.credit.filter (fun r =>
                liabCounted accounts r.account_id)).length) :=
            liab_rerun_foldlM accounts item2 "credit" (fun r => r.account_id)
              (fun r => updateCreditLiability r) ld.credit l1 hfixC 0
          have hB : List.foldlM (fun st r =>
              upsertLiability accounts item2 "student" r.account_id
                (updateStudentLiability r) st)
              (l1, 0 + (ld.credit.filter (fun r =>
                liabCounted accounts r.account_id)).length) ld.student =
              .ok (l1, (0 + (ld.credit.filter (fun r =>
                liabCounted accounts r.account_id)).length) +
                (ld.student.filter (fun r =>
                  liabCounted accounts r.account_id)).length) :=
            liab_rerun_foldlM accounts item2 "student" (fun r => r.account_id)
              (fun r => updateStudentLiability r) ld.student l1 hfixS _
          have hC : List.foldlM (fun st r =>
              upsertLiability accounts item2 "mortgage" r.account_id
                (updateMortgageLiability r) st)
              (l1, (0 + (ld.credit.filter (fun r =>
                liabCounted accounts r.account_id)).length) +
                (ld.student.filter (fun r =>
                  liabCounted accounts r.account_id)).length) ld.mortgage =
              .ok (l1, ((0 + (ld.credit.filter (fun r =>
                liabCounted accounts r.account_id)).length) +
                (ld.student.filter (fun r =>
                  liabCounted accounts r.account_id)).length) +
                (ld.mortgage.filter (fun r =>
                  liabCounted accounts r.account_id)).length) :=
            liab_rerun_foldlM accounts item2 "mortgage" (fun r => r.account_id)
              (fun r => updateMortgageLiability r) ld.mortgage l1 hfixM _
          rw [hA]
          simp only []
          rw [hB]
          simp only []
          rw [hC]
          have hcnt : ((0 + (ld.credit.filter (fun r =>
              liabCounted accounts r.account_id)).length) +
              (ld.student.filter (fun r =>
                liabCounted accounts r.account_id)).length) +
              (ld.mortgage.filter (fun r =>
                liabCounted accounts r.account_id)).length = n1 := by
            omega
          rw [hcnt]

theorem syncInvestments_shape (securities : List Security)
    (holdings : List Holding) (accounts : List Account) (item : PlaidItem)
    (secs : List SecData) (holds : List HoldingData)
    (s1 : List Security) (hl1 : List Holding) (hn sn : Nat)
    (h1 : syncInvestments securities holdings accounts item (.ok (secs, holds)) =
      .ok (s1, hl1, hn, sn)) :
    s1 = secs.foldl syncSecurityStep securities ∧
    hl1 = holds.foldl
      (syncHoldingsStepPure accounts item (secs.map (fun r => r.security_id)))
      holdings := by
  simp only [syncInvestments] at h1
  cases hfold : List.foldlM
      (syncHoldingsStep accounts item (secs.map (fun r => r.security_id)))
      (holdings, 0) holds with
  | error e => simp [hfold, Bind.bind, Except.bind] at h1
  | ok st =>
      obtain ⟨hl, hnv⟩ := st
      simp only [hfold, Bind.bind, Except.bind, Except.ok.injEq,
        Prod.mk.injEq] at h1
      obtain ⟨hs1, hhl, _, _⟩ := h1
      obtain ⟨ch1, _, _⟩ := syncHolds_foldlM_ok_char accounts item
        (secs.map (fun r => r.security_id)) holds holdings 0 (hl, hnv) hfold
      exact ⟨hs1.symm, by rw [← hhl]; exact ch1⟩

theorem syncLiabilities_shape (liabs : List Liability)
    (accounts : List Account) (item : PlaidItem) (ld : LiabData)
    (l1 : List Liability) (n1 : Nat)
    (hndC : (ld.credit.map (fun r => r.account_id)).Nodup)
    (hndS : (ld.student.map (fun r => r.account_id)).Nodup)
    (hndM : (ld.mortgage.map (fun r => r.account_id)).Nodup)
    (h1 : syncLiabilities liabs accounts item (.ok ld) = .ok (l1, n1)) :
    l1 = ld.mortgage.foldl (fun ls r =>
      upsertLiabilityPure accounts item "mortgage" r.account_id
        (updateMortgageLiability r) ls)
      (ld.student.foldl (fun ls r =>
        upsertLiabilityPure accounts item "student" r.account_id
          (updateStudentLiability r) ls)
        (ld.credit.foldl (fun ls r =>
          upsertLiabilityPure accounts item "credit" r.account_id
            (updateCreditLiability r) ls) liabs)) := by
  simp only [syncLiabilities, Bind.bind, Except.bind] at h1
  cases hf1 : List.foldlM (fun st r =>
      upsertLiability accounts item "credit" r.account_id
        (updateCreditLiability r) st) (liabs, 0) ld.credit with
  | error e => simp only [hf1] at h1; cases h1
  | ok st1 =>
      obtain ⟨L1, c1⟩ := st1
      simp only [hf1] at h1
      cases hf2 : List.foldlM (fun st r =>
          upsertLiability accounts item "student" r.account_id
            (updateStudentLiability r) st) (L1, c1) ld.student with
      | error e => simp only [hf2] at h1; cases h1
      | ok st2 =>
          obtain ⟨L2, c2⟩ := st2
          simp only [hf2] at h1
          obtain ⟨c11, _, _⟩ := liab_foldlM_ok_char accounts item "credit"
            (fun r => r.account_id) (fun r => updateCreditLiability r)
            (fun r l l2 he => updateCreditLiability_keyE r l l2 he)
            ld.credit liabs 0 (L1, c1) hndC hf1
          obtain ⟨c21, _, _⟩ := liab_foldlM_ok_char accounts item "student"
            (fun r => r.account_id) (fun r => updateStudentLiability r)
            (fun r l l2 he => updateStudentLiability_keyE r l l2 he)
            ld.student L1 c1 (L2, c2) hndS hf2
          obtain ⟨c31, _, _⟩ := liab_foldlM_ok_char accounts item "mortgage"
            (fun r => r.account_id) (fun r => updateMortgageLiability r)
            (fun r l l2 he => updateMortgageLiability_keyE r l l2 he)
            ld.mortgage L2 c2 (l1, n1) hndM h1
          have hL1 : L1 = ld.credit.foldl (fun ls r =>
              upsertLiabilityPure accounts item "credit" r.account_id
                (updateCreditLiability r) ls) liabs := c11
          have hL2 : L2 = ld.student.foldl (fun ls r =>
              upsertLiabilityPure accounts item "student" r.account_id
                (updateStudentLiability r) ls) L1 := c21
          have hl1v : l1 = ld.mortgage.foldl (fun ls r =>
              upsertLiabilityPure accounts item "mortgage" r.account_id
                (updateMortgageLiability r) ls) L2 := c31
          rw [hl1v, hL2, hL1]

theorem syncTransactions_shape (txns : List Transaction)
    (accounts : List Account) (item : PlaidItem) (recs : List TxnData)
    (t1 : List Transaction) (n1 : Nat)
    (hnd : (recs.map (fun x => x.transaction_id)).Nodup)
    (h1 : syncTransactions txns accounts item (.ok recs) = .ok (t1, n1)) :
    t1 = recs.foldl (syncTransactionsStepPure accounts item) txns := by
  simp only [syncTransactions] at h1
  obtain ⟨ho1, _, _⟩ :=
    syncTxns_foldlM_ok_char accounts item recs txns 0 (t1, n1) hnd h1
  exact ho1

theorem findUpdate_findUpdate (p : α → Bool) (f : α → α)
    (hpf : ∀ x, p x = true → p (f x) = true) (hff : ∀ x, f (f x) = f x)
    (l : List α) :
    findUpdate p f (findUpdate p f l) = findUpdate p f l := by
  induction l with
  | nil => rfl
  | cons x xs ih =>
      by_cases hx : p x = true
      · simp [findUpdate, hx, hpf x hx, hff x]
      · have hxf : p x = false := by simpa using hx
        simp [findUpdate, hxf, ih]

/-- C3: sync is idempotent over a fixed upstream batch with externally
unique ids: when the store is well keyed, the first `sync_item` run
reports no category errors, and a second run over the same upstream data
follows, the second run leaves every entity table of the first run
unchanged (accounts, transactions, securities, holdings, liabilities and
the daily balance snapshots), returns an identical report — in
particular identical per-category synced counts — and the first run
keeps every table free of duplicate external keys. -/
theorem sync_idempotent (db : Db) (up : Upstream) (now today now2 : Int)
    (itemId : String) (db1 db2 : Db) (r1 r2 : SyncReport)
    (hup : upstreamWellKeyed up) (hdb : dbWellKeyed db)
    (h1 : syncItem db up now today itemId = .ok (db1, r1))
    (hclean : r1.errors = [])
    (h2 : syncItem db1 up now2 today itemId = .ok (db2, r2)) :
    db2.accounts = db1.accounts ∧ db2.transactions = db1.transactions ∧
    db2.securities = db1.securities ∧ db2.holdings = db1.holdings ∧
    db2.liabilities = db1.liabilities ∧
    db2.balance_snapshots = db1.balance_snapshots ∧
    r2 = r1 ∧ dbWellKeyed db1 := by
  obtain ⟨hupA, hupT, hupI, hupL⟩ := hup
  obtain ⟨hdbA, hdbT, hdbS, hdbH, hdbL⟩ := hdb
  simp only [syncItem] at h1
  cases hit : db.items.find? (fun i => i.id == itemId) with
  | none => simp only [hit] at h1; cases h1
  | some item =>
  simp only [hit] at h1
  cases hacv : syncAccounts db.accounts db.balance_snapshots item
      up.accounts_resp today with
  | error e =>
      exfalso
      simp only [hacv] at h1
      cases htv : syncTransactions db.transactions db.accounts item
          up.transactions_resp with
      | error e2 =>
          simp only [htv] at h1
          cases hiv : syncInvestments db.securities db.holdings db.accounts
              item up.investments_resp with
          | error e3 =>
              simp only [hiv] at h1
              cases hlv : syncLiabilities db.liabilities db.accounts item
                  up.liabilities_resp with
              | error e4 =>
                  simp only [hlv] at h1
                  simp only [Except.ok.injEq, Prod.mk.injEq] at h1
                  rw [← h1.2] at hclean
                  simp at hclean
              | ok stL =>
                  obtain ⟨lv, lnv⟩ := stL
                  simp only [hlv] at h1
                  simp only [Except.ok.injEq, Prod.mk.injEq] at h1
                  rw [← h1.2] at hclean
                  simp at hclean
          | ok stI =>
              obtain ⟨sv, hv, hnv, snv⟩ := stI
              simp only [hiv] at h1
              cases hlv : syncLiabilities db.liabilities db.accounts item
                  up.liabilities_resp with
              | error e4 =>
                  simp only [hlv] at h1
                  simp only [Except.ok.injEq, Prod.mk.injEq] at h1
                  rw [← h1.2] at hclean
                  simp at hclean
              | ok stL =>
                  obtain ⟨lv, lnv⟩ := stL
                  simp only [hlv] at h1
                  simp only [Except.ok.injEq, Prod.mk.injEq] at h1
                  rw [← h1.2] at hclean
                  simp at hclean
      | ok stT =>
          obtain ⟨t1v, txnN⟩ := stT
          simp only [htv] at h1
          cases hiv : syncInvestments db.securities db.holdings db.accounts
              item up.investments_resp with
          | error e3 =>
              simp only [hiv] at h1
              cases hlv : syncLiabilities db.liabilities db.accounts item
                  up.liabilities_resp with
              | error e4 =>
                  simp only [hlv] at h1
                  simp only [Except.ok.injEq, Prod.mk.injEq] at h1
                  rw [← h1.2] at hclean
                  simp at hclean
              | ok stL =>
                  obtain ⟨lv, lnv⟩ := stL
                  simp only [hlv] at h1
                  simp only [Except.ok.injEq, Prod.mk.injEq] at h1
                  rw [← h1.2] at hclean
                  simp at hclean
          | ok stI =>
              obtain ⟨sv, hv, hnv, snv⟩ := stI
              simp only [hiv] at h1
              cases hlv : syncLiabilities db.liabilities db.accounts item
                  up.liabilities_resp with
              | error e4 =>
                  simp only [hlv] at h1
                  simp only [Except.ok.injEq, Prod.mk.injEq] at h1
                  rw [← h1.2] at hclean
                  simp at hclean
              | ok stL =>
                  obtain ⟨lv, lnv⟩ := stL
                  simp only [hlv] at h1
                  simp only [Except.ok.injEq, Prod.mk.injEq] at h1
                  rw [← h1.2] at hclean
                  simp at hclean
  | ok stA =>
  obtain ⟨a1v, s1v, accN⟩ := stA
  simp only [hacv] at h1
  cases htv : syncTransactions db.transactions a1v item
      up.transactions_resp with
  | error e2 =>
      exfalso
      simp only [htv] at h1
      cases hiv : syncInvestments db.securities db.holdings a1v item
          up.investments_resp with
      | error e3 =>
          simp only [hiv] at h1
          cases hlv : syncLiabilities db.liabilities a1v item
              up.liabilities_resp with
          | error e4 =>
              simp only [hlv] at h1
              simp only [Except.ok.injEq, Prod.mk.injEq] at h1
              rw [← h1.2] at hclean
              simp at hclean
          | ok stL =>
              obtain ⟨lv, lnv⟩ := stL
              simp only [hlv] at h1
              simp only [Except.ok.injEq, Prod.mk.injEq] at h1
              rw [← h1.2] at hclean
              simp at hclean
      | ok stI =>
          obtain ⟨sv, hv, hnv, snv⟩ := stI
          simp only [hiv] at h1
          cases hlv : syncLiabilities db.liabilities a1v item
              up.liabilities_resp with
          | error e4 =>
              simp only [hlv] at h1
              simp only [Except.ok.injEq, Prod.mk.injEq] at h1
              rw [← h1.2] at hclean
              simp at hclean
          | ok stL =>
              obtain ⟨lv, lnv⟩ := stL
              simp only [hlv] at h1
              simp only [Except.ok.injEq, Prod.mk.injEq] at h1
              rw [← h1.2] at hclean
              simp at hclean
  | ok stT =>
  obtain ⟨t1v, txnN⟩ := stT
  simp only [htv] at h1
  cases hiv : syncInvestments db.securities db.holdings a1v item
      up.investments_resp with
  | error e3 =>
      exfalso
      simp only [hiv] at h1
      cases hlv : syncLiabilities db.liabilities a1v item
          up.liabilities_resp with
      | error e4 =>
          simp only [hlv] at h1
          simp only [Except.ok.injEq, Prod.mk.injEq] at h1
          rw [← h1.2] at hclean
          simp at hclean
      | ok stL =>
          obtain ⟨lv, lnv⟩ := stL
          simp only [hlv] at h1
          simp only [Except.ok.injEq, Prod.mk.injEq] at h1
          rw [← h1.2] at hclean
          simp at hclean
  | ok stI =>
  obtain ⟨sv, hv, hnv, snv⟩ := stI
  simp only [hiv] at h1
  cases hlv : syncLiabilities db.liabilities a1v item up.liabilities_resp with
  | error e4 =>
      exfalso
      simp only [hlv] at h1
      simp only [Except.ok.injEq, Prod.mk.injEq] at h1
      rw [← h1.2] at hclean
      simp at hclean
  | ok stL =>
  obtain ⟨lv, lnv⟩ := stL
  simp only [hlv] at h1
  simp only [Except.ok.injEq, Prod.mk.injEq] at h1
  obtain ⟨hdb1, hr1⟩ := h1
  cases hra : up.accounts_resp with
  | error e => rw [hra] at hacv; simp [syncAccounts] at hacv
  | ok recsA =>
  rw [hra] at hacv
  cases hrt : up.transactions_resp with
  | error e => rw [hrt] at htv; simp [syncTransactions] at htv
  | ok recsT =>
  rw [hrt] at htv
  cases hri : up.investments_resp with
  | error e => rw [hri] at hiv; simp [syncInvestments] at hiv
  | ok sh =>
  obtain ⟨secs, holds⟩ := sh
  rw [hri] at hiv
  cases hrl : up.liabilities_resp with
  | error e => rw [hrl] at hlv; simp [syncLiabilities] at hlv
  | ok ld =>
  rw [hrl] at hlv
  have hndA := hupA recsA hra
  have hndT := hupT recsT hrt
  obtain ⟨hndSec, hndHold⟩ := hupI (secs, holds) hri
  obtain ⟨hndC, hndS, hndM, hCS, hCM, hSM⟩ := hupL ld hrl
  have hacc2 := syncAccounts_rerun db.accounts db.balance_snapshots item
    { item with last_synced_at := some now } recsA today a1v s1v accN hndA hacv
  have htxn2 := syncTransactions_rerun db.transactions a1v item
    { item with last_synced_at := some now } recsT t1v txnN hndT htv
  have hinv2 := syncInvestments_rerun db.securities db.holdings a1v item
    { item with last_synced_at := some now } secs holds sv hv hnv snv
    hndSec hndHold hiv
  have hliab2 := syncLiabilities_rerun db.liabilities a1v item
    { item with last_synced_at := some now } ld lv lnv hndC hndS hndM
    hCS hCM hSM hlv
  simp only [syncItem] at h2
  have hpi : db1.items = findUpdate (fun i => i.id == itemId)
      (fun i => { i with last_synced_at := some now }) db.items := by
    rw [← hdb1]
  have hit2 : db1.items.find? (fun i => i.id == itemId) =
      some { item with last_synced_at := some now } := by
    rw [hpi, find?_findUpdate_self (fun i => i.id == itemId)
      (fun i => { i with last_synced_at := some now })
      (fun x hx => hx) db.items, hit]
    rfl
  have hpa : db1.accounts = a1v := by rw [← hdb1]
  have hpsn : db1.balance_snapshots = s1v := by rw [← hdb1]
  have hpt : db1.transactions = t1v := by rw [← hdb1]
  have hpsec : db1.securities = sv := by rw [← hdb1]
  have hph : db1.holdings = hv := by rw [← hdb1]
  have hpl : db1.liabilities = lv := by rw [← hdb1]
  simp only [hit2, hpa, hpsn, hpt, hpsec, hph, hpl, hra, hrt, hri, hrl] at h2
  simp only [hacc2] at h2
  simp only [htxn2] at h2
  simp only [hinv2] at h2
  simp only [hliab2] at h2
  simp only [Except.ok.injEq, Prod.mk.injEq] at h2
  obtain ⟨hdb2, hr2⟩ := h2
  have hfoldA : recsA.foldl (syncAccountsStep item today)
      (db.accounts, db.balance_snapshots, 0) = (a1v, s1v, accN) := by
    simpa [syncAccounts] using hacv
  have hshT := syncTransactions_shape db.transactions a1v item recsT t1v txnN
    hndT htv
  obtain ⟨hshS, hshH⟩ := syncInvestments_shape db.securities db.holdings a1v
    item secs holds sv hv hnv snv hiv
  have hshL := syncLiabilities_shape db.liabilities a1v item ld lv lnv
    hndC hndS hndM hlv
  refine ⟨?_, ?_, ?_, ?_, ?_, ?_, ?_, ?_, ?_, ?_, ?_, ?_⟩
  · rw [← hdb2, ← hdb1]
  · rw [← hdb2, ← hdb1]
  · rw [← hdb2, ← hdb1]
  · rw [← hdb2, ← hdb1]
  · rw [← hdb2, ← hdb1]
  · rw [← hdb2, ← hdb1]
  · rw [← hr2, ← hr1]
  · rw [hpa]
    have h := syncAccounts_foldl_accounts_nodup item today recsA
      (db.accounts, db.balance_snapshots, 0) hdbA
    rw [hfoldA] at h
    exact h
  · rw [hpt, hshT]
    exact syncTxnsPure_foldl_nodup a1v item recsT db.transactions hdbT
  · rw [hpsec, hshS]
    exact syncSecurity_foldl_nodup secs db.securities hdbS
  · rw [hph, hshH]
    exact syncHoldsPure_foldl_nodup a1v item
      (secs.map (fun r => r.security_id)) holds db.holdings hdbH
  · rw [hpl, hshL]
    exact liabPure_foldl_nodup a1v item "mortgage" (fun r => r.account_id)
      (fun r => updateMortgageLiability r) ld.mortgage
      (fun r l l2 he => updateMortgageLiability_keyE r l l2 he) _
      (liabPure_foldl_nodup a1v item "student" (fun r => r.account_id)
        (fun r => updateStudentLiability r) ld.student
        (fun r l l2 he => updateStudentLiability_keyE r l l2 he) _
        (liabPure_foldl_nodup a1v item "credit" (fun r => r.account_id)
          (fun r => updateCreditLiability r) ld.credit
          (fun r l l2 he => updateCreditLiability_keyE r l l2 he)
          db.liabilities hdbL))

theorem sync_idempotent_witness :
    upstreamWellKeyed testUpFull ∧ dbWellKeyed testDb ∧
    syncItem testDb testUpFull 100 50 "item1" = .ok (testDb1, testR1) ∧
    testR1.errors = [] ∧
    syncItem testDb1 testUpFull 200 50 "item1" = .ok (testDb2, testR2) ∧
    (testDb2.accounts = testDb1.accounts ∧
     testDb2.transactions = testDb1.transactions ∧
     testDb2.securities = testDb1.securities ∧
     testDb2.holdings = testDb1.holdings ∧
     testDb2.liabilities = testDb1.liabilities ∧
     testDb2.balance_snapshots = testDb1.balance_snapshots ∧
     testR2 = testR1 ∧ dbWellKeyed testDb1) := by
  have hup : upstreamWellKeyed testUpFull := by
    refine ⟨?_, ?_, ?_, ?_⟩
    · intro recs h; cases h; decide
    · intro recs h; cases h; decide
    · intro sh h; cases h; exact ⟨by decide, by decide⟩
    · intro ld h; cases h
      refine ⟨by decide, by decide, by decide, ?_, ?_, ?_⟩
      · intro r hr r2 hr2; cases hr2
      · intro r hr r2 hr2; cases hr2
      · intro r hr r2 hr2; cases hr
  have hdb : dbWellKeyed testDb := by
    refine ⟨?_, ?_, ?_, ?_, ?_⟩ <;> decide
  have h1 : syncItem testDb testUpFull 100 50 "item1" = .ok (testDb1, testR1) :=
    rfl
  have herr : testR1.errors = [] := rfl
  have h2 : syncItem testDb1 testUpFull 200 50 "item1" = .ok (testDb2, testR2) :=
    rfl
  exact ⟨hup, hdb, h1, herr, h2,
    sync_idempotent testDb testUpFull 100 50 200 "item1" testDb1 testDb2
      testR1 testR2 hup hdb h1 herr h2⟩
